import Mathlib

/-!
TauLabs path planner: waypoint / path-segment stores, UAVO proxy and arc geometry.

A shallow embedding of

* `ground/gcs/src/plugins/pathplanner/flightdatamodel.cpp`
  (`WaypointDataModel`, `PathSegmentDataModel`),
* `ground/gcs/src/plugins/pathplanner/modeluavoproxy.cpp` (`ModelUavoProxy`),
* `ground/gcs/src/libs/tlmapcontrol/src/mapwidget/maparc.cpp`
  (`MapArc::findArcCenter_px`).

Conventions.

* C++ `double` and `float` values are exact rationals (`ℚ`) in the two stores and in the
  proxy; the one place where the width matters, the narrowing `double → float`, is the
  function `Env.doubleToFloat`.  `findArcCenter_px` is written over an arbitrary linearly
  ordered field with the square root passed in, and is studied over `ℝ` with `Real.sqrt`.
* C++ `int` is `Int`; `quint8` fields are `Nat` written through `% 256`.
* A model object is a record holding its `QList` as a Lean list together with the list of
  signals it has emitted so far, oldest first.
* `QList::at` outside the list is undefined behaviour in C++; it is `none` here, and the
  functions that can reach it return an `Option`.
* Everything the code calls that lives outside these three files (Qt text conversions,
  the coordinate conversions of `utils/coordinateconversions`, the HomeLocation object,
  generated UAVO constants) is a field of `Env`; declarations of missing headers are
  modelled and marked as such.
-/

namespace TauLabs

/-! ## Qt scaffolding -/

/-- The value of `Qt::DisplayRole`. -/
def Qt.DisplayRole : Int := 0

/-- The value of `Qt::EditRole`. -/
def Qt.EditRole : Int := 2

/-- The value of `Qt::UserRole` (0x0100; the code only needs it to differ from the two
roles above). -/
def Qt.UserRole : Int := 256

/-- A `double[3]` array. -/
abbrev Double3 := ℚ × ℚ × ℚ

/-- The `struct NED` used by `getNED` and `setNED`. -/
structure NED where
  North : ℚ
  East : ℚ
  Down : ℚ
  deriving DecidableEq, Repr

/-- The integer values of the options `Waypoint::MODE_*`, an enumeration of the generated
header `waypoint.h`; they are parameters. -/
structure WaypointModes where
  MODE_CIRCLEPOSITIONLEFT : Int
  MODE_CIRCLEPOSITIONRIGHT : Int
  MODE_DRIVECIRCLELEFT : Int
  MODE_DRIVECIRCLERIGHT : Int
  MODE_DRIVEENDPOINT : Int
  MODE_DRIVEVECTOR : Int
  MODE_FLYCIRCLELEFT : Int
  MODE_FLYCIRCLERIGHT : Int
  MODE_FLYENDPOINT : Int
  MODE_FLYVECTOR : Int
  MODE_LAND : Int
  MODE_STOP : Int

/-- Modelled from the spec: the record `Waypoint::DataFields` of the generated header
`waypoint.h`, which is missing. It has the four fields the proxy reads and writes
(`Position`, `Velocity` and `ModeParameters` are `float`, `Mode` is `quint8`) and `others`
stands for every remaining field, which the sync leaves untouched. -/
structure Waypoint.DataFields where
  Position : Double3
  Velocity : ℚ
  Mode : Nat
  ModeParameters : ℚ
  others : List ℚ
  deriving DecidableEq, Repr

/-- Modelled from the spec: the record `PathSegmentDescriptor::DataFields` of the
generated header `pathsegmentdescriptor.h`, which is missing. It has the four fields the
proxy reads and writes (`SwitchingLocus` and `PathCurvature` are `float`, `NumberOfOrbits`
and `ArcRank` are `quint8`) and `others` stands for every remaining field, which the sync
leaves untouched. -/
structure PathSegmentDescriptor.DataFields where
  SwitchingLocus : Double3
  PathCurvature : ℚ
  NumberOfOrbits : Nat
  ArcRank : Nat
  others : List ℚ
  deriving DecidableEq, Repr

/-- What the modelled code uses from outside the modelled files. -/
structure Env where
  /-- The array filled by `getHomeLocation`: HomeLocation latitude / 1e7, longitude / 1e7,
  altitude. -/
  homeLLA : Double3
  /-- The call `Utils::CoordinateConversions().LLA2NED_HomeLLA(LLA, homeLLA, NED)`. -/
  LLA2NED_HomeLLA : Double3 → Double3 → Double3
  /-- The call `Utils::CoordinateConversions().NED2LLA_HomeLLA(homeLLA, NED, LLA)`. -/
  NED2LLA_HomeLLA : Double3 → Double3 → Double3
  /-- The conversion `QString::toDouble`. -/
  strToDouble : String → ℚ
  /-- The conversion `QString::toInt`. -/
  strToInt : String → Int
  /-- The conversion of a `QString` variant to `bool`. -/
  strToBool : String → Bool
  /-- The conversion `QString::number` on a floating-point value. -/
  numToStr : ℚ → String
  /-- The conversion `QString::number` on an integer. -/
  intToStr : Int → String
  /-- The rounding of a floating-point variant to `int`. -/
  qRound : ℚ → Int
  /-- The narrowing of a `double` to a `float`. -/
  doubleToFloat : ℚ → ℚ
  /-- The values of the `Waypoint::MODE_*` options. -/
  modes : WaypointModes
  /-- The data of a freshly constructed `Waypoint` object. -/
  waypointDefault : Waypoint.DataFields
  /-- The data of a freshly constructed `PathSegmentDescriptor` object. -/
  pathSegmentDescriptorDefault : PathSegmentDescriptor.DataFields

/-- A `QVariant`, by the type of its payload. -/
inductive QVariant
  | invalid
  | str (s : String)
  | double (d : ℚ)
  | float (f : ℚ)
  | int (i : Int)
  | bool (b : Bool)
  deriving DecidableEq, Repr

/-- The conversion `QVariant::toString`. -/
def QVariant.toString (env : Env) : QVariant → String
  | .invalid => ""
  | .str s => s
  | .double d => env.numToStr d
  | .float f => env.numToStr f
  | .int i => env.intToStr i
  | .bool b => if b then "true" else "false"

/-- The conversion `QVariant::toDouble`. -/
def QVariant.toDouble (env : Env) : QVariant → ℚ
  | .invalid => 0
  | .str s => env.strToDouble s
  | .double d => d
  | .float f => f
  | .int i => (i : ℚ)
  | .bool b => if b then 1 else 0

/-- The conversion `QVariant::toFloat`. -/
def QVariant.toFloat (env : Env) : QVariant → ℚ
  | .invalid => 0
  | .str s => env.doubleToFloat (env.strToDouble s)
  | .double d => env.doubleToFloat d
  | .float f => f
  | .int i => env.doubleToFloat (i : ℚ)
  | .bool b => if b then 1 else 0

/-- The conversion `QVariant::toInt`. -/
def QVariant.toInt (env : Env) : QVariant → Int
  | .invalid => 0
  | .str s => env.strToInt s
  | .double d => env.qRound d
  | .float f => env.qRound f
  | .int i => i
  | .bool b => if b then 1 else 0

/-- The conversion `QVariant::toBool`. -/
def QVariant.toBool (env : Env) : QVariant → Bool
  | .invalid => false
  | .str s => env.strToBool s
  | .double d => decide (d ≠ 0)
  | .float f => decide (f ≠ 0)
  | .int i => decide (i ≠ 0)
  | .bool b => b

/-- A `QModelIndex` of a table model: a row and a column. The default-constructed index
is `(-1, -1)`. -/
structure QModelIndex where
  row : Int
  column : Int
  deriving DecidableEq, Repr

/-- The default-constructed `QModelIndex()`. -/
def QModelIndex.none : QModelIndex := ⟨-1, -1⟩

/-- The test `QModelIndex::isValid` for an index that belongs to a model. -/
def QModelIndex.isValid (i : QModelIndex) : Bool := decide (0 ≤ i.row) && decide (0 ≤ i.column)

/-- The signals of `QAbstractItemModel` that the two models emit. -/
inductive ModelSignal
  | dataChanged (topLeft bottomRight : QModelIndex)
  | rowsAboutToBeInserted (first last : Int)
  | rowsInserted (first last : Int)
  | rowsAboutToBeRemoved (first last : Int)
  | rowsRemoved (first last : Int)
  deriving DecidableEq, Repr

/-- The access `QList::at(i)`; outside the list (undefined in C++) it is `none`. -/
def QList.at {α : Type} (l : List α) (i : Int) : Option α :=
  if 0 ≤ i then l[i.toNat]? else none

/-- The call `QList::insert(i, v)`: prepends for `i ≤ 0`, appends for `i ≥ size`. -/
def QList.insert {α : Type} (l : List α) (i : Int) (v : α) : List α :=
  if i ≤ 0 then v :: l
  else if (l.length : Int) ≤ i then l ++ [v]
  else l.take i.toNat ++ v :: l.drop i.toNat

/-- The call `QList::removeAt(i)`: does nothing outside the list. -/
def QList.removeAt {α : Type} (l : List α) (i : Int) : List α :=
  if 0 ≤ i ∧ i < (l.length : Int) then l.eraseIdx i.toNat else l

/-- The call `QMap::insert(key, v)` on a map kept as the list of its insertions, the
latest first. -/
def QMap.insert {β : Type} (entries : List (Int × β)) (key : Int) (v : β) : List (Int × β) :=
  (key, v) :: entries

/-- The call `QMap::value(key)`: the latest value inserted under the key, or the
default-constructed value `dflt` when there is none. -/
def QMap.value {β : Type} (entries : List (Int × β)) (key : Int) (dflt : β) : β :=
  match entries.find? (fun e => decide (e.1 = key)) with
  | some e => e.2
  | none => dflt

/-! ## WaypointDataModel -/

/-- Modelled from the spec: the record `waypointData` held by
`WaypointDataModel::dataStorage`, declared in the missing `flightdatamodel.h`. The fields
are those of the waypoint record of the spec, under the names and with the conversions
(`toString`, `toDouble`, `toFloat`, `toInt`, `toBool`) that `flightdatamodel.cpp` uses. -/
structure waypointData where
  wpDescritption : String
  latPosition : ℚ
  lngPosition : ℚ
  altitude : ℚ
  velocity : ℚ
  mode : Int
  mode_params : ℚ
  locked : Bool
  deriving DecidableEq, Repr

/-- The state of a `WaypointDataModel`. -/
structure WaypointDataModel where
  dataStorage : List waypointData
  emitted : List ModelSignal
  deriving DecidableEq, Repr

namespace WaypointDataModel

/-- Modelled from the spec: the column enumeration of `WaypointDataModel`, declared in
the missing `flightdatamodel.h`. The spec fixes eleven waypoint columns; they are numbered
in the order in which every `switch` of `flightdatamodel.cpp` lists them. -/
inductive Column
  | WPDESCRITPTION
  | LATPOSITION
  | LNGPOSITION
  | ALTITUDE
  | NED_NORTH
  | NED_EAST
  | NED_DOWN
  | VELOCITY
  | MODE
  | MODE_PARAMS
  | LOCKED
  deriving DecidableEq, Repr

/-- The integer value of a column enumerator. -/
def Column.toInt : Column → Int
  | .WPDESCRITPTION => 0
  | .LATPOSITION => 1
  | .LNGPOSITION => 2
  | .ALTITUDE => 3
  | .NED_NORTH => 4
  | .NED_EAST => 5
  | .NED_DOWN => 6
  | .VELOCITY => 7
  | .MODE => 8
  | .MODE_PARAMS => 9
  | .LOCKED => 10

/-- The enumerator `LASTCOLUMN`. -/
def LASTCOLUMN : Int := 11

/-- The enumerator selected by `switch (index.column())`, if any. -/
def Column.ofInt (c : Int) : Option Column :=
  if c = 0 then some .WPDESCRITPTION
  else if c = 1 then some .LATPOSITION
  else if c = 2 then some .LNGPOSITION
  else if c = 3 then some .ALTITUDE
  else if c = 4 then some .NED_NORTH
  else if c = 5 then some .NED_EAST
  else if c = 6 then some .NED_DOWN
  else if c = 7 then some .VELOCITY
  else if c = 8 then some .MODE
  else if c = 9 then some .MODE_PARAMS
  else if c = 10 then some .LOCKED
  else none

/-- The static map `modeNames` as the constructor fills it (latest insertion first). -/
def modeNames (env : Env) : List (Int × String) :=
  [ (env.modes.MODE_STOP, "Stop"),
    (env.modes.MODE_LAND, "Land"),
    (env.modes.MODE_FLYVECTOR, "Fly Vector"),
    (env.modes.MODE_FLYENDPOINT, "Fly Endpoint"),
    (env.modes.MODE_FLYCIRCLERIGHT, "Fly Circle Right"),
    (env.modes.MODE_FLYCIRCLELEFT, "Fly Circle Left"),
    (env.modes.MODE_DRIVEVECTOR, "Drive Vector"),
    (env.modes.MODE_DRIVEENDPOINT, "Drive Endpoint"),
    (env.modes.MODE_DRIVECIRCLERIGHT, "Drive Circle Right"),
    (env.modes.MODE_DRIVECIRCLELEFT, "Drive Circle Left"),
    (env.modes.MODE_CIRCLEPOSITIONRIGHT, "Circle Position Right"),
    (env.modes.MODE_CIRCLEPOSITIONLEFT, "Circle Position Left") ]

/-- The constructor: an empty flight plan. -/
def empty : WaypointDataModel := ⟨[], []⟩

/-- The method `rowCount`. -/
def rowCount (m : WaypointDataModel) : Int := (m.dataStorage.length : Int)

/-- The method `columnCount` for the root parent. -/
def columnCount (_m : WaypointDataModel) : Int := LASTCOLUMN

/-- The inherited `QAbstractTableModel::index(row, column)`: a valid index exactly when
`hasIndex(row, column)` holds. -/
def index (m : WaypointDataModel) (row column : Int) : QModelIndex :=
  if 0 ≤ row ∧ 0 ≤ column ∧ row < m.rowCount ∧ column < m.columnCount then ⟨row, column⟩
  else QModelIndex.none

/-- Appends a signal to the emitted ones. -/
def emit (m : WaypointDataModel) (s : ModelSignal) : WaypointDataModel :=
  { m with emitted := m.emitted ++ [s] }

/-- A write through the pointer `dataStorage.at(row)`. -/
def setRow (m : WaypointDataModel) (row : Int) (r : waypointData) : WaypointDataModel :=
  { m with dataStorage := m.dataStorage.set row.toNat r }

/-- The method `getNED`. -/
def getNED (env : Env) (m : WaypointDataModel) (index : Int) : Option NED :=
  match QList.at m.dataStorage index with
  | Option.none => Option.none
  | some row =>
    let f_NED := env.LLA2NED_HomeLLA (row.latPosition, row.lngPosition, row.altitude) env.homeLLA
    some ⟨f_NED.1, f_NED.2.1, f_NED.2.2⟩

/-- The method `setNED`. -/
def setNED (env : Env) (m : WaypointDataModel) (index : Int) (ned : NED) :
    Option WaypointDataModel :=
  match QList.at m.dataStorage index with
  | Option.none => Option.none
  | some row =>
    let lla := env.NED2LLA_HomeLLA env.homeLLA (ned.North, ned.East, ned.Down)
    some (m.setRow index
      { row with latPosition := lla.1, lngPosition := lla.2.1, altitude := lla.2.2 })

/-- The method `data`. -/
def data (env : Env) (m : WaypointDataModel) (index : QModelIndex) (role : Int) : QVariant :=
  if role = Qt.DisplayRole ∨ role = Qt.EditRole ∨ role = Qt.UserRole then
    if ¬ index.isValid ∨ index.row > m.rowCount - 1 then QVariant.invalid
    else
      match QList.at m.dataStorage index.row with
      | Option.none => QVariant.invalid
      | some row =>
        if index.column = Column.MODE.toInt ∧ role = Qt.DisplayRole then
          QVariant.str (QMap.value (modeNames env) row.mode "")
        else
          match Column.ofInt index.column with
          | some .WPDESCRITPTION => QVariant.str row.wpDescritption
          | some .LATPOSITION => QVariant.double row.latPosition
          | some .LNGPOSITION => QVariant.double row.lngPosition
          | some .ALTITUDE => QVariant.double row.altitude
          | some .NED_NORTH =>
            match getNED env m index.row with
            | some ned => QVariant.double ned.North
            | Option.none => QVariant.invalid
          | some .NED_EAST =>
            match getNED env m index.row with
            | some ned => QVariant.double ned.East
            | Option.none => QVariant.invalid
          | some .NED_DOWN =>
            match getNED env m index.row with
            | some ned => QVariant.double ned.Down
            | Option.none => QVariant.invalid
          | some .VELOCITY => QVariant.float row.velocity
          | some .MODE => QVariant.int row.mode
          | some .MODE_PARAMS => QVariant.float row.mode_params
          | some .LOCKED => QVariant.bool row.locked
          | Option.none => QVariant.invalid
  else QVariant.invalid

/-- The statement pair `otherIndex = this->index(row, column); emit dataChanged(otherIndex,
otherIndex);`. -/
def emitOther (m : WaypointDataModel) (row : Int) (c : Column) : WaypointDataModel :=
  m.emit (.dataChanged (m.index row c.toInt) (m.index row c.toInt))

/-- The `switch` of `setData` for a row that may be edited: the model after the selected
case, or `none` inside when the `default` case returns false. -/
def setDataSwitch (env : Env) (m : WaypointDataModel) (index : QModelIndex) (row : waypointData)
    (value : QVariant) : Option (Option WaypointDataModel) :=
  match Column.ofInt index.column with
  | some .WPDESCRITPTION =>
    some (some (m.setRow index.row { row with wpDescritption := value.toString env }))
  | some .LATPOSITION =>
    let m1 := m.setRow index.row { row with latPosition := value.toDouble env }
    some (some ((m1.emitOther index.row .NED_NORTH).emitOther index.row .NED_EAST))
  | some .LNGPOSITION =>
    let m1 := m.setRow index.row { row with lngPosition := value.toDouble env }
    some (some (m1.emitOther index.row .NED_EAST))
  | some .ALTITUDE =>
    let m1 := m.setRow index.row { row with altitude := value.toDouble env }
    some (some (m1.emitOther index.row .NED_DOWN))
  | some .NED_NORTH =>
    match getNED env m index.row with
    | Option.none => Option.none
    | some ned =>
      match setNED env m index.row { ned with North := value.toDouble env } with
      | Option.none => Option.none
      | some m1 => some (some ((m1.emitOther index.row .LATPOSITION).emitOther index.row .LNGPOSITION))
  | some .NED_EAST =>
    match getNED env m index.row with
    | Option.none => Option.none
    | some ned =>
      match setNED env m index.row { ned with East := value.toDouble env } with
      | Option.none => Option.none
      | some m1 => some (some (m1.emitOther index.row .LNGPOSITION))
  | some .NED_DOWN =>
    match getNED env m index.row with
    | Option.none => Option.none
    | some ned =>
      match setNED env m index.row { ned with Down := value.toDouble env } with
      | Option.none => Option.none
      | some m1 => some (some (m1.emitOther index.row .ALTITUDE))
  | some .VELOCITY =>
    some (some (m.setRow index.row { row with velocity := value.toFloat env }))
  | some .MODE =>
    some (some (m.setRow index.row { row with mode := value.toInt env }))
  | some .MODE_PARAMS =>
    some (some (m.setRow index.row { row with mode_params := value.toFloat env }))
  | some .LOCKED =>
    some (some (m.setRow index.row { row with locked := value.toBool env }))
  | Option.none => some Option.none

/-- The method `setData`: the returned flag and the model afterwards; `none` when the
call reads `dataStorage.at` outside the list. -/
def setData (env : Env) (m : WaypointDataModel) (index : QModelIndex) (value : QVariant)
    (role : Int) : Option (Bool × WaypointDataModel) :=
  if index.isValid = true ∧ role = Qt.EditRole then
    match QList.at m.dataStorage index.row with
    | Option.none => Option.none
    | some row =>
      if row.locked = true ∧ index.column ≠ Column.LOCKED.toInt then some (false, m)
      else
        match setDataSwitch env m index row value with
        | Option.none => Option.none
        | some Option.none => some (false, m)
        | some (some m1) => some (true, m1.emit (.dataChanged index index))
  else some (false, m)

/-- One pass of the loop body of `insertRows`: the new record. -/
def newRecord (env : Env) (m : WaypointDataModel) : waypointData :=
  if m.rowCount > 0 then
    match QList.at m.dataStorage (m.rowCount - 1) with
    | some prevRow =>
      { wpDescritption := "", latPosition := 0, lngPosition := 0,
        altitude := prevRow.altitude, velocity := prevRow.velocity, mode := prevRow.mode,
        mode_params := prevRow.mode_params, locked := prevRow.locked }
    | Option.none =>
      { wpDescritption := "", latPosition := 0, lngPosition := 0, altitude := 0, velocity := 0,
        mode := env.modes.MODE_FLYVECTOR, mode_params := 0, locked := false }
  else
    { wpDescritption := "", latPosition := 0, lngPosition := 0, altitude := 0, velocity := 0,
      mode := env.modes.MODE_FLYVECTOR, mode_params := 0, locked := false }

/-- The loop of `insertRows`, `n` passes. -/
def insertLoop (env : Env) (row : Int) : Nat → WaypointDataModel → WaypointDataModel
  | 0, m => m
  | n + 1, m =>
    insertLoop env row n { m with dataStorage := QList.insert m.dataStorage row (newRecord env m) }

/-- The method `insertRows`. -/
def insertRows (env : Env) (m : WaypointDataModel) (row count : Int) : Bool × WaypointDataModel :=
  let m1 := m.emit (.rowsAboutToBeInserted row (row + count - 1))
  let m2 := insertLoop env row count.toNat m1
  (true, m2.emit (.rowsInserted row (row + count - 1)))

/-- The inherited `insertRow(row)`, which calls `insertRows(row, 1)`. -/
def insertRow (env : Env) (m : WaypointDataModel) (row : Int) : Bool × WaypointDataModel :=
  insertRows env m row 1

/-- The loop of `removeRows`, `n` passes. -/
def removeLoop (row : Int) : Nat → List waypointData → Option (List waypointData)
  | 0, l => some l
  | n + 1, l =>
    match QList.at l row with
    | Option.none => Option.none
    | some _ => removeLoop row n (QList.removeAt l row)

/-- The method `removeRows`; `none` when `delete dataStorage.at(row)` reads outside the
list. -/
def removeRows (m : WaypointDataModel) (row count : Int) : Option (Bool × WaypointDataModel) :=
  if row < 0 then some (false, m)
  else
    let m1 := m.emit (.rowsAboutToBeRemoved row (row + count - 1))
    match removeLoop row count.toNat m1.dataStorage with
    | Option.none => Option.none
    | some l => some (true, ({ m1 with dataStorage := l }).emit (.rowsRemoved row (row + count - 1)))

/-- The inner loop of `replaceData` over the columns `j, j+1, ...` (`n` passes). -/
def replaceColumns (env : Env) (newModel : WaypointDataModel) (i : Int) :
    Nat → Int → WaypointDataModel → Option WaypointDataModel
  | 0, _, m => some m
  | n + 1, j, m =>
    match setData env m (m.index i j) (newModel.data env (newModel.index i j) Qt.UserRole)
        Qt.EditRole with
    | Option.none => Option.none
    | some r => replaceColumns env newModel i n (j + 1) r.2

/-- The outer loop of `replaceData` over the rows `i, i+1, ...` (`n` passes). -/
def replaceRows (env : Env) (newModel : WaypointDataModel) :
    Nat → Int → WaypointDataModel → Option WaypointDataModel
  | 0, _, m => some m
  | n + 1, i, m =>
    match replaceColumns env newModel i newModel.columnCount.toNat 0 (insertRow env m i).2 with
    | Option.none => Option.none
    | some m1 => replaceRows env newModel n (i + 1) m1

/-- The method `replaceData`. -/
def replaceData (env : Env) (m newModel : WaypointDataModel) : Option (Bool × WaypointDataModel) :=
  match removeRows m 0 m.rowCount with
  | Option.none => Option.none
  | some r =>
    match replaceRows env newModel newModel.rowCount.toNat 0 r.2 with
    | Option.none => Option.none
    | some m1 => some (true, m1)

end WaypointDataModel

/-! ## PathSegmentDataModel -/

/-- Modelled from the spec: the record `pathSegmentData` held by
`PathSegmentDataModel::dataStorage`, declared in the missing `flightdatamodel.h`. The
fields are those of the path-segment record of the spec, under the names and with the
conversions that `flightdatamodel.cpp` uses. -/
structure pathSegmentData where
  segmentDescription : String
  posNED : Double3
  velNED : Double3
  accNED : Double3
  curvature : ℚ
  numberOfOrbits : Int
  arcRank : Int
  deriving DecidableEq, Repr

/-- The state of a `PathSegmentDataModel`. -/
structure PathSegmentDataModel where
  dataStorage : List pathSegmentData
  emitted : List ModelSignal
  deriving DecidableEq, Repr

namespace PathSegmentDataModel

/-- Modelled from the spec: the column enumeration of `PathSegmentDataModel`, declared in
the missing `flightdatamodel.h`. The spec fixes thirteen path-segment columns; they are
numbered in the order in which every `switch` of `flightdatamodel.cpp` lists them. -/
inductive Column
  | SEGMENT_DESCRIPTION
  | NED_POS_NORTH
  | NED_POS_EAST
  | NED_POS_DOWN
  | NED_VEL_NORTH
  | NED_VEL_EAST
  | NED_VEL_DOWN
  | NED_ACC_NORTH
  | NED_ACC_EAST
  | NED_ACC_DOWN
  | CURVATURE
  | NUM_ORBITS
  | ARC_RANK
  deriving DecidableEq, Repr

/-- The integer value of a column enumerator. -/
def Column.toInt : Column → Int
  | .SEGMENT_DESCRIPTION => 0
  | .NED_POS_NORTH => 1
  | .NED_POS_EAST => 2
  | .NED_POS_DOWN => 3
  | .NED_VEL_NORTH => 4
  | .NED_VEL_EAST => 5
  | .NED_VEL_DOWN => 6
  | .NED_ACC_NORTH => 7
  | .NED_ACC_EAST => 8
  | .NED_ACC_DOWN => 9
  | .CURVATURE => 10
  | .NUM_ORBITS => 11
  | .ARC_RANK => 12

/-- The enumerator `LASTCOLUMN`. -/
def LASTCOLUMN : Int := 13

/-- The enumerator selected by `switch (index.column())`, if any. -/
def Column.ofInt (c : Int) : Option Column :=
  if c = 0 then some .SEGMENT_DESCRIPTION
  else if c = 1 then some .NED_POS_NORTH
  else if c = 2 then some .NED_POS_EAST
  else if c = 3 then some .NED_POS_DOWN
  else if c = 4 then some .NED_VEL_NORTH
  else if c = 5 then some .NED_VEL_EAST
  else if c = 6 then some .NED_VEL_DOWN
  else if c = 7 then some .NED_ACC_NORTH
  else if c = 8 then some .NED_ACC_EAST
  else if c = 9 then some .NED_ACC_DOWN
  else if c = 10 then some .CURVATURE
  else if c = 11 then some .NUM_ORBITS
  else if c = 12 then some .ARC_RANK
  else none

/-- The method `rowCount`. -/
def rowCount (m : PathSegmentDataModel) : Int := (m.dataStorage.length : Int)

/-- The method `columnCount` for the root parent. -/
def columnCount (_m : PathSegmentDataModel) : Int := LASTCOLUMN

/-- The inherited `QAbstractTableModel::index(row, column)`. -/
def index (m : PathSegmentDataModel) (row column : Int) : QModelIndex :=
  if 0 ≤ row ∧ 0 ≤ column ∧ row < m.rowCount ∧ column < m.columnCount then ⟨row, column⟩
  else QModelIndex.none

/-- Appends a signal to the emitted ones. -/
def emit (m : PathSegmentDataModel) (s : ModelSignal) : PathSegmentDataModel :=
  { m with emitted := m.emitted ++ [s] }

/-- A write through the pointer `dataStorage.at(row)`. -/
def setRow (m : PathSegmentDataModel) (row : Int) (r : pathSegmentData) : PathSegmentDataModel :=
  { m with dataStorage := m.dataStorage.set row.toNat r }

/-- The method `data`. -/
def data (m : PathSegmentDataModel) (index : QModelIndex) (role : Int) : QVariant :=
  if role = Qt.DisplayRole ∨ role = Qt.EditRole ∨ role = Qt.UserRole then
    if ¬ index.isValid ∨ index.row > m.rowCount - 1 then QVariant.invalid
    else
      match QList.at m.dataStorage index.row with
      | Option.none => QVariant.invalid
      | some row =>
        match Column.ofInt index.column with
        | some .SEGMENT_DESCRIPTION => QVariant.str row.segmentDescription
        | some .NED_POS_NORTH => QVariant.double row.posNED.1
        | some .NED_POS_EAST => QVariant.double row.posNED.2.1
        | some .NED_POS_DOWN => QVariant.double row.posNED.2.2
        | some .NED_VEL_NORTH => QVariant.double row.velNED.1
        | some .NED_VEL_EAST => QVariant.double row.velNED.2.1
        | some .NED_VEL_DOWN => QVariant.double row.velNED.2.2
        | some .NED_ACC_NORTH => QVariant.double row.accNED.1
        | some .NED_ACC_EAST => QVariant.double row.accNED.2.1
        | some .NED_ACC_DOWN => QVariant.double row.accNED.2.2
        | some .CURVATURE => QVariant.double row.curvature
        | some .NUM_ORBITS => QVariant.int row.numberOfOrbits
        | some .ARC_RANK => QVariant.int row.arcRank
        | Option.none => QVariant.invalid
  else QVariant.invalid

/-- The `switch` of `setData`: the record after the selected case, or `none` when the
`default` case returns false. -/
def setDataSwitch (env : Env) (column : Int) (row : pathSegmentData) (value : QVariant) :
    Option pathSegmentData :=
  match Column.ofInt column with
  | some .SEGMENT_DESCRIPTION => some { row with segmentDescription := value.toString env }
  | some .NED_POS_NORTH =>
    some { row with posNED := (value.toDouble env, row.posNED.2.1, row.posNED.2.2) }
  | some .NED_POS_EAST =>
    some { row with posNED := (row.posNED.1, value.toDouble env, row.posNED.2.2) }
  | some .NED_POS_DOWN =>
    some { row with posNED := (row.posNED.1, row.posNED.2.1, value.toDouble env) }
  | some .NED_VEL_NORTH =>
    some { row with velNED := (value.toDouble env, row.velNED.2.1, row.velNED.2.2) }
  | some .NED_VEL_EAST =>
    some { row with velNED := (row.velNED.1, value.toDouble env, row.velNED.2.2) }
  | some .NED_VEL_DOWN =>
    some { row with velNED := (row.velNED.1, row.velNED.2.1, value.toDouble env) }
  | some .NED_ACC_NORTH =>
    some { row with accNED := (value.toDouble env, row.accNED.2.1, row.accNED.2.2) }
  | some .NED_ACC_EAST =>
    some { row with accNED := (row.accNED.1, value.toDouble env, row.accNED.2.2) }
  | some .NED_ACC_DOWN =>
    some { row with accNED := (row.accNED.1, row.accNED.2.1, value.toDouble env) }
  | some .CURVATURE => some { row with curvature := value.toDouble env }
  | some .NUM_ORBITS => some { row with numberOfOrbits := value.toInt env }
  | some .ARC_RANK => some { row with arcRank := value.toInt env }
  | Option.none => Option.none

/-- The method `setData`: the returned flag and the model afterwards; `none` when the
call reads `dataStorage.at` outside the list. -/
def setData (env : Env) (m : PathSegmentDataModel) (index : QModelIndex) (value : QVariant)
    (role : Int) : Option (Bool × PathSegmentDataModel) :=
  if index.isValid = true ∧ role = Qt.EditRole then
    match QList.at m.dataStorage index.row with
    | Option.none => Option.none
    | some row =>
      match setDataSwitch env index.column row value with
      | Option.none => some (false, m)
      | some row1 => some (true, (m.setRow index.row row1).emit (.dataChanged index index))
  else some (false, m)

/-- The record that one pass of the loop of `insertRows` creates. -/
def newRecord : pathSegmentData :=
  { segmentDescription := "", posNED := (0, 0, 0), velNED := (0, 0, 0), accNED := (0, 0, 0),
    curvature := 0, numberOfOrbits := 0, arcRank := 0 }

/-- The loop of `insertRows`, `n` passes. -/
def insertLoop (row : Int) : Nat → List pathSegmentData → List pathSegmentData
  | 0, l => l
  | n + 1, l => insertLoop row n (QList.insert l row newRecord)

/-- The method `insertRows`. -/
def insertRows (m : PathSegmentDataModel) (row count : Int) : Bool × PathSegmentDataModel :=
  let m1 := m.emit (.rowsAboutToBeInserted row (row + count - 1))
  let m2 := { m1 with dataStorage := insertLoop row count.toNat m1.dataStorage }
  (true, m2.emit (.rowsInserted row (row + count - 1)))

/-- The inherited `insertRow(row)`, which calls `insertRows(row, 1)`. -/
def insertRow (m : PathSegmentDataModel) (row : Int) : Bool × PathSegmentDataModel :=
  insertRows m row 1

/-- The loop of `removeRows`, `n` passes. -/
def removeLoop (row : Int) : Nat → List pathSegmentData → Option (List pathSegmentData)
  | 0, l => some l
  | n + 1, l =>
    match QList.at l row with
    | Option.none => Option.none
    | some _ => removeLoop row n (QList.removeAt l row)

/-- The method `removeRows`; `none` when `delete dataStorage.at(row)` reads outside the
list. -/
def removeRows (m : PathSegmentDataModel) (row count : Int) :
    Option (Bool × PathSegmentDataModel) :=
  if row < 0 then some (false, m)
  else
    let m1 := m.emit (.rowsAboutToBeRemoved row (row + count - 1))
    match removeLoop row count.toNat m1.dataStorage with
    | Option.none => Option.none
    | some l => some (true, ({ m1 with dataStorage := l }).emit (.rowsRemoved row (row + count - 1)))

end PathSegmentDataModel

/-! ## ModelUavoProxy -/

/-- Modelled from the spec: the record `UAVObject::Metadata` (delivery-mode settings of
an object), declared in the missing `uavobject.h`. It has the flag that requires
acknowledgment of flight telemetry, which `SetFlightTelemetryAcked` writes, and `others`
stands for the remaining settings. -/
structure Metadata where
  flightTelemetryAcked : Bool
  others : List Nat
  deriving DecidableEq, Repr

/-- Modelled from the spec: the call `UAVObject::SetFlightTelemetryAcked(meta, val)`
of the missing `uavobject.cpp`, which toggles the acknowledgment requirement. -/
def SetFlightTelemetryAcked (metadata : Metadata) (val : Bool) : Metadata :=
  { metadata with flightTelemetryAcked := val }

/-- One call of `updated()` on an object instance: the instance, the data it holds at
that moment, and the telemetry-acknowledged flag of its object at that moment. -/
inductive Submission
  | waypoint (instID : Nat) (data : Waypoint.DataFields) (acked : Bool)
  | pathSegmentDescriptor (instID : Nat) (data : PathSegmentDescriptor.DataFields) (acked : Bool)
  deriving DecidableEq, Repr

/-- The instances registered with the `UAVObjectManager` (instance `i` of an object at
position `i` of its list), the metadata of the two objects, and every `updated()` call
so far, oldest first. -/
structure UAVObjectManager where
  waypoints : List Waypoint.DataFields
  waypointMetadata : Metadata
  pathSegmentDescriptors : List PathSegmentDescriptor.DataFields
  pathSegmentDescriptorMetadata : Metadata
  updates : List Submission
  deriving DecidableEq, Repr

/-- The `transactionCompleted(obj, success)` signals that reach the proxy after one
`updated()`: `inWindow` is the one delivered while the first `m_eventloop.exec()` of the
attempt runs (`none`: the 500 ms timer ends the wait), `late` is one delivered during the
back-off wait that follows an unsuccessful attempt. -/
structure Completion where
  inWindow : Option Bool
  late : Option Bool
  deriving DecidableEq, Repr

/-- The remote side: what comes back for the latest `updated()`, given every `updated()`
so far (the latest last). -/
abbrev Channel := List Submission → Completion

/-- The state that `ModelUavoProxy` works on: the object manager and the two result
maps. -/
structure ModelUavoProxy where
  objManager : UAVObjectManager
  waypointTransactionResult : List (Int × Bool)
  pathSegmentDescriptorTransactionResult : List (Int × Bool)
  deriving DecidableEq, Repr

namespace ModelUavoProxy

/-- The slot `waypointTransactionCompleted` for the object with instance id `instID`. -/
def waypointTransactionCompleted (p : ModelUavoProxy) (instID : Nat) (success : Bool) :
    ModelUavoProxy :=
  { p with waypointTransactionResult := QMap.insert p.waypointTransactionResult instID success }

/-- The slot `pathSegmentDescriptorTransactionCompleted` for the object with instance id
`instID`. -/
def pathSegmentDescriptorTransactionCompleted (p : ModelUavoProxy) (instID : Nat)
    (success : Bool) : ModelUavoProxy :=
  { p with pathSegmentDescriptorTransactionResult :=
      QMap.insert p.pathSegmentDescriptorTransactionResult instID success }

/-- A slot run for a delivered signal, nothing for none. -/
def deliver (slot : ModelUavoProxy → Nat → Bool → ModelUavoProxy) (p : ModelUavoProxy)
    (instID : Nat) : Option Bool → ModelUavoProxy
  | Option.none => p
  | some success => slot p instID success

/-- The statements `wp->setData(data); wp->updated();` on waypoint instance `inst`. -/
def submitWaypoint (p : ModelUavoProxy) (data : Waypoint.DataFields) (inst : Nat) :
    ModelUavoProxy :=
  { p with objManager :=
      { p.objManager with
        waypoints := p.objManager.waypoints.set inst data
        updates := p.objManager.updates ++
          [Submission.waypoint inst data p.objManager.waypointMetadata.flightTelemetryAcked] } }

/-- The statements `psd->setData(data); psd->updated();` on descriptor instance `inst`. -/
def submitPathSegmentDescriptor (p : ModelUavoProxy) (data : PathSegmentDescriptor.DataFields)
    (inst : Nat) : ModelUavoProxy :=
  { p with objManager :=
      { p.objManager with
        pathSegmentDescriptors := p.objManager.pathSegmentDescriptors.set inst data
        updates := p.objManager.updates ++
          [Submission.pathSegmentDescriptor inst data
            p.objManager.pathSegmentDescriptorMetadata.flightTelemetryAcked] } }

/-- The `for` loop of `robustUpdate(Waypoint::DataFields, int)` with `n` passes left. -/
def robustUpdateWaypointLoop (chan : Channel) (data : Waypoint.DataFields) (inst : Nat) :
    Nat → ModelUavoProxy → Bool × ModelUavoProxy
  | 0, p => (false, p)
  | n + 1, p =>
    let p1 := { p with
      waypointTransactionResult := QMap.insert p.waypointTransactionResult inst false }
    let p2 := submitWaypoint p1 data inst
    let c := chan p2.objManager.updates
    let p3 := deliver waypointTransactionCompleted p2 inst c.inWindow
    if QMap.value p3.waypointTransactionResult inst false = true then (true, p3)
    else
      robustUpdateWaypointLoop chan data inst n
        (deliver waypointTransactionCompleted p3 inst c.late)

/-- The method `robustUpdate(Waypoint::DataFields data, int instance)`; `none` when
`Waypoint::GetInstance(objManager, instance)` is NULL. -/
def robustUpdateWaypoint (chan : Channel) (p : ModelUavoProxy) (data : Waypoint.DataFields)
    (inst : Nat) : Option (Bool × ModelUavoProxy) :=
  match p.objManager.waypoints[inst]? with
  | Option.none => Option.none
  | some _ => some (robustUpdateWaypointLoop chan data inst 10 p)

/-- The `for` loop of `robustUpdate(PathSegmentDescriptor::DataFields, int)` with `n`
passes left. -/
def robustUpdatePathSegmentDescriptorLoop (chan : Channel)
    (data : PathSegmentDescriptor.DataFields) (inst : Nat) :
    Nat → ModelUavoProxy → Bool × ModelUavoProxy
  | 0, p => (false, p)
  | n + 1, p =>
    let p1 := { p with
      pathSegmentDescriptorTransactionResult :=
        QMap.insert p.pathSegmentDescriptorTransactionResult inst false }
    let p2 := submitPathSegmentDescriptor p1 data inst
    let c := chan p2.objManager.updates
    let p3 := deliver pathSegmentDescriptorTransactionCompleted p2 inst c.inWindow
    if QMap.value p3.pathSegmentDescriptorTransactionResult inst false = true then (true, p3)
    else
      robustUpdatePathSegmentDescriptorLoop chan data inst n
        (deliver pathSegmentDescriptorTransactionCompleted p3 inst c.late)

/-- The method `robustUpdate(PathSegmentDescriptor::DataFields data, int instance)`;
`none` when `PathSegmentDescriptor::GetInstance(objManager, instance)` is NULL. -/
def robustUpdatePathSegmentDescriptor (chan : Channel) (p : ModelUavoProxy)
    (data : PathSegmentDescriptor.DataFields) (inst : Nat) : Option (Bool × ModelUavoProxy) :=
  match p.objManager.pathSegmentDescriptors[inst]? with
  | Option.none => Option.none
  | some _ => some (robustUpdatePathSegmentDescriptorLoop chan data inst 10 p)

/-- Modelled from the spec: the call `objManager->registerObject(obj)` of the missing
`uavobjectmanager.cpp` for a new instance `x` of a multiple-instance object: the manager
creates instance `x` (and every missing instance below it) with default data. -/
def registerObject {α : Type} (instances : List α) (x : Nat) (dflt : α) : List α :=
  instances ++ List.replicate (x + 1 - instances.length) dflt

/-- The assignment of an `int` to a `quint8` field. -/
def toQuint8 (i : Int) : Nat := (i % 256).toNat

/-- The record that `modelToObjects` submits for row `x` of the waypoint model, from the
instance data `wp`. -/
def waypointFields (env : Env) (waypointModel : WaypointDataModel) (x : Nat)
    (wp : Waypoint.DataFields) : Waypoint.DataFields :=
  let LLA : Double3 :=
    ((waypointModel.data env (waypointModel.index x WaypointDataModel.Column.LATPOSITION.toInt)
        Qt.DisplayRole).toDouble env,
     (waypointModel.data env (waypointModel.index x WaypointDataModel.Column.LNGPOSITION.toInt)
        Qt.DisplayRole).toDouble env,
     (waypointModel.data env (waypointModel.index x WaypointDataModel.Column.ALTITUDE.toInt)
        Qt.DisplayRole).toDouble env)
  let NED := env.LLA2NED_HomeLLA LLA env.homeLLA
  { wp with
    Velocity := env.doubleToFloat
      ((waypointModel.data env (waypointModel.index x WaypointDataModel.Column.VELOCITY.toInt)
        Qt.DisplayRole).toDouble env)
    Position := (env.doubleToFloat NED.1, env.doubleToFloat NED.2.1, env.doubleToFloat NED.2.2)
    Mode := toQuint8
      ((waypointModel.data env (waypointModel.index x WaypointDataModel.Column.MODE.toInt)
        Qt.UserRole).toInt env)
    ModeParameters := env.doubleToFloat
      ((waypointModel.data env (waypointModel.index x WaypointDataModel.Column.MODE_PARAMS.toInt)
        Qt.DisplayRole).toDouble env) }

/-- The first `for` loop of `modelToObjects`, from row `x`, with `n` passes left; `none`
when a NULL instance is used. -/
def waypointLoop (env : Env) (chan : Channel) (waypointModel : WaypointDataModel) :
    Nat → Nat → ModelUavoProxy → Option ModelUavoProxy
  | 0, _, p => some p
  | n + 1, x, p =>
    let instances : Int := p.objManager.waypoints.length
    let p1 :=
      if (x : Int) > instances - 1 then
        { p with objManager := { p.objManager with
            waypoints := registerObject p.objManager.waypoints x env.waypointDefault } }
      else p
    match p1.objManager.waypoints[x]? with
    | Option.none => Option.none
    | some wp =>
      match robustUpdateWaypoint chan p1 (waypointFields env waypointModel x wp) x with
      | Option.none => Option.none
      | some (true, p2) => waypointLoop env chan waypointModel n (x + 1) p2
      | some (false, p2) => some p2

/-- The record that `modelToObjects` submits for row `x` of the path-segment model, from
the instance data `psd`. -/
def pathSegmentDescriptorFields (env : Env) (pathSegmentModel : PathSegmentDataModel) (x : Nat)
    (psd : PathSegmentDescriptor.DataFields) : PathSegmentDescriptor.DataFields :=
  { psd with
    SwitchingLocus :=
      (env.doubleToFloat ((pathSegmentModel.data
          (pathSegmentModel.index x PathSegmentDataModel.Column.NED_POS_NORTH.toInt)
          Qt.DisplayRole).toDouble env),
       env.doubleToFloat ((pathSegmentModel.data
          (pathSegmentModel.index x PathSegmentDataModel.Column.NED_POS_EAST.toInt)
          Qt.DisplayRole).toDouble env),
       env.doubleToFloat ((pathSegmentModel.data
          (pathSegmentModel.index x PathSegmentDataModel.Column.NED_POS_DOWN.toInt)
          Qt.DisplayRole).toDouble env))
    PathCurvature := env.doubleToFloat ((pathSegmentModel.data
          (pathSegmentModel.index x PathSegmentDataModel.Column.CURVATURE.toInt)
          Qt.DisplayRole).toDouble env)
    NumberOfOrbits := toQuint8 ((pathSegmentModel.data
          (pathSegmentModel.index x PathSegmentDataModel.Column.NUM_ORBITS.toInt)
          Qt.DisplayRole).toInt env)
    ArcRank := toQuint8 ((pathSegmentModel.data
          (pathSegmentModel.index x PathSegmentDataModel.Column.ARC_RANK.toInt)
          Qt.DisplayRole).toInt env) }

/-- The second `for` loop of `modelToObjects`, from row `x`, with `n` passes left; `none`
when a NULL instance is used. -/
def pathSegmentDescriptorLoop (env : Env) (chan : Channel)
    (pathSegmentModel : PathSegmentDataModel) :
    Nat → Nat → ModelUavoProxy → Option ModelUavoProxy
  | 0, _, p => some p
  | n + 1, x, p =>
    let instances : Int := p.objManager.pathSegmentDescriptors.length
    let p1 :=
      if (x : Int) > instances - 1 then
        { p with objManager := { p.objManager with
            pathSegmentDescriptors := registerObject p.objManager.pathSegmentDescriptors x
              env.pathSegmentDescriptorDefault } }
      else p
    match p1.objManager.pathSegmentDescriptors[x]? with
    | Option.none => Option.none
    | some psd =>
      match robustUpdatePathSegmentDescriptor chan p1
          (pathSegmentDescriptorFields env pathSegmentModel x psd) x with
      | Option.none => Option.none
      | some (true, p2) => pathSegmentDescriptorLoop env chan pathSegmentModel n (x + 1) p2
      | some (false, p2) => some p2

/-- The call `obj->setMetadata(meta)` on the Waypoint object. -/
def setWaypointMetadata (p : ModelUavoProxy) (metadata : Metadata) : ModelUavoProxy :=
  { p with objManager := { p.objManager with waypointMetadata := metadata } }

/-- The call `obj->setMetadata(meta)` on the PathSegmentDescriptor object. -/
def setPathSegmentDescriptorMetadata (p : ModelUavoProxy) (metadata : Metadata) :
    ModelUavoProxy :=
  { p with objManager := { p.objManager with pathSegmentDescriptorMetadata := metadata } }

/-- The part of `modelToObjects` headed "First handle waypoints...". -/
def waypointPhase (env : Env) (chan : Channel) (waypointModel : WaypointDataModel)
    (p : ModelUavoProxy) : Option ModelUavoProxy :=
  let initialMeta := p.objManager.waypointMetadata
  let p1 := setWaypointMetadata p (SetFlightTelemetryAcked initialMeta true)
  match waypointLoop env chan waypointModel waypointModel.rowCount.toNat 0 p1 with
  | Option.none => Option.none
  | some p2 => some (setWaypointMetadata p2 initialMeta)

/-- The part of `modelToObjects` headed "...then the path segment descriptors". -/
def pathSegmentDescriptorPhase (env : Env) (chan : Channel)
    (pathSegmentModel : PathSegmentDataModel) (p : ModelUavoProxy) : Option ModelUavoProxy :=
  let initialMeta := p.objManager.pathSegmentDescriptorMetadata
  let p1 := setPathSegmentDescriptorMetadata p (SetFlightTelemetryAcked initialMeta true)
  match pathSegmentDescriptorLoop env chan pathSegmentModel pathSegmentModel.rowCount.toNat 0 p1 with
  | Option.none => Option.none
  | some p2 => some (setPathSegmentDescriptorMetadata p2 initialMeta)

/-- The method `modelToObjects`; `none` when a NULL instance is used. -/
def modelToObjects (env : Env) (chan : Channel) (waypointModel : WaypointDataModel)
    (pathSegmentModel : PathSegmentDataModel) (p : ModelUavoProxy) : Option ModelUavoProxy :=
  if p.objManager.waypoints = [] then some p
  else if p.objManager.pathSegmentDescriptors = [] then some p
  else
    match waypointPhase env chan waypointModel p with
    | Option.none => Option.none
    | some p1 => pathSegmentDescriptorPhase env chan pathSegmentModel p1

/-- One pass of the first loop of `objectsToModel`, for instance `x`. -/
def pullWaypoint (env : Env) (mgr : UAVObjectManager) (x : Nat) (waypointModel : WaypointDataModel) :
    Option WaypointDataModel :=
  match mgr.waypoints[x]? with
  | Option.none => some waypointModel
  | some wpfields =>
    let m0 := (waypointModel.insertRow env x).2
    let LLA := env.NED2LLA_HomeLLA env.homeLLA wpfields.Position
    (WaypointDataModel.setData env m0 (m0.index x WaypointDataModel.Column.LATPOSITION.toInt)
        (QVariant.double LLA.1) Qt.EditRole).bind fun r1 =>
    (WaypointDataModel.setData env r1.2 (r1.2.index x WaypointDataModel.Column.LNGPOSITION.toInt)
        (QVariant.double LLA.2.1) Qt.EditRole).bind fun r2 =>
    (WaypointDataModel.setData env r2.2 (r2.2.index x WaypointDataModel.Column.ALTITUDE.toInt)
        (QVariant.double LLA.2.2) Qt.EditRole).bind fun r3 =>
    (WaypointDataModel.setData env r3.2 (r3.2.index x WaypointDataModel.Column.VELOCITY.toInt)
        (QVariant.float wpfields.Velocity) Qt.EditRole).bind fun r4 =>
    (WaypointDataModel.setData env r4.2 (r4.2.index x WaypointDataModel.Column.MODE.toInt)
        (QVariant.int wpfields.Mode) Qt.EditRole).bind fun r5 =>
    (WaypointDataModel.setData env r5.2 (r5.2.index x WaypointDataModel.Column.MODE_PARAMS.toInt)
        (QVariant.float wpfields.ModeParameters) Qt.EditRole).bind fun r6 =>
    some r6.2

/-- The first loop of `objectsToModel`, from instance `x`, with `n` passes left. -/
def pullWaypoints (env : Env) (mgr : UAVObjectManager) :
    Nat → Nat → WaypointDataModel → Option WaypointDataModel
  | 0, _, m => some m
  | n + 1, x, m =>
    match pullWaypoint env mgr x m with
    | Option.none => Option.none
    | some m1 => pullWaypoints env mgr n (x + 1) m1

/-- One pass of the second loop of `objectsToModel`, for instance `x`. -/
def pullPathSegment (env : Env) (mgr : UAVObjectManager) (x : Nat)
    (pathSegmentModel : PathSegmentDataModel) : Option PathSegmentDataModel :=
  match mgr.pathSegmentDescriptors[x]? with
  | Option.none => some pathSegmentModel
  | some psdData =>
    let m0 := (pathSegmentModel.insertRow x).2
    (PathSegmentDataModel.setData env m0
        (m0.index x PathSegmentDataModel.Column.NED_POS_NORTH.toInt)
        (QVariant.float psdData.SwitchingLocus.1) Qt.EditRole).bind fun r1 =>
    (PathSegmentDataModel.setData env r1.2
        (r1.2.index x PathSegmentDataModel.Column.NED_POS_EAST.toInt)
        (QVariant.float psdData.SwitchingLocus.2.1) Qt.EditRole).bind fun r2 =>
    (PathSegmentDataModel.setData env r2.2
        (r2.2.index x PathSegmentDataModel.Column.NED_POS_DOWN.toInt)
        (QVariant.float psdData.SwitchingLocus.2.2) Qt.EditRole).bind fun r3 =>
    (PathSegmentDataModel.setData env r3.2
        (r3.2.index x PathSegmentDataModel.Column.CURVATURE.toInt)
        (QVariant.float psdData.PathCurvature) Qt.EditRole).bind fun r4 =>
    (PathSegmentDataModel.setData env r4.2
        (r4.2.index x PathSegmentDataModel.Column.NUM_ORBITS.toInt)
        (QVariant.int psdData.NumberOfOrbits) Qt.EditRole).bind fun r5 =>
    (PathSegmentDataModel.setData env r5.2
        (r5.2.index x PathSegmentDataModel.Column.ARC_RANK.toInt)
        (QVariant.int psdData.ArcRank) Qt.EditRole).bind fun r6 =>
    some r6.2

/-- The second loop of `objectsToModel`, from instance `x`, with `n` passes left. -/
def pullPathSegments (env : Env) (mgr : UAVObjectManager) :
    Nat → Nat → PathSegmentDataModel → Option PathSegmentDataModel
  | 0, _, m => some m
  | n + 1, x, m =>
    match pullPathSegment env mgr x m with
    | Option.none => Option.none
    | some m1 => pullPathSegments env mgr n (x + 1) m1

/-- The method `objectsToModel`: the two models afterwards; `none` when a call reads
`dataStorage.at` outside the list. -/
def objectsToModel (env : Env) (mgr : UAVObjectManager) (waypointModel : WaypointDataModel)
    (pathSegmentModel : PathSegmentDataModel) :
    Option (WaypointDataModel × PathSegmentDataModel) :=
  match waypointModel.removeRows 0 waypointModel.rowCount with
  | Option.none => Option.none
  | some w0 =>
    match pullWaypoints env mgr mgr.waypoints.length 0 w0.2 with
    | Option.none => Option.none
    | some w1 =>
      match pathSegmentModel.removeRows 0 pathSegmentModel.rowCount with
      | Option.none => Option.none
      | some s0 =>
        match pullPathSegments env mgr mgr.pathSegmentDescriptors.length 0 s0.2 with
        | Option.none => Option.none
        | some s1 => some (w1, s1)

end ModelUavoProxy

/-! ## MapArc -/

/-- Modelled from the spec: the enumeration `MapArc::arc_center_results` of the missing
`maparc.h`, the distinct result codes of `findArcCenter_px`. -/
inductive arc_center_results
  | ARC_CENTER_FOUND
  | ARC_INSUFFICIENT_RADIUS
  | ARC_COINCIDENT_POINTS
  deriving DecidableEq, Repr

namespace MapArc

/-- The tail of `findArcCenter_px` from `d = sqrt(d2)` on: the returned code and the
array `center`. -/
def centerAlong {K : Type} [LinearOrderedField K] (sqrt : K → K) (m_x m_y p_x p_y d2 : K) :
    arc_center_results × Option (K × K) :=
  let d := sqrt d2
  if |p_x| < 1 / 1000 ∧ |p_y| < 1 / 1000 then (.ARC_CENTER_FOUND, some (m_x, m_y))
  else (.ARC_CENTER_FOUND, some (m_x + p_x * d, m_y + p_y * d))

/-- The function `MapArc::findArcCenter_px` over an ordered field `K` with square root
`sqrt`: the returned code and the array `center`, where `none` stands for the pair
`(NAN, NAN)`. The literals `1e-6`, `0.25`, `0.01` and `1e-3` are the exact fractions. -/
def findArcCenter_px {K : Type} [LinearOrderedField K] (sqrt : K → K)
    (start_point end_point : K × K) (radius : K) (clockwise minor : Bool) :
    arc_center_results × Option (K × K) :=
  if |start_point.1 - end_point.1| < 1 / 1000000 ∧ |start_point.2 - end_point.2| < 1 / 1000000 then
    (.ARC_COINCIDENT_POINTS, none)
  else
    let m_x := (start_point.1 + end_point.1) / 2
    let m_y := (start_point.2 + end_point.2) / 2
    let p : K × K :=
      if (clockwise = true ∧ minor = true) ∨ (clockwise = false ∧ minor = false) then
        (-(end_point.2 - start_point.2), end_point.1 - start_point.1)
      else
        (end_point.2 - start_point.2, -(end_point.1 - start_point.1))
    let d2 := radius * radius / (p.1 * p.1 + p.2 * p.2) - 1 / 4
    if d2 < 0 then
      if d2 > -((radius * (1 / 100)) ^ 2) then centerAlong sqrt m_x m_y p.1 p.2 0
      else (.ARC_INSUFFICIENT_RADIUS, none)
    else centerAlong sqrt m_x m_y p.1 p.2 d2

end MapArc

/-! ## WaypointDataModel: item flags and the flight-plan file -/

/-- The flag `Qt::ItemIsSelectable`. -/
def Qt.ItemIsSelectable : Nat := 1

/-- The flag `Qt::ItemIsEditable`. -/
def Qt.ItemIsEditable : Nat := 2

/-- The flag `Qt::ItemIsEnabled`. -/
def Qt.ItemIsEnabled : Nat := 32

/-- A child of a `waypoint` element, as `readFromFile` looks at it: its tag name and its
attributes `name` and `value` (the empty string for a missing attribute). -/
structure FieldElement where
  tagName : String
  name : String
  value : String
  deriving DecidableEq, Repr

/-- A child of the document element, as `readFromFile` looks at it: its tag name and its
children in document order. -/
structure ChildElement where
  tagName : String
  children : List FieldElement
  deriving DecidableEq, Repr

/-- The document element: its tag name and its children in document order. -/
structure RootElement where
  tagName : String
  children : List ChildElement
  deriving DecidableEq, Repr

/-- What `QDomDocument::setContent` makes of the bytes read from the file (no bytes when
the file cannot be opened): a failure, or a document with its document element, which is
`none` when `documentElement()` is null. -/
inductive FileContent
  | notXml
  | document (root : Option RootElement)
  deriving DecidableEq, Repr

namespace WaypointDataModel

/-- The method `flags`, the item flags or-ed into a number; `none` when the call reads
`dataStorage.at` outside the list. -/
def flags (m : WaypointDataModel) (index : QModelIndex) : Option Nat :=
  if index.column = Column.LOCKED.toInt then
    some (Qt.ItemIsSelectable ||| Qt.ItemIsEditable ||| Qt.ItemIsEnabled)
  else
    match QList.at m.dataStorage index.row with
    | Option.none => Option.none
    | some row =>
      if row.locked = true then some (Qt.ItemIsSelectable ||| Qt.ItemIsEnabled)
      else some (Qt.ItemIsSelectable ||| Qt.ItemIsEditable ||| Qt.ItemIsEnabled)

/-- The `if`/`else if` chain of `readFromFile` for one child `field` of a `waypoint`
element, on the record `data` under construction. -/
def readField (env : Env) (data : waypointData) (field : FieldElement) : waypointData :=
  if field.tagName = "field" then
    if field.name = "altitude" then { data with altitude := env.strToDouble field.value }
    else if field.name = "description" then { data with wpDescritption := field.value }
    else if field.name = "latitude" then { data with latPosition := env.strToDouble field.value }
    else if field.name = "longitude" then { data with lngPosition := env.strToDouble field.value }
    else if field.name = "altitude" then { data with altitude := env.strToDouble field.value }
    else if field.name = "velocity" then
      { data with velocity := env.doubleToFloat (env.strToDouble field.value) }
    else if field.name = "mode" then { data with mode := env.strToInt field.value }
    else if field.name = "mode_params" then
      { data with mode_params := env.doubleToFloat (env.strToDouble field.value) }
    else if field.name = "is_locked" then
      { data with locked := decide (env.strToInt field.value ≠ 0) }
    else data
  else data

/-- One pass of the outer `while` loop of `readFromFile`, for the child `e` of the
document element. The record made by `new waypointData` starts as `fresh`, which stands
for the indeterminate content of its fields. -/
def readNode (env : Env) (fresh : waypointData) (m : WaypointDataModel) (e : ChildElement) :
    WaypointDataModel :=
  if e.tagName = "waypoint" then
    let data := e.children.foldl (readField env) fresh
    let m1 := m.emit (.rowsAboutToBeInserted m.dataStorage.length m.dataStorage.length)
    let m2 := { m1 with dataStorage := m1.dataStorage ++ [data] }
    m2.emit (.rowsInserted m.dataStorage.length m.dataStorage.length)
  else m

/-- The method `readFromFile`, given what `doc.setContent` makes of the file; `none` when
`removeRows` reads outside the list. -/
def readFromFile (env : Env) (fresh : waypointData) (m : WaypointDataModel)
    (content : FileContent) : Option WaypointDataModel :=
  match removeRows m 0 m.rowCount with
  | Option.none => Option.none
  | some r =>
    match content with
    | .notXml => some r.2
    | .document Option.none => some r.2
    | .document (some root) =>
      if root.tagName ≠ "waypoints" then some r.2
      else some (root.children.foldl (readNode env fresh) r.2)

end WaypointDataModel

/-! ## PathSegmentModelMapProxy -/

/-- A `QTimer` with millisecond resolution: its interval, whether it is single-shot,
whether it is running, and the time left until its next `timeout()`. -/
structure QTimer where
  interval : Nat
  singleShot : Bool
  active : Bool
  remaining : Nat
  deriving DecidableEq, Repr

/-- The call `QTimer::start()`: starts the timer, or stops and restarts it when it is
running, with the full interval ahead. -/
def QTimer.start (t : QTimer) : QTimer := { t with active := true, remaining := t.interval }

/-- The state of a `PathSegmentModelMapProxy` as far as the overlay refresh goes: the
timer `overlayRefreshTimer`, the time in milliseconds, and the times at which
`overlayRefreshTimeout` has rebuilt the overlays, oldest first. -/
structure PathSegmentModelMapProxy where
  overlayRefreshTimer : QTimer
  now : Nat
  rebuilds : List Nat
  deriving DecidableEq, Repr

namespace PathSegmentModelMapProxy

/-- The method `refreshOverlays`. -/
def refreshOverlays (p : PathSegmentModelMapProxy) : PathSegmentModelMapProxy :=
  { p with overlayRefreshTimer := p.overlayRefreshTimer.start }

/-- The slot `rowsRemoved`, as far as the timer goes. -/
def rowsRemoved (p : PathSegmentModelMapProxy) (_first _last : Int) : PathSegmentModelMapProxy :=
  p.refreshOverlays

/-- The slot `rowsInserted`, as far as the timer goes. -/
def rowsInserted (p : PathSegmentModelMapProxy) (_first _last : Int) : PathSegmentModelMapProxy :=
  p.refreshOverlays

/-- The flags `updateLatLon_flag` and `updateArc_flag` of the slot `dataChanged` after its
loop over the columns from `topLeft.column()` to `bottomRight.column()`. -/
def updateFlags (topLeft bottomRight : QModelIndex) : Bool × Bool :=
  let changed (c : PathSegmentDataModel.Column) : Bool :=
    decide (topLeft.column ≤ c.toInt ∧ c.toInt ≤ bottomRight.column)
  (changed .NED_POS_NORTH || changed .NED_POS_EAST || changed .NED_POS_DOWN,
   changed .ARC_RANK || changed .CURVATURE)

/-- The slot `dataChanged`, as far as the timer goes; `item` says whether
`findEndPointNumber(topLeft.row())` finds a graphical item. The flags are set in the first
pass of the loop over the rows and stay set. -/
def dataChanged (p : PathSegmentModelMapProxy) (item : Bool) (topLeft bottomRight : QModelIndex) :
    PathSegmentModelMapProxy :=
  if item = false then p
  else if topLeft.row ≤ bottomRight.row ∧
      ((updateFlags topLeft bottomRight).1 = true ∨ (updateFlags topLeft bottomRight).2 = true) then
    p.refreshOverlays
  else p

end PathSegmentModelMapProxy

/-! ## PathSegmentEndpointItem -/

/-- The state of a `PathSegmentEndpointItem` as far as the numbering goes. -/
structure PathSegmentEndpointItem where
  number : Int
  deriving DecidableEq, Repr

namespace PathSegmentEndpointItem

/-- The method `SetNumber`. -/
def SetNumber (self : PathSegmentEndpointItem) (value : Int) : PathSegmentEndpointItem :=
  { self with number := value }

/-- The slot `WPRenumbered`; `waypointIsThis` is the test `waypoint == this`. -/
def WPRenumbered (self : PathSegmentEndpointItem) (oldnumber newnumber : Int)
    (waypointIsThis : Bool) : PathSegmentEndpointItem :=
  if waypointIsThis = false then
    if oldnumber > self.number ∧ newnumber ≤ self.number then self.SetNumber (self.number + 1)
    else if oldnumber < self.number ∧ newnumber > self.number then
      self.SetNumber (self.number - 1)
    else if newnumber = self.number then self.SetNumber (self.number + 1)
    else self
  else self

end PathSegmentEndpointItem

/-! ## PIOS_Board_Init: the UART2 and UART3 ports -/

/-- Modelled from the spec: the options of the hardware settings `Uart2` and `Uart3` of
the board, declared in the missing `hwdiscoveryf4.h`; they are the labels of the two
`switch` statements. -/
inductive HwDiscoveryF4Uart
  | DISABLED
  | TELEMETRY
  | GPS
  | DSM2
  | DSMX10BIT
  | DSMX11BIT
  | HOTTSUMD
  | HOTTSUMH
  | DEBUGCONSOLE
  | COMBRIDGE
  | MAVLINKTX
  | MAVLINKTX_GPS_RX
  deriving DecidableEq, Repr

/-- Modelled from the spec: the enumeration `pios_dsm_proto` of the missing `pios_dsm.h`. -/
inductive pios_dsm_proto
  | PIOS_DSM_PROTO_DSM2
  | PIOS_DSM_PROTO_DSMX10BIT
  | PIOS_DSM_PROTO_DSMX11BIT
  deriving DecidableEq, Repr

/-- Modelled from the spec: the enumeration `pios_hsum_proto` of the missing
`pios_hsum.h`. -/
inductive pios_hsum_proto
  | PIOS_HSUM_PROTO_SUMD
  | PIOS_HSUM_PROTO_SUMH
  deriving DecidableEq, Repr

/-- The buffer lengths handed to `PIOS_Board_configure_com`, by name. -/
inductive ComBufLen
  | zero
  | PIOS_COM_TELEM_RF_RX_BUF_LEN
  | PIOS_COM_TELEM_RF_TX_BUF_LEN
  | PIOS_COM_GPS_RX_BUF_LEN
  | PIOS_COM_DEBUGCONSOLE_TX_BUF_LEN
  | PIOS_COM_BRIDGE_RX_BUF_LEN
  | PIOS_COM_BRIDGE_TX_BUF_LEN
  | PIOS_COM_MAVLINK_TX_BUF_LEN
  deriving DecidableEq, Repr

/-- The identifiers that `PIOS_Board_configure_com` fills in, by name. -/
inductive ComId
  | pios_com_telem_rf_id
  | pios_com_gps_id
  | pios_com_debug_id
  | pios_com_bridge_id
  | pios_com_mavlink_id
  deriving DecidableEq, Repr

/-- What a `switch` arm of `PIOS_Board_Init` does, in program order: the configuration
calls on USART `usart`, the assignment `pios_com_mavlink_id = pios_com_gps_id`, and a
failed `PIOS_Assert(0)`. -/
inductive BoardCall
  | PIOS_Board_configure_com (usart : Nat) (rx_buf_len tx_buf_len : ComBufLen) (id : ComId)
  | PIOS_Board_configure_dsm (usart : Nat) (proto : pios_dsm_proto)
  | PIOS_Board_configure_hsum (usart : Nat) (proto : pios_hsum_proto)
  | mavlink_id_from_gps_id
  | PIOS_Assert_0
  deriving DecidableEq, Repr

/-- The preprocessor symbols that the two `switch` statements test. -/
structure BuildConfig where
  PIOS_INCLUDE_TELEMETRY_RF : Bool
  PIOS_INCLUDE_USART : Bool
  PIOS_INCLUDE_COM : Bool
  PIOS_INCLUDE_GPS : Bool
  PIOS_INCLUDE_DSM : Bool
  PIOS_INCLUDE_HSUM : Bool
  PIOS_INCLUDE_DEBUG_CONSOLE : Bool
  PIOS_INCLUDE_MAVLINK : Bool
  deriving DecidableEq, Repr

/-- An arm of a C `switch`: its `case` labels, its statements (as a function of the
switched value), and whether it ends in `break`. -/
structure SwitchArm where
  labels : List HwDiscoveryF4Uart
  body : HwDiscoveryF4Uart → List BoardCall
  endsInBreak : Bool

namespace PIOS_Board_Init

/-- Execution from the head of the arms `arms` on: an arm that does not end in `break`
falls through into the next one. A failed `PIOS_Assert(0)` does not return, so nothing
runs after it. -/
def fallThrough : List SwitchArm → HwDiscoveryF4Uart → List BoardCall
  | [], _ => []
  | arm :: rest, v =>
    if (arm.body v).getLast? = some BoardCall.PIOS_Assert_0 then arm.body v
    else if arm.endsInBreak = true then arm.body v
    else arm.body v ++ fallThrough rest v

/-- A C `switch` without `default`: execution starts at the first arm that has the value
among its labels, if any. -/
def switch : List SwitchArm → HwDiscoveryF4Uart → List BoardCall
  | [], _ => []
  | arm :: rest, v =>
    if arm.labels.contains v = true then fallThrough (arm :: rest) v else switch rest v

/-- The block under `#if defined(PIOS_INCLUDE_DSM)` of a port: the inner `switch` that
picks the protocol, then `PIOS_Board_configure_dsm`. -/
def dsmBlock (usart : Nat) : HwDiscoveryF4Uart → List BoardCall
  | .DSM2 => [.PIOS_Board_configure_dsm usart .PIOS_DSM_PROTO_DSM2]
  | .DSMX10BIT => [.PIOS_Board_configure_dsm usart .PIOS_DSM_PROTO_DSMX10BIT]
  | .DSMX11BIT => [.PIOS_Board_configure_dsm usart .PIOS_DSM_PROTO_DSMX11BIT]
  | _ => [.PIOS_Assert_0]

/-- The block under `#if defined(PIOS_INCLUDE_HSUM)` of a port: the inner `switch` that
picks the protocol, then `PIOS_Board_configure_hsum`. -/
def hsumBlock (usart : Nat) : HwDiscoveryF4Uart → List BoardCall
  | .HOTTSUMD => [.PIOS_Board_configure_hsum usart .PIOS_HSUM_PROTO_SUMD]
  | .HOTTSUMH => [.PIOS_Board_configure_hsum usart .PIOS_HSUM_PROTO_SUMH]
  | _ => [.PIOS_Assert_0]

/-- The arm `case ..._TELEMETRY` of the port on USART `usart`. -/
def telemetryArm (cfg : BuildConfig) (usart : Nat) : SwitchArm :=
  { labels := [.TELEMETRY]
    body := fun _ =>
      if cfg.PIOS_INCLUDE_TELEMETRY_RF && cfg.PIOS_INCLUDE_USART && cfg.PIOS_INCLUDE_COM then
        [.PIOS_Board_configure_com usart .PIOS_COM_TELEM_RF_RX_BUF_LEN
          .PIOS_COM_TELEM_RF_TX_BUF_LEN .pios_com_telem_rf_id]
      else []
    endsInBreak := true }

/-- The arm `case ..._GPS`. -/
def gpsArm (cfg : BuildConfig) (usart : Nat) : SwitchArm :=
  { labels := [.GPS]
    body := fun _ =>
      if cfg.PIOS_INCLUDE_GPS && cfg.PIOS_INCLUDE_USART && cfg.PIOS_INCLUDE_COM then
        [.PIOS_Board_configure_com usart .PIOS_COM_GPS_RX_BUF_LEN .zero .pios_com_gps_id]
      else []
    endsInBreak := true }

/-- The arm `case ..._DSM2: case ..._DSMX10BIT: case ..._DSMX11BIT:`; whether a `break`
follows its `#endif` differs between the ports. -/
def dsmArm (cfg : BuildConfig) (usart : Nat) (endsInBreak : Bool) : SwitchArm :=
  { labels := [.DSM2, .DSMX10BIT, .DSMX11BIT]
    body := fun v => if cfg.PIOS_INCLUDE_DSM then dsmBlock usart v else []
    endsInBreak := endsInBreak }

/-- The arm `case ..._HOTTSUMD: case ..._HOTTSUMH:`. -/
def hsumArm (cfg : BuildConfig) (usart : Nat) : SwitchArm :=
  { labels := [.HOTTSUMD, .HOTTSUMH]
    body := fun v => if cfg.PIOS_INCLUDE_HSUM then hsumBlock usart v else []
    endsInBreak := true }

/-- The arm `case ..._DEBUGCONSOLE`. -/
def debugConsoleArm (cfg : BuildConfig) (usart : Nat) : SwitchArm :=
  { labels := [.DEBUGCONSOLE]
    body := fun _ =>
      if cfg.PIOS_INCLUDE_DEBUG_CONSOLE && cfg.PIOS_INCLUDE_USART && cfg.PIOS_INCLUDE_COM then
        [.PIOS_Board_configure_com usart .zero .PIOS_COM_DEBUGCONSOLE_TX_BUF_LEN
          .pios_com_debug_id]
      else []
    endsInBreak := true }

/-- The arm `case ..._COMBRIDGE`. -/
def comBridgeArm (cfg : BuildConfig) (usart : Nat) : SwitchArm :=
  { labels := [.COMBRIDGE]
    body := fun _ =>
      if cfg.PIOS_INCLUDE_USART && cfg.PIOS_INCLUDE_COM then
        [.PIOS_Board_configure_com usart .PIOS_COM_BRIDGE_RX_BUF_LEN
          .PIOS_COM_BRIDGE_TX_BUF_LEN .pios_com_bridge_id]
      else []
    endsInBreak := true }

/-- The arm `case ..._MAVLINKTX`. -/
def mavlinkTxArm (cfg : BuildConfig) (usart : Nat) : SwitchArm :=
  { labels := [.MAVLINKTX]
    body := fun _ =>
      if cfg.PIOS_INCLUDE_USART && cfg.PIOS_INCLUDE_COM && cfg.PIOS_INCLUDE_MAVLINK then
        [.PIOS_Board_configure_com usart .zero .PIOS_COM_MAVLINK_TX_BUF_LEN
          .pios_com_mavlink_id]
      else []
    endsInBreak := true }

/-- The arm `case ..._MAVLINKTX_GPS_RX`. -/
def mavlinkTxGpsRxArm (cfg : BuildConfig) (usart : Nat) : SwitchArm :=
  { labels := [.MAVLINKTX_GPS_RX]
    body := fun _ =>
      if cfg.PIOS_INCLUDE_USART && cfg.PIOS_INCLUDE_COM && cfg.PIOS_INCLUDE_MAVLINK &&
          cfg.PIOS_INCLUDE_GPS then
        [.PIOS_Board_configure_com usart .PIOS_COM_GPS_RX_BUF_LEN
          .PIOS_COM_MAVLINK_TX_BUF_LEN .pios_com_gps_id, .mavlink_id_from_gps_id]
      else []
    endsInBreak := true }

/-- The statement `switch (hw_uart2)` under the comment "UART2 Port": every arm ends in
`break`. -/
def uart2 (cfg : BuildConfig) (hw_uart2 : HwDiscoveryF4Uart) : List BoardCall :=
  switch
    [ { labels := [.DISABLED], body := fun _ => [], endsInBreak := true },
      telemetryArm cfg 2,
      gpsArm cfg 2,
      dsmArm cfg 2 true,
      hsumArm cfg 2,
      debugConsoleArm cfg 2,
      comBridgeArm cfg 2,
      mavlinkTxArm cfg 2,
      mavlinkTxGpsRxArm cfg 2 ]
    hw_uart2

/-- The statement `switch (hw_uart3)` under the comment "UART3 Port": no `break` follows
the `#endif` of the DSM arm, every other arm ends in `break`. -/
def uart3 (cfg : BuildConfig) (hw_uart3 : HwDiscoveryF4Uart) : List BoardCall :=
  switch
    [ { labels := [.DISABLED], body := fun _ => [], endsInBreak := true },
      telemetryArm cfg 3,
      gpsArm cfg 3,
      dsmArm cfg 3 false,
      hsumArm cfg 3,
      debugConsoleArm cfg 3,
      comBridgeArm cfg 3,
      mavlinkTxArm cfg 3,
      mavlinkTxGpsRxArm cfg 3 ]
    hw_uart3

end PIOS_Board_Init


/-! ## ModelUavoProxy together with its two models -/

/-- The objects a `ModelUavoProxy` works on: the two models that its members
`waypointModel` and `pathSegmentModel` point to, and its own state. -/
structure ProxyWorld where
  waypointModel : WaypointDataModel
  pathSegmentModel : PathSegmentDataModel
  proxy : ModelUavoProxy

namespace ProxyWorld

/-- The call `waypointModel->rowCount()`: the value returned and the objects after the
call. The method is `const`. -/
def waypointRowCount (w : ProxyWorld) : Int × ProxyWorld :=
  (w.waypointModel.rowCount, w)

/-- The call `waypointModel->data(waypointModel->index(x, column), role)`: the value
returned and the objects after the call. Both methods are `const`. -/
def waypointData (env : Env) (w : ProxyWorld) (x : Int) (column : WaypointDataModel.Column)
    (role : Int) : QVariant × ProxyWorld :=
  (w.waypointModel.data env (w.waypointModel.index x column.toInt) role, w)

/-- The call `pathSegmentModel->rowCount()`: the value returned and the objects after the
call. The method is `const`. -/
def pathSegmentRowCount (w : ProxyWorld) : Int × ProxyWorld :=
  (w.pathSegmentModel.rowCount, w)

/-- The call `pathSegmentModel->data(pathSegmentModel->index(x, column), role)`: the value
returned and the objects after the call. Both methods are `const`. -/
def pathSegmentData (w : ProxyWorld) (x : Int) (column : PathSegmentDataModel.Column)
    (role : Int) : QVariant × ProxyWorld :=
  (w.pathSegmentModel.data (w.pathSegmentModel.index x column.toInt) role, w)

/-- The statements of a pass of the first loop of `modelToObjects` that fill
`waypointData` from row `x` of the waypoint model, one call of the model after the
other: the record to submit and the objects after the calls. -/
def waypointFields (env : Env) (w : ProxyWorld) (x : Nat) (wp : Waypoint.DataFields) :
    Waypoint.DataFields × ProxyWorld :=
  let lat := w.waypointData env x .LATPOSITION Qt.DisplayRole
  let lng := lat.2.waypointData env x .LNGPOSITION Qt.DisplayRole
  let alt := lng.2.waypointData env x .ALTITUDE Qt.DisplayRole
  let NED := env.LLA2NED_HomeLLA (lat.1.toDouble env, lng.1.toDouble env, alt.1.toDouble env)
    env.homeLLA
  let velocity := alt.2.waypointData env x .VELOCITY Qt.DisplayRole
  let mode := velocity.2.waypointData env x .MODE Qt.UserRole
  let modeParameters := mode.2.waypointData env x .MODE_PARAMS Qt.DisplayRole
  ({ wp with
      Velocity := env.doubleToFloat (velocity.1.toDouble env)
      Position := (env.doubleToFloat NED.1, env.doubleToFloat NED.2.1, env.doubleToFloat NED.2.2)
      Mode := ModelUavoProxy.toQuint8 (mode.1.toInt env)
      ModeParameters := env.doubleToFloat (modeParameters.1.toDouble env) },
   modeParameters.2)

/-- The first `for` loop of `modelToObjects` on the objects, from row `x`: the condition
`x < waypointModel->rowCount()` is evaluated before every pass. At most `fuel` evaluations
of the condition are allowed; `none` when they run out or a NULL instance is used. -/
def waypointLoop (env : Env) (chan : Channel) : Nat → Nat → ProxyWorld → Option ProxyWorld
  | 0, _, _ => none
  | fuel + 1, x, w =>
    let count := w.waypointRowCount
    if (x : Int) < count.1 then
      let w0 := count.2
      let instances : Int := w0.proxy.objManager.waypoints.length
      let w1 : ProxyWorld :=
        if (x : Int) > instances - 1 then
          { w0 with proxy := { w0.proxy with objManager := { w0.proxy.objManager with
              waypoints :=
                ModelUavoProxy.registerObject w0.proxy.objManager.waypoints x env.waypointDefault } } }
        else w0
      match w1.proxy.objManager.waypoints[x]? with
      | none => none
      | some wp =>
        let fields := waypointFields env w1 x wp
        match ModelUavoProxy.robustUpdateWaypoint chan fields.2.proxy fields.1 x with
        | none => none
        | some (true, p2) => waypointLoop env chan fuel (x + 1) { fields.2 with proxy := p2 }
        | some (false, p2) => some { fields.2 with proxy := p2 }
    else some count.2

/-- The statements of a pass of the second loop of `modelToObjects` that fill
`pathSegmentDescriptorData` from row `x` of the path-segment model, one call of the model
after the other: the record to submit and the objects after the calls. -/
def pathSegmentDescriptorFields (env : Env) (w : ProxyWorld) (x : Nat)
    (psd : PathSegmentDescriptor.DataFields) : PathSegmentDescriptor.DataFields × ProxyWorld :=
  let north := w.pathSegmentData x .NED_POS_NORTH Qt.DisplayRole
  let east := north.2.pathSegmentData x .NED_POS_EAST Qt.DisplayRole
  let down := east.2.pathSegmentData x .NED_POS_DOWN Qt.DisplayRole
  let curvature := down.2.pathSegmentData x .CURVATURE Qt.DisplayRole
  let orbits := curvature.2.pathSegmentData x .NUM_ORBITS Qt.DisplayRole
  let rank := orbits.2.pathSegmentData x .ARC_RANK Qt.DisplayRole
  ({ psd with
      SwitchingLocus :=
        (env.doubleToFloat (north.1.toDouble env), env.doubleToFloat (east.1.toDouble env),
         env.doubleToFloat (down.1.toDouble env))
      PathCurvature := env.doubleToFloat (curvature.1.toDouble env)
      NumberOfOrbits := ModelUavoProxy.toQuint8 (orbits.1.toInt env)
      ArcRank := ModelUavoProxy.toQuint8 (rank.1.toInt env) },
   rank.2)

/-- The second `for` loop of `modelToObjects` on the objects, from row `x`: the condition
`x < pathSegmentModel->rowCount()` is evaluated before every pass. At most `fuel`
evaluations of the condition are allowed; `none` when they run out or a NULL instance is
used. -/
def pathSegmentDescriptorLoop (env : Env) (chan : Channel) :
    Nat → Nat → ProxyWorld → Option ProxyWorld
  | 0, _, _ => none
  | fuel + 1, x, w =>
    let count := w.pathSegmentRowCount
    if (x : Int) < count.1 then
      let w0 := count.2
      let instances : Int := w0.proxy.objManager.pathSegmentDescriptors.length
      let w1 : ProxyWorld :=
        if (x : Int) > instances - 1 then
          { w0 with proxy := { w0.proxy with objManager := { w0.proxy.objManager with
              pathSegmentDescriptors :=
                ModelUavoProxy.registerObject w0.proxy.objManager.pathSegmentDescriptors x
                  env.pathSegmentDescriptorDefault } } }
        else w0
      match w1.proxy.objManager.pathSegmentDescriptors[x]? with
      | none => none
      | some psd =>
        let fields := pathSegmentDescriptorFields env w1 x psd
        match ModelUavoProxy.robustUpdatePathSegmentDescriptor chan fields.2.proxy fields.1 x with
        | none => none
        | some (true, p2) =>
          pathSegmentDescriptorLoop env chan fuel (x + 1) { fields.2 with proxy := p2 }
        | some (false, p2) => some { fields.2 with proxy := p2 }
    else some count.2

/-- The method `modelToObjects` as a step on the proxy and its two models, every call of
a model made in its place; each loop may evaluate its condition `fuel` times. -/
def modelToObjects (env : Env) (chan : Channel) (fuel : Nat) (w : ProxyWorld) :
    Option ProxyWorld :=
  if w.proxy.objManager.waypoints = [] then some w
  else if w.proxy.objManager.pathSegmentDescriptors = [] then some w
  else
    let waypointMeta := w.proxy.objManager.waypointMetadata
    let w1 : ProxyWorld :=
      { w with proxy :=
          ModelUavoProxy.setWaypointMetadata w.proxy (SetFlightTelemetryAcked waypointMeta true) }
    match waypointLoop env chan fuel 0 w1 with
    | none => none
    | some w2 =>
      let w3 : ProxyWorld :=
        { w2 with proxy := ModelUavoProxy.setWaypointMetadata w2.proxy waypointMeta }
      let descriptorMeta := w3.proxy.objManager.pathSegmentDescriptorMetadata
      let w4 : ProxyWorld :=
        { w3 with proxy :=
                    ModelUavoProxy.setPathSegmentDescriptorMetadata w3.proxy
                      (SetFlightTelemetryAcked descriptorMeta true) }
      match pathSegmentDescriptorLoop env chan fuel 0 w4 with
      | none => none
      | some w5 =>
        some { w5 with proxy :=
                        ModelUavoProxy.setPathSegmentDescriptorMetadata w5.proxy descriptorMeta }

end ProxyWorld

/-! ## MapArc on doubles with infinities and NaN -/

/-- A `double` with its special values: a finite number, an infinity with its sign, or
NaN. The result of an operation on finite numbers is taken exact (no rounding, no
overflow), and zero has no sign. -/
inductive Double
  | finite (q : ℚ)
  | inf (negative : Bool)
  | nan
  deriving DecidableEq

namespace Double

/-- The unary minus. -/
def neg : Double → Double
  | finite q => finite (-q)
  | inf negative => inf (!negative)
  | nan => nan

/-- The sum: infinities of opposite sign add up to NaN. -/
def add : Double → Double → Double
  | finite a, finite b => finite (a + b)
  | finite _, inf t => inf t
  | inf s, finite _ => inf s
  | inf s, inf t => if s = t then inf s else nan
  | nan, _ => nan
  | _, nan => nan

/-- The difference; `inf - inf` is NaN. -/
def sub (a b : Double) : Double := add a (neg b)

/-- The product: zero times an infinity is NaN. -/
def mul : Double → Double → Double
  | finite a, finite b => finite (a * b)
  | finite a, inf t => if a = 0 then nan else inf (t != decide (a < 0))
  | inf s, finite b => if b = 0 then nan else inf (s != decide (b < 0))
  | inf s, inf t => inf (s != t)
  | nan, _ => nan
  | _, nan => nan

/-- The quotient: `0 / 0` and `inf / inf` are NaN, another number over zero is an
infinity. -/
def div : Double → Double → Double
  | finite a, finite b =>
    if b = 0 then (if a = 0 then nan else inf (decide (a < 0))) else finite (a / b)
  | finite _, inf _ => finite 0
  | inf s, finite b => inf (s != decide (b < 0))
  | inf _, inf _ => nan
  | nan, _ => nan
  | _, nan => nan

/-- The function `fabs`. -/
def fabs : Double → Double
  | finite q => finite |q|
  | inf _ => inf false
  | nan => nan

/-- The comparison `a < b`, false when either side is NaN. -/
def lt : Double → Double → Bool
  | finite a, finite b => decide (a < b)
  | finite _, inf t => !t
  | inf s, finite _ => s
  | inf s, inf t => s && !t
  | nan, _ => false
  | _, nan => false

/-- The function `sqrt`, from the square root `sqrtQ` of the finite numbers that are not
negative: NaN for a negative number, for minus infinity and for NaN. -/
def sqrt (sqrtQ : ℚ → ℚ) : Double → Double
  | finite q => if q < 0 then nan else finite (sqrtQ q)
  | inf negative => if negative = true then nan else inf false
  | nan => nan

end Double

namespace MapArc.OnDoubles

/-- The tail of `findArcCenter_px` from `d = sqrt(d2)` on, on doubles: the returned code
and the array `center`. -/
def centerAlong (sqrtQ : ℚ → ℚ) (m_x m_y p_x p_y d2 : Double) :
    arc_center_results × (Double × Double) :=
  let d := Double.sqrt sqrtQ d2
  if (Double.fabs p_x).lt (.finite (1 / 1000)) = true ∧
      (Double.fabs p_y).lt (.finite (1 / 1000)) = true then
    (.ARC_CENTER_FOUND, (m_x, m_y))
  else (.ARC_CENTER_FOUND, (Double.add m_x (Double.mul p_x d), Double.add m_y (Double.mul p_y d)))

/-- The function `MapArc::findArcCenter_px` on doubles with infinities and NaN: the
returned code and the array `center`. The literals are the exact fractions and
`pow(x, 2)` is `x * x`. -/
def findArcCenter_px (sqrtQ : ℚ → ℚ) (start_point end_point : Double × Double)
    (radius : Double) (clockwise minor : Bool) : arc_center_results × (Double × Double) :=
  if (Double.fabs (Double.sub start_point.1 end_point.1)).lt (.finite (1 / 1000000)) = true ∧
      (Double.fabs (Double.sub start_point.2 end_point.2)).lt (.finite (1 / 1000000)) = true then
    (.ARC_COINCIDENT_POINTS, (.nan, .nan))
  else
    let m_x := Double.div (Double.add start_point.1 end_point.1) (.finite 2)
    let m_y := Double.div (Double.add start_point.2 end_point.2) (.finite 2)
    let p : Double × Double :=
      if (clockwise = true ∧ minor = true) ∨ (clockwise = false ∧ minor = false) then
        (Double.neg (Double.sub end_point.2 start_point.2), Double.sub end_point.1 start_point.1)
      else
        (Double.sub end_point.2 start_point.2, Double.neg (Double.sub end_point.1 start_point.1))
    let d2 := Double.sub
      (Double.div (Double.mul radius radius)
        (Double.add (Double.mul p.1 p.1) (Double.mul p.2 p.2)))
      (.finite (1 / 4))
    if d2.lt (.finite 0) = true then
      if (Double.neg (Double.mul (Double.mul radius (.finite (1 / 100)))
          (Double.mul radius (.finite (1 / 100))))).lt d2 = true then
        centerAlong sqrtQ m_x m_y p.1 p.2 (.finite 0)
      else (.ARC_INSUFFICIENT_RADIUS, (.nan, .nan))
    else centerAlong sqrtQ m_x m_y p.1 p.2 d2

end MapArc.OnDoubles

/-! ## Vocabulary of the statements -/

/-- The submission is an `updated()` of waypoint instance `k`. -/
def Submission.isWaypoint (k : Nat) : Submission → Bool
  | .waypoint i _ _ => decide (i = k)
  | .pathSegmentDescriptor _ _ _ => false

/-- The submission is an `updated()` of a waypoint instance with an index above `k`. -/
def Submission.isWaypointAbove (k : Nat) : Submission → Bool
  | .waypoint i _ _ => decide (k < i)
  | .pathSegmentDescriptor _ _ _ => false

/-- The submission is an `updated()` of a waypoint instance with an index below `k`. -/
def Submission.isWaypointBelow (k : Nat) : Submission → Bool
  | .waypoint i _ _ => decide (i < k)
  | .pathSegmentDescriptor _ _ _ => false

/-- The submission is an `updated()` of a path-segment descriptor instance. -/
def Submission.isPathSegmentDescriptor : Submission → Bool
  | .waypoint _ _ _ => false
  | .pathSegmentDescriptor _ _ _ => true

/-- The record that `objectsToModel` leaves in the waypoint store for an instance. -/
def pulledWaypoint (env : Env) (wp : Waypoint.DataFields) : waypointData :=
  { wpDescritption := ""
    latPosition := (env.NED2LLA_HomeLLA env.homeLLA wp.Position).1
    lngPosition := (env.NED2LLA_HomeLLA env.homeLLA wp.Position).2.1
    altitude := (env.NED2LLA_HomeLLA env.homeLLA wp.Position).2.2
    velocity := wp.Velocity
    mode := (wp.Mode : Int)
    mode_params := wp.ModeParameters
    locked := false }

/-- The record that `objectsToModel` leaves in the path-segment store for an instance. -/
def pulledPathSegment (psd : PathSegmentDescriptor.DataFields) : pathSegmentData :=
  { segmentDescription := ""
    posNED := psd.SwitchingLocus
    velNED := (0, 0, 0)
    accNED := (0, 0, 0)
    curvature := psd.PathCurvature
    numberOfOrbits := (psd.NumberOfOrbits : Int)
    arcRank := (psd.ArcRank : Int) }

/-- The record that an accepted `WaypointDataModel::setData` on column `c` with `value`
leaves in place of the record `r`. -/
def WaypointDataModel.written (env : Env) (c : WaypointDataModel.Column) (value : QVariant)
    (r : waypointData) : waypointData :=
  let ned := env.LLA2NED_HomeLLA (r.latPosition, r.lngPosition, r.altitude) env.homeLLA
  match c with
  | .WPDESCRITPTION => { r with wpDescritption := value.toString env }
  | .LATPOSITION => { r with latPosition := value.toDouble env }
  | .LNGPOSITION => { r with lngPosition := value.toDouble env }
  | .ALTITUDE => { r with altitude := value.toDouble env }
  | .NED_NORTH =>
    let lla := env.NED2LLA_HomeLLA env.homeLLA (value.toDouble env, ned.2.1, ned.2.2)
    { r with latPosition := lla.1, lngPosition := lla.2.1, altitude := lla.2.2 }
  | .NED_EAST =>
    let lla := env.NED2LLA_HomeLLA env.homeLLA (ned.1, value.toDouble env, ned.2.2)
    { r with latPosition := lla.1, lngPosition := lla.2.1, altitude := lla.2.2 }
  | .NED_DOWN =>
    let lla := env.NED2LLA_HomeLLA env.homeLLA (ned.1, ned.2.1, value.toDouble env)
    { r with latPosition := lla.1, lngPosition := lla.2.1, altitude := lla.2.2 }
  | .VELOCITY => { r with velocity := value.toFloat env }
  | .MODE => { r with mode := value.toInt env }
  | .MODE_PARAMS => { r with mode_params := value.toFloat env }
  | .LOCKED => { r with locked := value.toBool env }

/-- The `dataChanged` signals of an accepted `WaypointDataModel::setData` on column `c`
of row `row`, in the order of emission: the columns of the other coordinate
representation that the `switch` case announces, then the column itself. -/
def WaypointDataModel.announced (row : Int) (c : WaypointDataModel.Column) : List ModelSignal :=
  let others : List WaypointDataModel.Column :=
    match c with
    | .LATPOSITION => [.NED_NORTH, .NED_EAST]
    | .LNGPOSITION => [.NED_EAST]
    | .ALTITUDE => [.NED_DOWN]
    | .NED_NORTH => [.LATPOSITION, .LNGPOSITION]
    | .NED_EAST => [.LNGPOSITION]
    | .NED_DOWN => [.ALTITUDE]
    | _ => []
  (others ++ [c]).map fun o => ModelSignal.dataChanged ⟨row, o.toInt⟩ ⟨row, o.toInt⟩

/-- The telemetry-acknowledged flag under which a submission was made. -/
def Submission.acked : Submission → Bool
  | .waypoint _ _ acked => acked
  | .pathSegmentDescriptor _ _ acked => acked

/-- The variant that `WaypointDataModel::data` returns for column `c` of the record `r`
when the mode is asked for in its raw form: the stored field, or for a NED column the
component of the NED position computed from the stored latitude, longitude and
altitude. -/
def WaypointDataModel.shown (env : Env) (r : waypointData) : WaypointDataModel.Column → QVariant
  | .WPDESCRITPTION => QVariant.str r.wpDescritption
  | .LATPOSITION => QVariant.double r.latPosition
  | .LNGPOSITION => QVariant.double r.lngPosition
  | .ALTITUDE => QVariant.double r.altitude
  | .NED_NORTH =>
    QVariant.double (env.LLA2NED_HomeLLA (r.latPosition, r.lngPosition, r.altitude) env.homeLLA).1
  | .NED_EAST =>
    QVariant.double (env.LLA2NED_HomeLLA (r.latPosition, r.lngPosition, r.altitude) env.homeLLA).2.1
  | .NED_DOWN =>
    QVariant.double (env.LLA2NED_HomeLLA (r.latPosition, r.lngPosition, r.altitude) env.homeLLA).2.2
  | .VELOCITY => QVariant.float r.velocity
  | .MODE => QVariant.int r.mode
  | .MODE_PARAMS => QVariant.float r.mode_params
  | .LOCKED => QVariant.bool r.locked


/-- Whether item flags contain `Qt::ItemIsEditable`. -/
def Qt.editable (itemFlags : Nat) : Bool := itemFlags &&& Qt.ItemIsEditable != 0

/-- The item at position `i` of `items` is given the number `newnumber`, and the signal
`WPNumberChanged(oldnumber, newnumber, item)` that announces it is delivered to the slot
`WPRenumbered` of every item. -/
def PathSegmentEndpointItem.renumber (items : List PathSegmentEndpointItem) (i : Nat)
    (newnumber : Int) : List PathSegmentEndpointItem :=
  match items[i]? with
  | none => items
  | some w =>
    ((items.set i (w.SetNumber newnumber)).enum).map fun jw =>
      jw.2.WPRenumbered w.number newnumber (decide (jw.1 = i))


/-! ## Sample data -/

/-- A sample environment: the home location is the origin of both frames and the two
coordinate conversions are mutually inverse. -/
def sampleEnv : Env where
  homeLLA := (0, 0, 0)
  LLA2NED_HomeLLA := fun lla _ => lla
  NED2LLA_HomeLLA := fun _ ned => ned
  strToDouble := fun _ => 0
  strToInt := fun _ => 0
  strToBool := fun s => !(s == "" || s == "0" || s == "false")
  numToStr := fun _ => ""
  intToStr := fun _ => ""
  qRound := fun q => Int.floor (q + 1 / 2)
  doubleToFloat := fun q => q
  modes := ⟨10, 11, 6, 7, 4, 5, 3, 2, 0, 1, 8, 9⟩
  waypointDefault := ⟨(0, 0, 0), 0, 0, 0, []⟩
  pathSegmentDescriptorDefault := ⟨(0, 0, 0), 0, 0, 0, []⟩

/-- A locked waypoint. -/
def lockedA : waypointData := ⟨"a", 1, 2, 5, 3, 4, 6, true⟩

/-- A second locked waypoint. -/
def lockedB : waypointData := ⟨"b", 7, 8, 7, 9, 5, 10, true⟩

/-- An unlocked waypoint. -/
def unlockedC : waypointData := ⟨"c", 1, 2, 3, 4, 0, 5, false⟩

/-- A path segment. -/
def segmentS : pathSegmentData := ⟨"s", (1, 2, 3), (0, 0, 0), (0, 0, 0), 0, 0, 0⟩

/-- A channel that acknowledges every path-segment descriptor and lets every waypoint
submission time out. -/
def waypointsTimeOut : Channel := fun log =>
  match log.getLast? with
  | some (.pathSegmentDescriptor _ _ _) => ⟨some true, none⟩
  | _ => ⟨none, none⟩

/-- A channel that acknowledges everything except waypoint instance 1, which it refuses. -/
def refusesOne : Channel := fun log =>
  match log.getLast? with
  | some (.waypoint 1 _ _) => ⟨some false, none⟩
  | _ => ⟨some true, none⟩

/-- A proxy whose object manager holds one instance of each object. -/
def oneEach : ModelUavoProxy :=
  { objManager :=
      { waypoints := [⟨(0, 0, 0), 0, 0, 0, [42]⟩]
        waypointMetadata := ⟨false, []⟩
        pathSegmentDescriptors := [⟨(0, 0, 0), 0, 0, 0, [43]⟩]
        pathSegmentDescriptorMetadata := ⟨false, []⟩
        updates := [] }
    waypointTransactionResult := []
    pathSegmentDescriptorTransactionResult := [] }

/-- A channel that positively acknowledges every submission in its window. -/
def acknowledgesAll : Channel := fun _ => ⟨some true, none⟩


/-! ## Theorems -/

namespace WaypointDataModel

/-- C1: on a valid row whose locked flag is true, `setData` with `Qt::EditRole` on any
column other than LOCKED, with any value, returns false and leaves the model (every field
of every record, and the emitted signals) as it was. This holds for the index that
`index(row, column)` hands out and for the index `(row, column)` itself. -/
theorem setData_locked_rejected (env : Env) (m : WaypointDataModel) (row column : Int)
    (value : QVariant) (r : waypointData)
    (hrow : QList.at m.dataStorage row = some r) (hlocked : r.locked = true)
    (hcol : column ≠ Column.LOCKED.toInt) :
    setData env m (m.index row column) value Qt.EditRole = some (false, m) ∧
    setData env m ⟨row, column⟩ value Qt.EditRole = some (false, m) := by
  have key : setData env m ⟨row, column⟩ value Qt.EditRole = some (false, m) := by
    unfold setData
    by_cases hv : (QModelIndex.isValid ⟨row, column⟩ = true ∧ Qt.EditRole = Qt.EditRole)
    · simp only [hv, and_self, if_true, hrow, hlocked, ne_eq, hcol, not_false_eq_true]
    · rw [if_neg hv]
  refine ⟨?_, key⟩
  unfold index
  split
  · exact key
  · simp [setData, QModelIndex.none, QModelIndex.isValid]

/-- C1 at a concrete input: the locked record `lockedA`, column LATPOSITION. -/
theorem setData_locked_rejected_witness :
    setData sampleEnv ⟨[lockedA], []⟩ ((⟨[lockedA], []⟩ : WaypointDataModel).index 0 1)
        (QVariant.double 9) Qt.EditRole = some (false, ⟨[lockedA], []⟩) ∧
    setData sampleEnv ⟨[lockedA], []⟩ ⟨0, 1⟩ (QVariant.double 9) Qt.EditRole
      = some (false, ⟨[lockedA], []⟩) :=
  setData_locked_rejected sampleEnv ⟨[lockedA], []⟩ 0 1 (QVariant.double 9) lockedA
    (by decide) (by decide) (by decide)

/-- C4: `insertRows(1, 1)` on a store of two records whose modes and locked flags differ
creates at index 1 a record with the mode and the locked flag of the LAST record
(index 1 before the call, 2 after it), not those of the record at index 0, its
predecessor. -/
theorem insertRows_copies_last_record :
    (insertRows sampleEnv ⟨[unlockedC, lockedB], []⟩ 1 1).2.dataStorage
      = [unlockedC, ⟨"", 0, 0, 7, 9, 5, 10, true⟩, lockedB] ∧
    unlockedC.mode = 0 ∧ unlockedC.locked = false ∧ lockedB.mode = 5 ∧ lockedB.locked = true := by
  decide

/-- C5: `replaceData` from a store holding the two locked records `lockedA`, `lockedB`
into an empty store returns true, copies row 0, and leaves in row 1 an empty description,
latitude and longitude 0 and the altitude, velocity, mode and mode parameter of row 0:
the row is created locked, so every `setData` on it but the one on LOCKED is refused. -/
theorem replaceData_locked_not_copied :
    replaceData sampleEnv ⟨[], []⟩ ⟨[lockedA, lockedB], []⟩ ≠ none ∧
    (replaceData sampleEnv ⟨[], []⟩ ⟨[lockedA, lockedB], []⟩).map (fun r => (r.1, r.2.dataStorage))
      = some (true, [lockedA, ⟨"", 0, 0, 5, 3, 4, 6, true⟩]) ∧
    lockedB = ⟨"b", 7, 8, 7, 9, 5, 10, true⟩ := by
  decide

end WaypointDataModel

namespace ModelUavoProxy

theorem deliver_waypoint_objManager (p : ModelUavoProxy) (inst : Nat) (o : Option Bool) :
    (deliver waypointTransactionCompleted p inst o).objManager = p.objManager := by
  cases o <;> rfl

theorem deliver_pathSegmentDescriptor_objManager (p : ModelUavoProxy) (inst : Nat)
    (o : Option Bool) :
    (deliver pathSegmentDescriptorTransactionCompleted p inst o).objManager = p.objManager := by
  cases o <;> rfl

/-- The value tested by `robustUpdate` after the first wait is true exactly when a
positive acknowledgment arrived in the window. -/
theorem waypoint_result_after_window (p : ModelUavoProxy) (inst : Nat) (l : List (Int × Bool))
    (hp : p.waypointTransactionResult = QMap.insert l inst false) (o : Option Bool) :
    QMap.value (deliver waypointTransactionCompleted p inst o).waypointTransactionResult
      inst false = true ↔ o = some true := by
  cases o with
  | none => simp [deliver, QMap.value, QMap.insert, hp]
  | some b => cases b <;> simp [deliver, QMap.value, QMap.insert, waypointTransactionCompleted]

/-- What a run of the retry loop of `robustUpdate(Waypoint::DataFields, int)` does to the
object manager: it appends `j ≤ n` copies of one submission and touches nothing but the
data of the instance; a failed run has used all `n` passes. -/
theorem robustUpdateWaypointLoop_spec (chan : Channel) (data : Waypoint.DataFields) (inst : Nat)
    (n : Nat) (p : ModelUavoProxy) :
    ∃ j, j ≤ n ∧ (0 < n → 0 < j) ∧
      ((robustUpdateWaypointLoop chan data inst n p).1 = false → j = n) ∧
      (robustUpdateWaypointLoop chan data inst n p).2.objManager.updates =
        p.objManager.updates ++ List.replicate j
          (Submission.waypoint inst data p.objManager.waypointMetadata.flightTelemetryAcked) ∧
      (robustUpdateWaypointLoop chan data inst n p).2.objManager.waypoints.length =
        p.objManager.waypoints.length ∧
      (robustUpdateWaypointLoop chan data inst n p).2.objManager.waypointMetadata =
        p.objManager.waypointMetadata ∧
      (robustUpdateWaypointLoop chan data inst n p).2.objManager.pathSegmentDescriptors =
        p.objManager.pathSegmentDescriptors ∧
      (robustUpdateWaypointLoop chan data inst n p).2.objManager.pathSegmentDescriptorMetadata =
        p.objManager.pathSegmentDescriptorMetadata := by
  induction n generalizing p with
  | zero => exact ⟨0, le_refl _, by simp, by simp, by simp [robustUpdateWaypointLoop]⟩
  | succ n ih =>
    unfold robustUpdateWaypointLoop
    simp only []
    split
    · refine ⟨1, by omega, by simp, by simp, ?_⟩
      simp [deliver_waypoint_objManager, submitWaypoint]
    · rename_i hfail
      obtain ⟨j, hj, hpos, hfalse, hupd, hlen, hmeta, hpsd, hpmeta⟩ := ih
        (deliver waypointTransactionCompleted
          (deliver waypointTransactionCompleted
            (submitWaypoint { p with waypointTransactionResult :=
                                QMap.insert p.waypointTransactionResult inst false } data inst) inst
            (chan (submitWaypoint { p with waypointTransactionResult :=
                                QMap.insert p.waypointTransactionResult inst false } data inst).objManager.updates).inWindow)
          inst
          (chan (submitWaypoint { p with waypointTransactionResult :=
                                QMap.insert p.waypointTransactionResult inst false } data inst).objManager.updates).late)
      refine ⟨j + 1, by omega, by simp, fun h => by rw [hfalse h], ?_, ?_, ?_, ?_, ?_⟩
      · rw [hupd]
        simp [deliver_waypoint_objManager, submitWaypoint, List.replicate_succ]
      · rw [hlen]
        simp [deliver_waypoint_objManager, submitWaypoint]
      · rw [hmeta]
        simp [deliver_waypoint_objManager, submitWaypoint]
      · rw [hpsd]
        simp [deliver_waypoint_objManager, submitWaypoint]
      · rw [hpmeta]
        simp [deliver_waypoint_objManager, submitWaypoint]

end ModelUavoProxy
namespace ModelUavoProxy

/-- A run of the retry loop fails when no submission of the instance is positively
acknowledged in its window. -/
theorem robustUpdateWaypointLoop_false (chan : Channel) (data : Waypoint.DataFields) (inst : Nat)
    (hnever : ∀ log d acked,
      (chan (log ++ [Submission.waypoint inst d acked])).inWindow ≠ some true)
    (n : Nat) (p : ModelUavoProxy) :
    (robustUpdateWaypointLoop chan data inst n p).1 = false := by
  induction n generalizing p with
  | zero => rfl
  | succ n ih =>
    unfold robustUpdateWaypointLoop
    simp only []
    split
    · rename_i h
      rw [waypoint_result_after_window _ inst p.waypointTransactionResult rfl] at h
      exact absurd h (hnever _ _ _)
    · exact ih _

/-- A run of the retry loop succeeds when one of its first `n` submissions is positively
acknowledged in its window. -/
theorem robustUpdateWaypointLoop_true (chan : Channel) (data : Waypoint.DataFields) (inst : Nat)
    (n : Nat) (p : ModelUavoProxy)
    (hack : ∃ a, a < n ∧ (chan (p.objManager.updates ++ List.replicate (a + 1)
      (Submission.waypoint inst data p.objManager.waypointMetadata.flightTelemetryAcked))).inWindow
        = some true) :
    (robustUpdateWaypointLoop chan data inst n p).1 = true := by
  induction n generalizing p with
  | zero => obtain ⟨a, ha, _⟩ := hack; omega
  | succ n ih =>
    unfold robustUpdateWaypointLoop
    simp only []
    split
    · rfl
    · rename_i h
      rw [waypoint_result_after_window _ inst p.waypointTransactionResult rfl] at h
      apply ih
      obtain ⟨a, ha, hacked⟩ := hack
      cases a with
      | zero => exact absurd hacked h
      | succ a =>
        refine ⟨a, by omega, ?_⟩
        simpa [deliver_waypoint_objManager, submitWaypoint, List.replicate_succ] using hacked

end ModelUavoProxy
namespace ModelUavoProxy

/-- After the create-or-reuse step of `modelToObjects` instance `x` exists. -/
theorem registered_getElem {α : Type} (l : List α) (x : Nat) (dflt : α) :
    ∃ w, (if (x : Int) > (l.length : Int) - 1 then registerObject l x dflt else l)[x]? = some w := by
  by_cases hc : (x : Int) > (l.length : Int) - 1
  · rw [if_pos hc]
    have hlt : x < (registerObject l x dflt).length := by
      simp [registerObject]; omega
    exact ⟨_, List.getElem?_eq_getElem hlt⟩
  · rw [if_neg hc]
    have hlt : x < l.length := by omega
    exact ⟨_, List.getElem?_eq_getElem hlt⟩

/-- The waypoint loop of `modelToObjects`, when every index below `k` is acknowledged
within its ten attempts and index `k` never is: it ends normally, having appended
submissions of indices below `k` followed by exactly ten submissions of index `k`. -/
theorem waypointLoop_stops_at (env : Env) (chan : Channel) (waypointModel : WaypointDataModel)
    (k : Nat)
    (hbelow : ∀ i, i < k → ∀ log d acked, ∃ a, a < 10 ∧
      (chan (log ++ List.replicate (a + 1) (Submission.waypoint i d acked))).inWindow = some true)
    (hnever : ∀ log d acked,
      (chan (log ++ [Submission.waypoint k d acked])).inWindow ≠ some true)
    (n x : Nat) (p : ModelUavoProxy) (hx : x ≤ k) (hk : k < x + n) :
    ∃ p' pre d, waypointLoop env chan waypointModel n x p = some p' ∧
      p'.objManager.updates = p.objManager.updates ++ pre ++ List.replicate 10
        (Submission.waypoint k d p.objManager.waypointMetadata.flightTelemetryAcked) ∧
      (∀ s ∈ pre, Submission.isWaypointBelow k s = true) ∧
      p'.objManager.waypointMetadata = p.objManager.waypointMetadata ∧
      p'.objManager.pathSegmentDescriptors = p.objManager.pathSegmentDescriptors ∧
      p'.objManager.pathSegmentDescriptorMetadata = p.objManager.pathSegmentDescriptorMetadata := by
  induction n generalizing x p with
  | zero => omega
  | succ n ih =>
    unfold waypointLoop
    simp only []
    generalize hp1 : (if (x : Int) > (p.objManager.waypoints.length : Int) - 1 then
        ({ p with objManager := { p.objManager with
            waypoints := registerObject p.objManager.waypoints x env.waypointDefault } } :
              ModelUavoProxy)
      else p) = p1
    have hsame : p1.objManager.updates = p.objManager.updates ∧
        p1.objManager.waypointMetadata = p.objManager.waypointMetadata ∧
        p1.objManager.pathSegmentDescriptors = p.objManager.pathSegmentDescriptors ∧
        p1.objManager.pathSegmentDescriptorMetadata =
          p.objManager.pathSegmentDescriptorMetadata := by
      rw [← hp1]; split <;> simp
    obtain ⟨hu1, hm1, hs1, hsm1⟩ := hsame
    have hwp : ∃ wp, p1.objManager.waypoints[x]? = some wp := by
      obtain ⟨w, hw⟩ := registered_getElem p.objManager.waypoints x env.waypointDefault
      refine ⟨w, ?_⟩
      rw [← hp1, ← hw]
      split <;> rfl
    obtain ⟨wp, hwp⟩ := hwp
    simp only [hwp, robustUpdateWaypoint]
    obtain ⟨j, hj, _, hjfail, hupd, _, hmeta, hpsd, hpmeta⟩ :=
      robustUpdateWaypointLoop_spec chan (waypointFields env waypointModel x wp) x 10 p1
    rcases Nat.lt_or_ge x k with hlt | hge
    · have htrue := robustUpdateWaypointLoop_true chan (waypointFields env waypointModel x wp) x
        10 p1 (hbelow x hlt _ _ _)
      generalize robustUpdateWaypointLoop chan (waypointFields env waypointModel x wp) x 10 p1 = r
        at htrue hupd hmeta hpsd hpmeta hjfail
      obtain ⟨b, p2⟩ := r
      simp only at htrue hupd hmeta hpsd hpmeta
      subst htrue
      simp only []
      obtain ⟨p', pre, d, hrun, hlog, hpre, h1, h2, h3⟩ := ih (x + 1) p2 (by omega) (by omega)
      refine ⟨p', List.replicate j (Submission.waypoint x (waypointFields env waypointModel x wp)
        p1.objManager.waypointMetadata.flightTelemetryAcked) ++ pre, d, hrun, ?_, ?_, ?_, ?_, ?_⟩
      · rw [hlog, hupd, hmeta, hu1, hm1]; simp
      · intro s hs
        rcases List.mem_append.mp hs with h | h
        · rw [List.eq_of_mem_replicate h]
          simpa [Submission.isWaypointBelow] using hlt
        · exact hpre s h
      · rw [h1, hmeta, hm1]
      · rw [h2, hpsd, hs1]
      · rw [h3, hpmeta, hsm1]
    · have hxk : x = k := by omega
      subst hxk
      have hfalse := robustUpdateWaypointLoop_false chan (waypointFields env waypointModel x wp) x
        hnever 10 p1
      have hj10 := hjfail hfalse
      generalize robustUpdateWaypointLoop chan (waypointFields env waypointModel x wp) x 10 p1 = r
        at hfalse hupd hmeta hpsd hpmeta
      obtain ⟨b, p2⟩ := r
      simp only at hfalse hupd hmeta hpsd hpmeta
      subst hfalse
      simp only []
      refine ⟨p2, [], waypointFields env waypointModel x wp, rfl, ?_, ?_, ?_, ?_, ?_⟩
      · rw [hupd, hj10, hu1, hm1]; simp
      · intro s hs; cases hs
      · rw [hmeta, hm1]
      · rw [hpsd, hs1]
      · rw [hpmeta, hsm1]

end ModelUavoProxy
namespace ModelUavoProxy

/-- What a run of the retry loop of `robustUpdate(PathSegmentDescriptor::DataFields, int)`
does to the object manager: it appends `j ≤ n` copies of one submission, at least one
when `n > 0`, and leaves the waypoint side alone. -/
theorem robustUpdatePathSegmentDescriptorLoop_spec (chan : Channel)
    (data : PathSegmentDescriptor.DataFields) (inst : Nat) (n : Nat) (p : ModelUavoProxy) :
    ∃ j, j ≤ n ∧ (0 < n → 0 < j) ∧
      (robustUpdatePathSegmentDescriptorLoop chan data inst n p).2.objManager.updates =
        p.objManager.updates ++ List.replicate j
          (Submission.pathSegmentDescriptor inst data
            p.objManager.pathSegmentDescriptorMetadata.flightTelemetryAcked) ∧
      (robustUpdatePathSegmentDescriptorLoop chan data inst n p).2.objManager.pathSegmentDescriptorMetadata
        = p.objManager.pathSegmentDescriptorMetadata ∧
      (robustUpdatePathSegmentDescriptorLoop chan data inst n p).2.objManager.waypoints =
        p.objManager.waypoints ∧
      (robustUpdatePathSegmentDescriptorLoop chan data inst n p).2.objManager.waypointMetadata =
        p.objManager.waypointMetadata := by
  induction n generalizing p with
  | zero => exact ⟨0, le_refl _, by simp, by simp [robustUpdatePathSegmentDescriptorLoop]⟩
  | succ n ih =>
    unfold robustUpdatePathSegmentDescriptorLoop
    simp only []
    split
    · refine ⟨1, by omega, by simp, ?_⟩
      simp [deliver_pathSegmentDescriptor_objManager, submitPathSegmentDescriptor]
    · obtain ⟨j, hj, _, hupd, hmeta, hwp, hwmeta⟩ := ih
        (deliver pathSegmentDescriptorTransactionCompleted
          (deliver pathSegmentDescriptorTransactionCompleted
            (submitPathSegmentDescriptor
              { p with
                pathSegmentDescriptorTransactionResult :=
                  QMap.insert p.pathSegmentDescriptorTransactionResult inst false } data inst)
            inst
            (chan (submitPathSegmentDescriptor
              { p with
                pathSegmentDescriptorTransactionResult :=
                  QMap.insert p.pathSegmentDescriptorTransactionResult inst false } data
                    inst).objManager.updates).inWindow)
          inst
          (chan (submitPathSegmentDescriptor
              { p with
                pathSegmentDescriptorTransactionResult :=
                  QMap.insert p.pathSegmentDescriptorTransactionResult inst false } data
                    inst).objManager.updates).late)
      refine ⟨j + 1, by omega, by simp, ?_, ?_, ?_, ?_⟩
      · rw [hupd]
        simp [deliver_pathSegmentDescriptor_objManager, submitPathSegmentDescriptor,
          List.replicate_succ]
      · rw [hmeta]
        simp [deliver_pathSegmentDescriptor_objManager, submitPathSegmentDescriptor]
      · rw [hwp]
        simp [deliver_pathSegmentDescriptor_objManager, submitPathSegmentDescriptor]
      · rw [hwmeta]
        simp [deliver_pathSegmentDescriptor_objManager, submitPathSegmentDescriptor]

/-- The path-segment loop of `modelToObjects`, for every channel: it ends normally and
appends submissions of path-segment descriptors only, the first of them (when the loop
has a pass to make) for instance `x`. -/
theorem pathSegmentDescriptorLoop_spec (env : Env) (chan : Channel)
    (pathSegmentModel : PathSegmentDataModel) (n x : Nat) (p : ModelUavoProxy) :
    ∃ p' post, pathSegmentDescriptorLoop env chan pathSegmentModel n x p = some p' ∧
      p'.objManager.updates = p.objManager.updates ++ post ∧
      (∀ s ∈ post, Submission.isPathSegmentDescriptor s = true) ∧
      (0 < n → ∃ d rest, post = Submission.pathSegmentDescriptor x d
        p.objManager.pathSegmentDescriptorMetadata.flightTelemetryAcked :: rest) ∧
      p'.objManager.pathSegmentDescriptorMetadata = p.objManager.pathSegmentDescriptorMetadata ∧
      p'.objManager.waypoints = p.objManager.waypoints ∧
      p'.objManager.waypointMetadata = p.objManager.waypointMetadata := by
  induction n generalizing x p with
  | zero => exact ⟨p, [], rfl, by simp, by simp, by simp, rfl, rfl, rfl⟩
  | succ n ih =>
    unfold pathSegmentDescriptorLoop
    simp only []
    generalize hp1 : (if (x : Int) > (p.objManager.pathSegmentDescriptors.length : Int) - 1 then
        ({ p with objManager := { p.objManager with
            pathSegmentDescriptors := registerObject p.objManager.pathSegmentDescriptors x
              env.pathSegmentDescriptorDefault } } : ModelUavoProxy)
      else p) = p1
    have hsame : p1.objManager.updates = p.objManager.updates ∧
        p1.objManager.waypointMetadata = p.objManager.waypointMetadata ∧
        p1.objManager.waypoints = p.objManager.waypoints ∧
        p1.objManager.pathSegmentDescriptorMetadata =
          p.objManager.pathSegmentDescriptorMetadata := by
      rw [← hp1]; split <;> simp
    obtain ⟨hu1, hm1, hs1, hsm1⟩ := hsame
    have hpsd : ∃ psd, p1.objManager.pathSegmentDescriptors[x]? = some psd := by
      obtain ⟨w, hw⟩ := registered_getElem p.objManager.pathSegmentDescriptors x
        env.pathSegmentDescriptorDefault
      refine ⟨w, ?_⟩
      rw [← hp1, ← hw]
      split <;> rfl
    obtain ⟨psd, hpsd⟩ := hpsd
    simp only [hpsd, robustUpdatePathSegmentDescriptor]
    obtain ⟨j, hj, hjpos, hupd, hmeta, hwp, hwmeta⟩ :=
      robustUpdatePathSegmentDescriptorLoop_spec chan
        (pathSegmentDescriptorFields env pathSegmentModel x psd) x 10 p1
    generalize robustUpdatePathSegmentDescriptorLoop chan
      (pathSegmentDescriptorFields env pathSegmentModel x psd) x 10 p1 = r
      at hupd hmeta hwp hwmeta
    obtain ⟨b, p2⟩ := r
    simp only at hupd hmeta hwp hwmeta
    have hj1 : 0 < j := hjpos (by omega)
    obtain ⟨j', rfl⟩ : ∃ j', j = j' + 1 := ⟨j - 1, by omega⟩
    cases b with
    | true =>
      simp only []
      obtain ⟨p', post, hrun, hlog, hpost, _, h1, h2, h3⟩ := ih (x + 1) p2
      refine ⟨p', List.replicate (j' + 1) (Submission.pathSegmentDescriptor x
        (pathSegmentDescriptorFields env pathSegmentModel x psd)
        p1.objManager.pathSegmentDescriptorMetadata.flightTelemetryAcked) ++ post, hrun,
        ?_, ?_, ?_, ?_, ?_, ?_⟩
      · rw [hlog, hupd, hu1]; simp
      · intro s hs
        rcases List.mem_append.mp hs with h | h
        · rw [List.eq_of_mem_replicate h]; rfl
        · exact hpost s h
      · intro _
        exact ⟨_, _, by rw [hsm1, List.replicate_succ]; rfl⟩
      · rw [h1, hmeta, hsm1]
      · rw [h2, hwp, hs1]
      · rw [h3, hwmeta, hm1]
    | false =>
      simp only []
      refine ⟨p2, List.replicate (j' + 1) (Submission.pathSegmentDescriptor x
        (pathSegmentDescriptorFields env pathSegmentModel x psd)
        p1.objManager.pathSegmentDescriptorMetadata.flightTelemetryAcked), rfl, ?_, ?_, ?_, ?_, ?_, ?_⟩
      · rw [hupd, hu1]
      · intro s hs
        rw [List.eq_of_mem_replicate hs]; rfl
      · intro _
        exact ⟨_, _, by rw [hsm1, List.replicate_succ]⟩
      · rw [hmeta, hsm1]
      · rw [hwp, hs1]
      · rw [hwmeta, hm1]

end ModelUavoProxy
namespace ModelUavoProxy

/-- The submissions of a whole `modelToObjects` run in which every waypoint index below
`k` is acknowledged within its ten attempts and index `k` never is: submissions of
indices below `k`, then ten submissions of index `k`, then path-segment descriptor
submissions, which start with instance 0 when the path-segment store has a row. -/
theorem modelToObjects_updates (env : Env) (chan : Channel) (waypointModel : WaypointDataModel)
    (pathSegmentModel : PathSegmentDataModel) (p : ModelUavoProxy) (k : Nat)
    (hk : (k : Int) < waypointModel.rowCount)
    (hwp : p.objManager.waypoints ≠ []) (hpsd : p.objManager.pathSegmentDescriptors ≠ [])
    (hbelow : ∀ i, i < k → ∀ log d acked, ∃ a, a < 10 ∧
      (chan (log ++ List.replicate (a + 1) (Submission.waypoint i d acked))).inWindow = some true)
    (hnever : ∀ log d acked,
      (chan (log ++ [Submission.waypoint k d acked])).inWindow ≠ some true) :
    ∃ p' pre d post, modelToObjects env chan waypointModel pathSegmentModel p = some p' ∧
      p'.objManager.updates = p.objManager.updates ++ pre ++
        List.replicate 10 (Submission.waypoint k d true) ++ post ∧
      (∀ s ∈ pre, Submission.isWaypointBelow k s = true) ∧
      (∀ s ∈ post, Submission.isPathSegmentDescriptor s = true) ∧
      (0 < pathSegmentModel.rowCount →
        ∃ d' rest, post = Submission.pathSegmentDescriptor 0 d' true :: rest) := by
  obtain ⟨p2, pre, d, hrun, hlog, hpre, _, hpsd2, hpm2⟩ :=
    waypointLoop_stops_at env chan waypointModel k hbelow hnever waypointModel.rowCount.toNat 0
      (setWaypointMetadata p (SetFlightTelemetryAcked p.objManager.waypointMetadata true))
      (Nat.zero_le _) (by omega)
  obtain ⟨p3, post, hrun3, hlog3, hpost, hfirst, _, _, _⟩ :=
    pathSegmentDescriptorLoop_spec env chan pathSegmentModel pathSegmentModel.rowCount.toNat 0
      (setPathSegmentDescriptorMetadata (setWaypointMetadata p2 p.objManager.waypointMetadata)
        (SetFlightTelemetryAcked
          (setWaypointMetadata p2 p.objManager.waypointMetadata).objManager.pathSegmentDescriptorMetadata
          true))
  refine ⟨setPathSegmentDescriptorMetadata p3
    (setWaypointMetadata p2 p.objManager.waypointMetadata).objManager.pathSegmentDescriptorMetadata,
    pre, d, post, ?_, ?_, hpre, hpost, ?_⟩
  · simp only [modelToObjects, hwp, hpsd, if_false, waypointPhase, hrun,
      pathSegmentDescriptorPhase, hrun3]
  · simp only [setPathSegmentDescriptorMetadata, hlog3, setWaypointMetadata, hlog,
      SetFlightTelemetryAcked]
  · intro hrows
    obtain ⟨d', rest, h⟩ := hfirst (by omega)
    exact ⟨d', rest, by simpa [setPathSegmentDescriptorMetadata, SetFlightTelemetryAcked] using h⟩

theorem countP_eq_zero_of_forall {α : Type} (q : α → Bool) (l : List α)
    (h : ∀ s ∈ l, q s = false) : List.countP q l = 0 := by
  rw [List.countP_eq_zero]
  intro s hs
  simp [h s hs]

/-- C2: if every waypoint index below `k` is positively acknowledged (in the window of
one of its ten attempts) and no submission of waypoint index `k` ever is (each times out
or is refused), then `modelToObjects` ends normally having submitted waypoint `k` exactly
10 times and no waypoint with an index above `k`, and `robustUpdate` returns false for
instance `k`. The object manager holds instance 0 of both objects, as the constructor
asserts, and `k` is a row of the waypoint store. -/
theorem modelToObjects_retry_ceiling (env : Env) (chan : Channel)
    (waypointModel : WaypointDataModel) (pathSegmentModel : PathSegmentDataModel)
    (p : ModelUavoProxy) (k : Nat)
    (hk : (k : Int) < waypointModel.rowCount)
    (hwp : p.objManager.waypoints ≠ []) (hpsd : p.objManager.pathSegmentDescriptors ≠ [])
    (hbelow : ∀ i, i < k → ∀ log d acked, ∃ a, a < 10 ∧
      (chan (log ++ List.replicate (a + 1) (Submission.waypoint i d acked))).inWindow = some true)
    (hnever : ∀ log d acked,
      (chan (log ++ [Submission.waypoint k d acked])).inWindow ≠ some true) :
    ∃ p' new, modelToObjects env chan waypointModel pathSegmentModel p = some p' ∧
      p'.objManager.updates = p.objManager.updates ++ new ∧
      List.countP (Submission.isWaypoint k) new = 10 ∧
      (∀ s ∈ new, Submission.isWaypointAbove k s = false) ∧
      ∀ q data, q.objManager.waypoints[k]? ≠ none →
        ∃ q', robustUpdateWaypoint chan q data k = some (false, q') := by
  obtain ⟨p', pre, d, post, hrun, hlog, hpre, hpost, _⟩ :=
    modelToObjects_updates env chan waypointModel pathSegmentModel p k hk hwp hpsd hbelow hnever
  refine ⟨p', pre ++ List.replicate 10 (Submission.waypoint k d true) ++ post, hrun, ?_, ?_, ?_, ?_⟩
  · rw [hlog]; simp
  · have h1 : List.countP (Submission.isWaypoint k) pre = 0 := by
      apply countP_eq_zero_of_forall
      intro s hs
      have := hpre s hs
      cases s with
      | waypoint i _ _ =>
        simp only [Submission.isWaypointBelow, decide_eq_true_eq] at this
        simp only [Submission.isWaypoint, decide_eq_false_iff_not]
        omega
      | pathSegmentDescriptor _ _ _ => rfl
    have h2 : List.countP (Submission.isWaypoint k) post = 0 := by
      apply countP_eq_zero_of_forall
      intro s hs
      have := hpost s hs
      cases s with
      | waypoint i _ _ => simp [Submission.isPathSegmentDescriptor] at this
      | pathSegmentDescriptor _ _ _ => rfl
    have h3 : List.countP (Submission.isWaypoint k)
        (List.replicate 10 (Submission.waypoint k d true)) = 10 := by
      simp [List.countP_replicate, Submission.isWaypoint]
    rw [List.countP_append, List.countP_append, h1, h2, h3]
  · intro s hs
    rcases List.mem_append.mp hs with h | h
    · rcases List.mem_append.mp h with h | h
      · have := hpre s h
        cases s with
        | waypoint i _ _ =>
          simp only [Submission.isWaypointBelow, decide_eq_true_eq] at this
          simp only [Submission.isWaypointAbove, decide_eq_false_iff_not]
          omega
        | pathSegmentDescriptor _ _ _ => rfl
      · rw [List.eq_of_mem_replicate h]
        simp [Submission.isWaypointAbove]
    · have := hpost s h
      cases s with
      | waypoint i _ _ => simp [Submission.isPathSegmentDescriptor] at this
      | pathSegmentDescriptor _ _ _ => rfl
  · intro q data hq
    refine ⟨(robustUpdateWaypointLoop chan data k 10 q).2, ?_⟩
    have hf := robustUpdateWaypointLoop_false chan data k hnever 10 q
    cases hget : q.objManager.waypoints[k]? with
    | none => exact absurd hget hq
    | some w =>
      simp only [robustUpdateWaypoint, hget]
      rw [← hf]

theorem refusesOne_acks (log : List Submission) (i : Nat) (d : Waypoint.DataFields) (acked : Bool)
    (hi : i ≠ 1) : (refusesOne (log ++ [Submission.waypoint i d acked])).inWindow = some true := by
  have hlast : (log ++ [Submission.waypoint i d acked]).getLast?
      = some (Submission.waypoint i d acked) := by simp
  unfold refusesOne
  rw [hlast]
  split
  · rename_i h
    simp only [Option.some.injEq, Submission.waypoint.injEq] at h
    exact absurd h.1 hi
  · rfl

theorem refusesOne_refuses (log : List Submission) (d : Waypoint.DataFields) (acked : Bool) :
    (refusesOne (log ++ [Submission.waypoint 1 d acked])).inWindow = some false := by
  have hlast : (log ++ [Submission.waypoint 1 d acked]).getLast?
      = some (Submission.waypoint 1 d acked) := by simp
  unfold refusesOne
  rw [hlast]

/-- C2 at a concrete input: two waypoints, the channel `refusesOne`, `k = 1`. -/
theorem modelToObjects_retry_ceiling_witness :
    ∃ p' new, modelToObjects sampleEnv refusesOne ⟨[unlockedC, unlockedC], []⟩ ⟨[segmentS], []⟩
        oneEach = some p' ∧
      p'.objManager.updates = oneEach.objManager.updates ++ new ∧
      List.countP (Submission.isWaypoint 1) new = 10 ∧
      (∀ s ∈ new, Submission.isWaypointAbove 1 s = false) ∧
      ∀ q data, q.objManager.waypoints[1]? ≠ none →
        ∃ q', robustUpdateWaypoint refusesOne q data 1 = some (false, q') :=
  modelToObjects_retry_ceiling sampleEnv refusesOne ⟨[unlockedC, unlockedC], []⟩ ⟨[segmentS], []⟩
    oneEach 1 (by decide) (by decide) (by decide)
    (fun i hi log d acked => ⟨0, by decide, by
      simpa using refusesOne_acks log i d acked (by omega)⟩)
    (fun log d acked => by rw [refusesOne_refuses]; decide)

end ModelUavoProxy
namespace ModelUavoProxy

end ModelUavoProxy

/-! ### The two stores -/

theorem QList.at_eq_some {α : Type} (l : List α) (i : Int) (a : α) (h : QList.at l i = some a) :
    0 ≤ i ∧ i.toNat < l.length ∧ l[i.toNat]? = some a := by
  unfold QList.at at h
  split at h
  · rename_i h0
    exact ⟨h0, (List.getElem?_eq_some_iff.mp h).1, h⟩
  · cases h

theorem QList.at_length_append {α : Type} (l : List α) (a : α) :
    QList.at (l ++ [a]) (l.length : Int) = some a := by
  simp [QList.at]

theorem QList.insert_length {α : Type} (l : List α) (a : α) :
    QList.insert l (l.length : Int) a = l ++ [a] := by
  unfold QList.insert
  split
  · rename_i h
    have : l.length = 0 := by omega
    rw [List.length_eq_zero] at this
    subst this
    rfl
  · simp

theorem set_length_append {α : Type} (l : List α) (a b : α) :
    (l ++ [a]).set ((l.length : Int)).toNat b = l ++ [b] := by
  simp

namespace WaypointDataModel

theorem Column.ofInt_toInt (c : Column) : Column.ofInt c.toInt = some c := by
  cases c <;> rfl

theorem Column.toInt_range (c : Column) : 0 ≤ c.toInt ∧ c.toInt < LASTCOLUMN := by
  cases c <;> decide

theorem index_eq (m : WaypointDataModel) (row : Int) (c : Column) (r : waypointData)
    (hrow : QList.at m.dataStorage row = some r) : m.index row c.toInt = ⟨row, c.toInt⟩ := by
  obtain ⟨h0, hlt, _⟩ := QList.at_eq_some _ _ _ hrow
  obtain ⟨hc0, hc1⟩ := Column.toInt_range c
  unfold index
  rw [if_pos]
  refine ⟨h0, hc0, ?_, hc1⟩
  unfold rowCount
  omega

theorem index_set (m : WaypointDataModel) (row : Int) (c : Column) (r r1 : waypointData)
    (e : List ModelSignal) (hrow : QList.at m.dataStorage row = some r) :
    (⟨m.dataStorage.set row.toNat r1, e⟩ : WaypointDataModel).index row c.toInt
      = ⟨row, c.toInt⟩ := by
  obtain ⟨h0, hlt, _⟩ := QList.at_eq_some _ _ _ hrow
  obtain ⟨hc0, hc1⟩ := Column.toInt_range c
  unfold index
  rw [if_pos]
  refine ⟨h0, hc0, ?_, hc1⟩
  unfold rowCount
  simp only [List.length_set]
  omega

/-- An accepted `setData`: on a valid row that is unlocked, or on the LOCKED column, the
call returns true, replaces the record by `written env c value r` and emits the signals
`announced row c`. -/
theorem setData_accepted (env : Env) (m : WaypointDataModel) (row : Int) (c : Column)
    (value : QVariant) (r : waypointData)
    (hrow : QList.at m.dataStorage row = some r) (hfree : r.locked = false ∨ c = Column.LOCKED) :
    setData env m (m.index row c.toInt) value Qt.EditRole
      = some (true, ⟨m.dataStorage.set row.toNat (written env c value r),
          m.emitted ++ announced row c⟩) := by
  obtain ⟨h0, hlt, _⟩ := QList.at_eq_some _ _ _ hrow
  obtain ⟨hc0, hc1⟩ := Column.toInt_range c
  rw [index_eq m row c r hrow]
  have hvalid : QModelIndex.isValid ⟨row, c.toInt⟩ = true := by
    simp [QModelIndex.isValid, h0, hc0]
  have hguard : ¬ (r.locked = true ∧ c.toInt ≠ Column.LOCKED.toInt) := by
    rintro ⟨h1, h2⟩
    rcases hfree with h | h
    · rw [h] at h1; cases h1
    · exact h2 (by rw [h])
  have hi := fun c1 r1 e => index_set m row c1 r r1 e hrow
  unfold setData
  simp only [hvalid, and_self, if_true, hrow, if_neg hguard]
  cases c <;>
    simp [setDataSwitch, Column.ofInt_toInt, getNED, setNED, hrow, written, setRow,
      emitOther, emit, announced, hi]

/-- The same on the last record of a store. -/
theorem setData_last (env : Env) (l : List waypointData) (r : waypointData)
    (e : List ModelSignal) (c : Column) (value : QVariant) (hfree : r.locked = false) :
    setData env ⟨l ++ [r], e⟩ ((⟨l ++ [r], e⟩ : WaypointDataModel).index l.length c.toInt) value
        Qt.EditRole
      = some (true, ⟨l ++ [written env c value r], e ++ announced l.length c⟩) := by
  rw [setData_accepted env ⟨l ++ [r], e⟩ l.length c value r (QList.at_length_append l r)
    (Or.inl hfree)]
  simp

end WaypointDataModel
namespace WaypointDataModel

theorem removeLoop_all (l : List waypointData) : removeLoop 0 l.length l = some [] := by
  induction l with
  | nil => rfl
  | cons a l ih =>
    have h1 : QList.at (a :: l) 0 = some a := by simp [QList.at]
    have h2 : QList.removeAt (a :: l) 0 = l := by simp [QList.removeAt]
    simp only [List.length_cons, removeLoop, h1, h2]
    exact ih

/-- The call `removeRows(0, rowCount())` returns true and empties the store. -/
theorem removeRows_all (m : WaypointDataModel) :
    ∃ e, removeRows m 0 m.rowCount = some (true, ⟨[], e⟩) := by
  have h := removeLoop_all m.dataStorage
  simp [removeRows, rowCount, emit, h]

theorem newRecord_shape (env : Env) (m : WaypointDataModel)
    (h : ∀ r ∈ m.dataStorage, r.locked = false) :
    ∃ a v mo mp, newRecord env m = ⟨"", 0, 0, a, v, mo, mp, false⟩ := by
  unfold newRecord
  split
  · split
    · rename_i prevRow hprev
      obtain ⟨_, _, hget⟩ := QList.at_eq_some _ _ _ hprev
      have hmem : prevRow ∈ m.dataStorage := List.getElem?_mem hget
      exact ⟨_, _, _, _, by rw [h prevRow hmem]⟩
    · exact ⟨_, _, _, _, rfl⟩
  · exact ⟨_, _, _, _, rfl⟩

/-- The call `insertRow(x)` with `x == rowCount()` appends one record. -/
theorem insertRow_append (env : Env) (m : WaypointDataModel) :
    ∃ e, (insertRow env m (m.dataStorage.length : Int)).2
      = ⟨m.dataStorage ++ [newRecord env m], e⟩ := by
  simp only [insertRow, insertRows, Int.toNat_one, insertLoop, emit, QList.insert_length]
  exact ⟨_, rfl⟩

end WaypointDataModel

namespace PathSegmentDataModel

theorem segment_removeLoop_all (l : List pathSegmentData) : removeLoop 0 l.length l = some [] := by
  induction l with
  | nil => rfl
  | cons a l ih =>
    have h1 : QList.at (a :: l) 0 = some a := by simp [QList.at]
    have h2 : QList.removeAt (a :: l) 0 = l := by simp [QList.removeAt]
    simp only [List.length_cons, removeLoop, h1, h2]
    exact ih

/-- The call `removeRows(0, rowCount())` returns true and empties the store. -/
theorem segment_removeRows_all (m : PathSegmentDataModel) :
    ∃ e, removeRows m 0 m.rowCount = some (true, ⟨[], e⟩) := by
  have h := segment_removeLoop_all m.dataStorage
  simp [removeRows, rowCount, emit, h]

/-- The call `insertRow(x)` with `x == rowCount()` appends one record. -/
theorem segment_insertRow_append (m : PathSegmentDataModel) :
    ∃ e, (insertRow m (m.dataStorage.length : Int)).2 = ⟨m.dataStorage ++ [newRecord], e⟩ := by
  simp only [insertRow, insertRows, Int.toNat_one, insertLoop, emit, QList.insert_length]
  exact ⟨_, rfl⟩

theorem Column.segment_ofInt_toInt (c : Column) : Column.ofInt c.toInt = some c := by
  cases c <;> rfl

theorem Column.segment_toInt_range (c : Column) : 0 ≤ c.toInt ∧ c.toInt < LASTCOLUMN := by
  cases c <;> decide

/-- An accepted `setData`: on a valid row the call returns true and replaces the record
by the one the `switch` computes. -/
theorem segment_setData_accepted (env : Env) (m : PathSegmentDataModel) (row : Int) (c : Column)
    (value : QVariant) (r r1 : pathSegmentData)
    (hrow : QList.at m.dataStorage row = some r)
    (hsw : setDataSwitch env c.toInt r value = some r1) :
    setData env m (m.index row c.toInt) value Qt.EditRole
      = some (true, ⟨m.dataStorage.set row.toNat r1,
          m.emitted ++ [ModelSignal.dataChanged ⟨row, c.toInt⟩ ⟨row, c.toInt⟩]⟩) := by
  obtain ⟨h0, hlt, _⟩ := QList.at_eq_some _ _ _ hrow
  obtain ⟨hc0, hc1⟩ := Column.segment_toInt_range c
  have hidx : m.index row c.toInt = ⟨row, c.toInt⟩ := by
    unfold index
    rw [if_pos]
    refine ⟨h0, hc0, ?_, hc1⟩
    unfold rowCount
    omega
  have hvalid : QModelIndex.isValid ⟨row, c.toInt⟩ = true := by
    simp [QModelIndex.isValid, h0, hc0]
  rw [hidx]
  unfold setData
  simp only [hvalid, and_self, if_true, hrow, hsw]
  rfl

end PathSegmentDataModel
namespace PathSegmentDataModel

/-- An accepted `setData` on the last record of a store. -/
theorem segment_setData_last (env : Env) (l : List pathSegmentData) (r r1 : pathSegmentData)
    (e : List ModelSignal) (c : Column) (value : QVariant)
    (hsw : setDataSwitch env c.toInt r value = some r1) :
    setData env ⟨l ++ [r], e⟩ ((⟨l ++ [r], e⟩ : PathSegmentDataModel).index l.length c.toInt)
        value Qt.EditRole
      = some (true, ⟨l ++ [r1],
          e ++ [ModelSignal.dataChanged ⟨l.length, c.toInt⟩ ⟨l.length, c.toInt⟩]⟩) := by
  rw [segment_setData_accepted env ⟨l ++ [r], e⟩ l.length c value r r1 (QList.at_length_append l r) hsw]
  simp

end PathSegmentDataModel

namespace ModelUavoProxy

/-- One pass of the waypoint loop of `objectsToModel` on a store of `x` unlocked records:
it appends the record `pulledWaypoint env wp`. -/
theorem pullWaypoint_spec (env : Env) (mgr : UAVObjectManager) (l : List waypointData)
    (e : List ModelSignal) (wp : Waypoint.DataFields)
    (hl : ∀ r ∈ l, r.locked = false) (hwp : mgr.waypoints[l.length]? = some wp) :
    ∃ e', pullWaypoint env mgr l.length ⟨l, e⟩ = some ⟨l ++ [pulledWaypoint env wp], e'⟩ := by
  obtain ⟨e0, h0⟩ := WaypointDataModel.insertRow_append env ⟨l, e⟩
  obtain ⟨a, v, mo, mp, hnew⟩ := WaypointDataModel.newRecord_shape env ⟨l, e⟩ hl
  rw [hnew] at h0
  unfold pullWaypoint
  simp only [hwp, h0]
  rw [WaypointDataModel.setData_last env l _ e0 .LATPOSITION _ rfl]
  simp only [Option.some_bind]
  rw [WaypointDataModel.setData_last env l _ _ .LNGPOSITION _ rfl]
  simp only [Option.some_bind]
  rw [WaypointDataModel.setData_last env l _ _ .ALTITUDE _ rfl]
  simp only [Option.some_bind]
  rw [WaypointDataModel.setData_last env l _ _ .VELOCITY _ rfl]
  simp only [Option.some_bind]
  rw [WaypointDataModel.setData_last env l _ _ .MODE _ rfl]
  simp only [Option.some_bind]
  rw [WaypointDataModel.setData_last env l _ _ .MODE_PARAMS _ rfl]
  simp only [Option.some_bind]
  exact ⟨_, rfl⟩

/-- The waypoint loop of `objectsToModel` from instance `x` on a store of `x` unlocked
records: it appends the records of the remaining instances, in order. -/
theorem pullWaypoints_spec (env : Env) (mgr : UAVObjectManager) (n : Nat)
    (l : List waypointData) (e : List ModelSignal)
    (hl : ∀ r ∈ l, r.locked = false) (hn : l.length + n = mgr.waypoints.length) :
    ∃ e', pullWaypoints env mgr n l.length ⟨l, e⟩
      = some ⟨l ++ (mgr.waypoints.drop l.length).map (pulledWaypoint env), e'⟩ := by
  induction n generalizing l e with
  | zero =>
    refine ⟨e, ?_⟩
    have : mgr.waypoints.drop l.length = [] := List.drop_eq_nil_of_le (by omega)
    simp [pullWaypoints, this]
  | succ n ih =>
    have hlt : l.length < mgr.waypoints.length := by omega
    have hget : mgr.waypoints[l.length]? = some mgr.waypoints[l.length] :=
      List.getElem?_eq_getElem hlt
    obtain ⟨e1, h1⟩ := pullWaypoint_spec env mgr l e _ hl hget
    have hl1 : ∀ r ∈ l ++ [pulledWaypoint env mgr.waypoints[l.length]], r.locked = false := by
      intro r hr
      rcases List.mem_append.mp hr with h | h
      · exact hl r h
      · rw [List.mem_singleton.mp h]; rfl
    obtain ⟨e2, h2⟩ := ih (l ++ [pulledWaypoint env mgr.waypoints[l.length]]) e1 hl1
      (by simp; omega)
    refine ⟨e2, ?_⟩
    simp only [pullWaypoints, h1]
    have hlen : (l ++ [pulledWaypoint env mgr.waypoints[l.length]]).length = l.length + 1 := by
      simp
    rw [hlen] at h2
    rw [h2]
    have hdrop : mgr.waypoints.drop l.length
        = mgr.waypoints[l.length] :: mgr.waypoints.drop (l.length + 1) :=
      List.drop_eq_getElem_cons hlt
    rw [hdrop]
    simp only [List.map_cons, List.append_assoc, List.singleton_append]

/-- One pass of the path-segment loop of `objectsToModel` on a store of `x` records: it
appends the record `pulledPathSegment psd`. -/
theorem pullPathSegment_spec (env : Env) (mgr : UAVObjectManager) (l : List pathSegmentData)
    (e : List ModelSignal) (psd : PathSegmentDescriptor.DataFields)
    (hpsd : mgr.pathSegmentDescriptors[l.length]? = some psd) :
    ∃ e', pullPathSegment env mgr l.length ⟨l, e⟩ = some ⟨l ++ [pulledPathSegment psd], e'⟩ := by
  obtain ⟨e0, h0⟩ := PathSegmentDataModel.segment_insertRow_append ⟨l, e⟩
  unfold pullPathSegment
  simp only [hpsd, h0]
  rw [PathSegmentDataModel.segment_setData_last env l _ _ e0 .NED_POS_NORTH _ rfl]
  simp only [Option.some_bind]
  rw [PathSegmentDataModel.segment_setData_last env l _ _ _ .NED_POS_EAST _ rfl]
  simp only [Option.some_bind]
  rw [PathSegmentDataModel.segment_setData_last env l _ _ _ .NED_POS_DOWN _ rfl]
  simp only [Option.some_bind]
  rw [PathSegmentDataModel.segment_setData_last env l _ _ _ .CURVATURE _ rfl]
  simp only [Option.some_bind]
  rw [PathSegmentDataModel.segment_setData_last env l _ _ _ .NUM_ORBITS _ rfl]
  simp only [Option.some_bind]
  rw [PathSegmentDataModel.segment_setData_last env l _ _ _ .ARC_RANK _ rfl]
  simp only [Option.some_bind]
  exact ⟨_, rfl⟩

/-- The path-segment loop of `objectsToModel` from instance `x` on a store of `x`
records: it appends the records of the remaining instances, in order. -/
theorem pullPathSegments_spec (env : Env) (mgr : UAVObjectManager) (n : Nat)
    (l : List pathSegmentData) (e : List ModelSignal)
    (hn : l.length + n = mgr.pathSegmentDescriptors.length) :
    ∃ e', pullPathSegments env mgr n l.length ⟨l, e⟩
      = some ⟨l ++ (mgr.pathSegmentDescriptors.drop l.length).map pulledPathSegment, e'⟩ := by
  induction n generalizing l e with
  | zero =>
    refine ⟨e, ?_⟩
    have : mgr.pathSegmentDescriptors.drop l.length = [] := List.drop_eq_nil_of_le (by omega)
    simp [pullPathSegments, this]
  | succ n ih =>
    have hlt : l.length < mgr.pathSegmentDescriptors.length := by omega
    have hget : mgr.pathSegmentDescriptors[l.length]? = some mgr.pathSegmentDescriptors[l.length] :=
      List.getElem?_eq_getElem hlt
    obtain ⟨e1, h1⟩ := pullPathSegment_spec env mgr l e _ hget
    obtain ⟨e2, h2⟩ := ih (l ++ [pulledPathSegment mgr.pathSegmentDescriptors[l.length]]) e1
      (by simp; omega)
    refine ⟨e2, ?_⟩
    simp only [pullPathSegments, h1]
    have hlen : (l ++ [pulledPathSegment mgr.pathSegmentDescriptors[l.length]]).length
        = l.length + 1 := by simp
    rw [hlen] at h2
    rw [h2]
    have hdrop : mgr.pathSegmentDescriptors.drop l.length
        = mgr.pathSegmentDescriptors[l.length] :: mgr.pathSegmentDescriptors.drop (l.length + 1) :=
      List.drop_eq_getElem_cons hlt
    rw [hdrop]
    simp only [List.map_cons, List.append_assoc, List.singleton_append]

/-- What `objectsToModel` leaves in the two stores, whatever they held: one record per
remote instance, in ascending instance order. -/
theorem objectsToModel_spec (env : Env) (mgr : UAVObjectManager)
    (waypointModel : WaypointDataModel) (pathSegmentModel : PathSegmentDataModel) :
    ∃ e1 e2, objectsToModel env mgr waypointModel pathSegmentModel
      = some (⟨mgr.waypoints.map (pulledWaypoint env), e1⟩,
              ⟨mgr.pathSegmentDescriptors.map pulledPathSegment, e2⟩) := by
  obtain ⟨ew, hw⟩ := WaypointDataModel.removeRows_all waypointModel
  obtain ⟨es, hs⟩ := PathSegmentDataModel.segment_removeRows_all pathSegmentModel
  obtain ⟨e1, h1⟩ := pullWaypoints_spec env mgr mgr.waypoints.length [] ew
    (by intro r hr; cases hr) (by simp)
  obtain ⟨e2, h2⟩ := pullPathSegments_spec env mgr mgr.pathSegmentDescriptors.length [] es
    (by simp)
  refine ⟨e1, e2, ?_⟩
  simp only [List.length_nil, List.drop_zero, List.nil_append] at h1 h2
  simp only [objectsToModel, hw, hs, h1, h2]

end ModelUavoProxy
namespace ModelUavoProxy

/-- C6: whatever the two local stores held, after `objectsToModel` the waypoint store has
one row per remote Waypoint instance, row `i` carrying the Velocity, Mode and
ModeParameters of instance `i`, and the path-segment store has one row per remote
PathSegmentDescriptor instance, row `i` carrying the SwitchingLocus, PathCurvature,
NumberOfOrbits and ArcRank of instance `i`, in ascending instance order. -/
theorem objectsToModel_copies_instances (env : Env) (mgr : UAVObjectManager)
    (waypointModel : WaypointDataModel) (pathSegmentModel : PathSegmentDataModel) :
    ∃ w s, objectsToModel env mgr waypointModel pathSegmentModel = some (w, s) ∧
      w.rowCount = mgr.waypoints.length ∧
      w.dataStorage.map (fun r => (r.velocity, r.mode, r.mode_params))
        = mgr.waypoints.map (fun i => (i.Velocity, (i.Mode : Int), i.ModeParameters)) ∧
      s.rowCount = mgr.pathSegmentDescriptors.length ∧
      s.dataStorage.map (fun r => (r.posNED, r.curvature, r.numberOfOrbits, r.arcRank))
        = mgr.pathSegmentDescriptors.map
            (fun i => (i.SwitchingLocus, i.PathCurvature, (i.NumberOfOrbits : Int),
              (i.ArcRank : Int))) := by
  obtain ⟨e1, e2, h⟩ := objectsToModel_spec env mgr waypointModel pathSegmentModel
  refine ⟨_, _, h, ?_, ?_, ?_, ?_⟩
  · simp [WaypointDataModel.rowCount]
  · simp [pulledWaypoint]
  · simp [PathSegmentDataModel.rowCount]
  · simp [pulledPathSegment]

/-- C7: whatever the two local stores held, when the remote holds no Waypoint and no
PathSegmentDescriptor instance `objectsToModel` ends normally and leaves both stores with
`rowCount() == 0`. -/
theorem objectsToModel_empty_remote (env : Env) (mgr : UAVObjectManager)
    (waypointModel : WaypointDataModel) (pathSegmentModel : PathSegmentDataModel)
    (hw : mgr.waypoints = []) (hs : mgr.pathSegmentDescriptors = []) :
    ∃ w s, objectsToModel env mgr waypointModel pathSegmentModel = some (w, s) ∧
      w.rowCount = 0 ∧ s.rowCount = 0 := by
  obtain ⟨e1, e2, h⟩ := objectsToModel_spec env mgr waypointModel pathSegmentModel
  refine ⟨_, _, h, ?_, ?_⟩
  · simp [WaypointDataModel.rowCount, hw]
  · simp [PathSegmentDataModel.rowCount, hs]

/-- C7 at a concrete input: non-empty local stores, an object manager without
instances. -/
theorem objectsToModel_empty_remote_witness :
    ∃ w s, objectsToModel sampleEnv ⟨[], ⟨false, []⟩, [], ⟨false, []⟩, []⟩
        ⟨[lockedA, unlockedC], []⟩ ⟨[segmentS], []⟩ = some (w, s) ∧
      w.rowCount = 0 ∧ s.rowCount = 0 :=
  objectsToModel_empty_remote sampleEnv ⟨[], ⟨false, []⟩, [], ⟨false, []⟩, []⟩
    ⟨[lockedA, unlockedC], []⟩ ⟨[segmentS], []⟩ rfl rfl

end ModelUavoProxy

namespace MapArc

/-- Over an ordered field, where `P - P` is 0 for every `P`: called with
`start == end == P`, `findArcCenter_px` returns `ARC_COINCIDENT_POINTS`, for every radius
and both flags. -/
theorem findArcCenter_px_coincident {K : Type} [LinearOrderedField K] (sqrt : K → K)
    (P : K × K) (radius : K) (clockwise minor : Bool) :
    findArcCenter_px sqrt P P radius clockwise minor = (.ARC_COINCIDENT_POINTS, none) ∧
    (findArcCenter_px sqrt P P radius clockwise minor).1 ≠ .ARC_CENTER_FOUND := by
  have h : findArcCenter_px sqrt P P radius clockwise minor = (.ARC_COINCIDENT_POINTS, none) := by
    unfold findArcCenter_px
    rw [if_pos]
    simp
  rw [h]
  exact ⟨rfl, fun hne => by cases hne⟩

/-- C8: two evaluations. With the points 2000 apart and radius 500, half of the
half-separation 1000, the result is `ARC_CENTER_FOUND` with the centre at the chord
midpoint; with the points 2 apart and radius 0.999, which is 99.9% of the half-separation
1, the result is `ARC_INSUFFICIENT_RADIUS`. The allowance `d2 > -pow(radius*0.01, 2)`
compares the dimensionless `d2` with a squared length, so it is not a relative 1%. -/
theorem findArcCenter_px_allowance_not_relative :
    findArcCenter_px Real.sqrt (0, 0) (2000, 0) 500 true true
      = (.ARC_CENTER_FOUND, some (1000, 0)) ∧
    findArcCenter_px Real.sqrt (0, 0) (2, 0) (999 / 1000) true true
      = (.ARC_INSUFFICIENT_RADIUS, none) := by
  constructor
  · unfold findArcCenter_px centerAlong
    norm_num
  · unfold findArcCenter_px centerAlong
    norm_num

end MapArc
namespace MapArc

/-- C9, as stated, fails: the points `(0, 0)` and `(1/2000, 0)` differ by more than 1e-6
and the radius 1 exceeds half their separation, yet the returned centre is the chord
midpoint `(1/4000, 0)`, at distance 1/4000 from both points: the displacement is below
1e-3 in both coordinates, so the branch `fabs(p_x) < 1e-3 && fabs(p_y) < 1e-3` is taken. -/
theorem findArcCenter_px_close_points_midpoint :
    (1 : ℝ) / 1000000 ≤ |(0 : ℝ) - 1 / 2000| ∧
    Real.sqrt (((1 : ℝ) / 2000 - 0) ^ 2 + ((0 : ℝ) - 0) ^ 2) / 2 ≤ 1 ∧
    findArcCenter_px Real.sqrt (0, 0) (1 / 2000, 0) 1 true true
      = (.ARC_CENTER_FOUND, some (1 / 4000, 0)) ∧
    Real.sqrt (((1 : ℝ) / 4000 - 0) ^ 2 + ((0 : ℝ) - 0) ^ 2) ≠ 1 ∧
    Real.sqrt (((1 : ℝ) / 4000 - 1 / 2000) ^ 2 + ((0 : ℝ) - 0) ^ 2) ≠ 1 := by
  have h1 : Real.sqrt (((1 : ℝ) / 2000 - 0) ^ 2 + ((0 : ℝ) - 0) ^ 2) = 1 / 2000 := by
    rw [show ((1 : ℝ) / 2000 - 0) ^ 2 + ((0 : ℝ) - 0) ^ 2 = (1 / 2000) ^ 2 by norm_num]
    exact Real.sqrt_sq (by norm_num)
  have h2 : Real.sqrt (((1 : ℝ) / 4000 - 0) ^ 2 + ((0 : ℝ) - 0) ^ 2) = 1 / 4000 := by
    rw [show ((1 : ℝ) / 4000 - 0) ^ 2 + ((0 : ℝ) - 0) ^ 2 = (1 / 4000) ^ 2 by norm_num]
    exact Real.sqrt_sq (by norm_num)
  have h3 : Real.sqrt (((1 : ℝ) / 4000 - 1 / 2000) ^ 2 + ((0 : ℝ) - 0) ^ 2) = 1 / 4000 := by
    rw [show ((1 : ℝ) / 4000 - 1 / 2000) ^ 2 + ((0 : ℝ) - 0) ^ 2 = (1 / 4000) ^ 2 by norm_num]
    exact Real.sqrt_sq (by norm_num)
  refine ⟨?_, ?_, ?_, ?_, ?_⟩
  · rw [abs_sub_comm]; norm_num [abs_of_pos]
  · rw [h1]; norm_num
  · unfold findArcCenter_px centerAlong
    norm_num [abs_of_pos]
  · rw [h2]; norm_num
  · rw [h3]; norm_num

/-- The point reached from the chord midpoint along the normal `(p_x, p_y)` by
`d = sqrt(d2)` is at distance `radius` from an end of the chord. -/
theorem on_circle (hx hy p_x p_y d r q : ℝ) (hq : q ≠ 0) (hp : p_x * p_x + p_y * p_y = q)
    (hh : hx * hx + hy * hy = q / 4) (horth : hx * p_x + hy * p_y = 0)
    (hd : d ^ 2 = r * r / q - 1 / 4) :
    (hx + p_x * d) ^ 2 + (hy + p_y * d) ^ 2 = r ^ 2 := by
  have hdq : d ^ 2 * q = r ^ 2 - q / 4 := by
    rw [hd]; field_simp; ring
  linear_combination hh + 2 * d * horth + d ^ 2 * hp + hdq

/-- The tail of `findArcCenter_px` for a radius of at least half the separation and
points at least 1e-3 apart in some coordinate, for either choice of the normal. -/
theorem centerAlong_on_circle (sx sy ex ey radius p_x p_y : ℝ)
    (hp : (p_x = -(ey - sy) ∧ p_y = ex - sx) ∨ (p_x = ey - sy ∧ p_y = -(ex - sx)))
    (hfar : 1 / 1000 ≤ |ex - sx| ∨ 1 / 1000 ≤ |ey - sy|)
    (hr : Real.sqrt ((ex - sx) ^ 2 + (ey - sy) ^ 2) / 2 ≤ radius) :
    ¬ (radius * radius / (p_x * p_x + p_y * p_y) - 1 / 4 < 0) ∧
    ∃ c, centerAlong Real.sqrt ((sx + ex) / 2) ((sy + ey) / 2) p_x p_y
          (radius * radius / (p_x * p_x + p_y * p_y) - 1 / 4) = (.ARC_CENTER_FOUND, some c) ∧
      Real.sqrt ((c.1 - sx) ^ 2 + (c.2 - sy) ^ 2) = radius ∧
      Real.sqrt ((c.1 - ex) ^ 2 + (c.2 - ey) ^ 2) = radius := by
  have hqpos : 0 < (ex - sx) ^ 2 + (ey - sy) ^ 2 := by
    rcases hfar with h | h
    · have : 0 < |ex - sx| := lt_of_lt_of_le (by norm_num) h
      have := abs_pos.mp this
      have := sq_pos_of_ne_zero this
      have := sq_nonneg (ey - sy)
      linarith
    · have : 0 < |ey - sy| := lt_of_lt_of_le (by norm_num) h
      have := abs_pos.mp this
      have := sq_pos_of_ne_zero this
      have := sq_nonneg (ex - sx)
      linarith
  have hr0 : 0 ≤ radius := le_trans (div_nonneg (Real.sqrt_nonneg _) (by norm_num)) hr
  have hrq : ((ex - sx) ^ 2 + (ey - sy) ^ 2) / 4 ≤ radius * radius := by
    have h1 : Real.sqrt ((ex - sx) ^ 2 + (ey - sy) ^ 2) ≤ 2 * radius := by linarith
    have h2 : Real.sqrt ((ex - sx) ^ 2 + (ey - sy) ^ 2) ^ 2 = (ex - sx) ^ 2 + (ey - sy) ^ 2 :=
      Real.sq_sqrt hqpos.le
    have h3 : Real.sqrt ((ex - sx) ^ 2 + (ey - sy) ^ 2) ^ 2 ≤ (2 * radius) ^ 2 :=
      pow_le_pow_left₀ (Real.sqrt_nonneg _) h1 2
    nlinarith
  have hpq : p_x * p_x + p_y * p_y = (ex - sx) ^ 2 + (ey - sy) ^ 2 := by
    rcases hp with ⟨h1, h2⟩ | ⟨h1, h2⟩ <;> rw [h1, h2] <;> ring
  have hd2 : 0 ≤ radius * radius / (p_x * p_x + p_y * p_y) - 1 / 4 := by
    rw [hpq, sub_nonneg, le_div_iff₀ hqpos]
    linarith
  have hbig : ¬ (|p_x| < 1 / 1000 ∧ |p_y| < 1 / 1000) := by
    rintro ⟨h1, h2⟩
    rcases hp with ⟨e1, e2⟩ | ⟨e1, e2⟩
    · rw [e1, abs_neg] at h1
      rw [e2] at h2
      rcases hfar with h | h <;> linarith
    · rw [e1] at h1
      rw [e2, abs_neg] at h2
      rcases hfar with h | h <;> linarith
  refine ⟨not_lt.mpr hd2, ?_⟩
  unfold centerAlong
  simp only [if_neg hbig]
  refine ⟨_, rfl, ?_, ?_⟩
  · have key := on_circle ((ex - sx) / 2) ((ey - sy) / 2) p_x p_y
      (Real.sqrt (radius * radius / (p_x * p_x + p_y * p_y) - 1 / 4)) radius
      ((ex - sx) ^ 2 + (ey - sy) ^ 2) hqpos.ne' hpq (by ring)
      (by rcases hp with ⟨h1, h2⟩ | ⟨h1, h2⟩ <;> rw [h1, h2] <;> ring)
      (by rw [Real.sq_sqrt hd2, hpq])
    rw [show ((sx + ex) / 2 + p_x * Real.sqrt (radius * radius / (p_x * p_x + p_y * p_y) - 1 / 4)
          - sx) ^ 2
        + ((sy + ey) / 2 + p_y * Real.sqrt (radius * radius / (p_x * p_x + p_y * p_y) - 1 / 4)
          - sy) ^ 2 = radius ^ 2 by rw [← key]; ring]
    exact Real.sqrt_sq hr0
  · have key := on_circle (-((ex - sx) / 2)) (-((ey - sy) / 2)) p_x p_y
      (Real.sqrt (radius * radius / (p_x * p_x + p_y * p_y) - 1 / 4)) radius
      ((ex - sx) ^ 2 + (ey - sy) ^ 2) hqpos.ne' hpq (by ring)
      (by rcases hp with ⟨h1, h2⟩ | ⟨h1, h2⟩ <;> rw [h1, h2] <;> ring)
      (by rw [Real.sq_sqrt hd2, hpq])
    rw [show ((sx + ex) / 2 + p_x * Real.sqrt (radius * radius / (p_x * p_x + p_y * p_y) - 1 / 4)
          - ex) ^ 2
        + ((sy + ey) / 2 + p_y * Real.sqrt (radius * radius / (p_x * p_x + p_y * p_y) - 1 / 4)
          - ey) ^ 2 = radius ^ 2 by rw [← key]; ring]
    exact Real.sqrt_sq hr0

/-- C9 (amended): for start and end points that differ by at least 1e-3 in some
coordinate, every radius at least half their separation and both flags,
`findArcCenter_px` returns `ARC_CENTER_FOUND` with a centre whose distances to start and
to end both equal the radius. -/
theorem findArcCenter_px_on_circle (start_point end_point : ℝ × ℝ) (radius : ℝ)
    (clockwise minor : Bool)
    (hfar : 1 / 1000 ≤ |end_point.1 - start_point.1| ∨ 1 / 1000 ≤ |end_point.2 - start_point.2|)
    (hr : Real.sqrt ((end_point.1 - start_point.1) ^ 2 + (end_point.2 - start_point.2) ^ 2) / 2
      ≤ radius) :
    ∃ c, findArcCenter_px Real.sqrt start_point end_point radius clockwise minor
        = (.ARC_CENTER_FOUND, some c) ∧
      Real.sqrt ((c.1 - start_point.1) ^ 2 + (c.2 - start_point.2) ^ 2) = radius ∧
      Real.sqrt ((c.1 - end_point.1) ^ 2 + (c.2 - end_point.2) ^ 2) = radius := by
  obtain ⟨sx, sy⟩ := start_point
  obtain ⟨ex, ey⟩ := end_point
  simp only at hfar hr ⊢
  have hncoin : ¬ (|sx - ex| < 1 / 1000000 ∧ |sy - ey| < 1 / 1000000) := by
    rintro ⟨h1, h2⟩
    rw [abs_sub_comm] at h1 h2
    rcases hfar with h | h
    · linarith
    · linarith
  unfold findArcCenter_px
  simp only [if_neg hncoin]
  by_cases hflags : (clockwise = true ∧ minor = true) ∨ (clockwise = false ∧ minor = false)
  · simp only [if_pos hflags]
    obtain ⟨hd2, c, hc, h1, h2⟩ := centerAlong_on_circle sx sy ex ey radius (-(ey - sy)) (ex - sx)
      (Or.inl ⟨rfl, rfl⟩) hfar hr
    rw [if_neg hd2]
    exact ⟨c, hc, h1, h2⟩
  · simp only [if_neg hflags]
    obtain ⟨hd2, c, hc, h1, h2⟩ := centerAlong_on_circle sx sy ex ey radius (ey - sy) (-(ex - sx))
      (Or.inr ⟨rfl, rfl⟩) hfar hr
    rw [if_neg hd2]
    exact ⟨c, hc, h1, h2⟩

/-- C9 (amended) at a concrete input: the points `(0, 0)` and `(6, 8)`, radius 13. -/
theorem findArcCenter_px_on_circle_witness :
    ∃ c, findArcCenter_px Real.sqrt ((0 : ℝ), (0 : ℝ)) ((6 : ℝ), (8 : ℝ)) 13 true false
        = (.ARC_CENTER_FOUND, some c) ∧
      Real.sqrt ((c.1 - (0 : ℝ)) ^ 2 + (c.2 - (0 : ℝ)) ^ 2) = 13 ∧
      Real.sqrt ((c.1 - (6 : ℝ)) ^ 2 + (c.2 - (8 : ℝ)) ^ 2) = 13 :=
  findArcCenter_px_on_circle (0, 0) (6, 8) 13 true false
    (Or.inl (by norm_num))
    (by
      have h : Real.sqrt (((6 : ℝ) - 0) ^ 2 + ((8 : ℝ) - 0) ^ 2) = 10 := by
        rw [show ((6 : ℝ) - 0) ^ 2 + ((8 : ℝ) - 0) ^ 2 = 10 ^ 2 by norm_num]
        exact Real.sqrt_sq (by norm_num)
      show Real.sqrt (((6 : ℝ) - 0) ^ 2 + ((8 : ℝ) - 0) ^ 2) / 2 ≤ 13
      rw [h]; norm_num)

end MapArc

namespace MapArc

/-- The tail of `findArcCenter_px` when the radius is exactly half the separation of two
distinct points, for either choice of the normal: `d2` is 0, so `d` is 0 and the centre
is the chord midpoint. -/
theorem centerAlong_half_separation (sx sy ex ey p_x p_y : ℝ)
    (hp : (p_x = -(ey - sy) ∧ p_y = ex - sx) ∨ (p_x = ey - sy ∧ p_y = -(ex - sx)))
    (hq : 0 < (ex - sx) ^ 2 + (ey - sy) ^ 2) :
    Real.sqrt ((ex - sx) ^ 2 + (ey - sy) ^ 2) / 2 * (Real.sqrt ((ex - sx) ^ 2 + (ey - sy) ^ 2) / 2)
        / (p_x * p_x + p_y * p_y) - 1 / 4 = 0 ∧
    centerAlong Real.sqrt ((sx + ex) / 2) ((sy + ey) / 2) p_x p_y
        (Real.sqrt ((ex - sx) ^ 2 + (ey - sy) ^ 2) / 2
          * (Real.sqrt ((ex - sx) ^ 2 + (ey - sy) ^ 2) / 2) / (p_x * p_x + p_y * p_y) - 1 / 4)
      = (.ARC_CENTER_FOUND, some ((sx + ex) / 2, (sy + ey) / 2)) := by
  have hpq : p_x * p_x + p_y * p_y = (ex - sx) ^ 2 + (ey - sy) ^ 2 := by
    rcases hp with ⟨h1, h2⟩ | ⟨h1, h2⟩ <;> rw [h1, h2] <;> ring
  have hs : Real.sqrt ((ex - sx) ^ 2 + (ey - sy) ^ 2) * Real.sqrt ((ex - sx) ^ 2 + (ey - sy) ^ 2)
      = (ex - sx) ^ 2 + (ey - sy) ^ 2 := Real.mul_self_sqrt hq.le
  have hd2 : Real.sqrt ((ex - sx) ^ 2 + (ey - sy) ^ 2) / 2
      * (Real.sqrt ((ex - sx) ^ 2 + (ey - sy) ^ 2) / 2) / (p_x * p_x + p_y * p_y) - 1 / 4 = 0 := by
    rw [hpq]
    have : Real.sqrt ((ex - sx) ^ 2 + (ey - sy) ^ 2) / 2
        * (Real.sqrt ((ex - sx) ^ 2 + (ey - sy) ^ 2) / 2) = ((ex - sx) ^ 2 + (ey - sy) ^ 2) / 4 := by
      linear_combination (1 / 4) * hs
    rw [this]
    field_simp
    ring
  refine ⟨hd2, ?_⟩
  rw [hd2]
  unfold centerAlong
  simp only [Real.sqrt_zero, mul_zero, add_zero]
  split <;> rfl

/-- C11: for start and end points that are not coincident and a radius exactly half their
separation, `findArcCenter_px` returns `ARC_CENTER_FOUND` with the centre exactly at the
midpoint `(start + end) / 2`, for both flags; `d2`, and with it `d = sqrt(d2)`, is 0 for
either normal. -/
theorem findArcCenter_px_half_separation (start_point end_point : ℝ × ℝ)
    (clockwise minor : Bool)
    (hdistinct : ¬ (|start_point.1 - end_point.1| < 1 / 1000000 ∧
      |start_point.2 - end_point.2| < 1 / 1000000)) :
    findArcCenter_px Real.sqrt start_point end_point
        (Real.sqrt ((end_point.1 - start_point.1) ^ 2 + (end_point.2 - start_point.2) ^ 2) / 2)
        clockwise minor
      = (.ARC_CENTER_FOUND,
          some ((start_point.1 + end_point.1) / 2, (start_point.2 + end_point.2) / 2)) ∧
    ∀ p_x p_y : ℝ,
      (p_x = -(end_point.2 - start_point.2) ∧ p_y = end_point.1 - start_point.1) ∨
        (p_x = end_point.2 - start_point.2 ∧ p_y = -(end_point.1 - start_point.1)) →
      Real.sqrt
        (Real.sqrt ((end_point.1 - start_point.1) ^ 2 + (end_point.2 - start_point.2) ^ 2) / 2 *
          (Real.sqrt ((end_point.1 - start_point.1) ^ 2 + (end_point.2 - start_point.2) ^ 2) / 2)
          / (p_x * p_x + p_y * p_y) - 1 / 4) = 0 := by
  obtain ⟨sx, sy⟩ := start_point
  obtain ⟨ex, ey⟩ := end_point
  simp only at hdistinct ⊢
  have hq : 0 < (ex - sx) ^ 2 + (ey - sy) ^ 2 := by
    by_contra hle
    have h0 : (ex - sx) ^ 2 + (ey - sy) ^ 2 = 0 :=
      le_antisymm (not_lt.mp hle) (add_nonneg (sq_nonneg _) (sq_nonneg _))
    have hx : ex - sx = 0 := by nlinarith [sq_nonneg (ex - sx), sq_nonneg (ey - sy)]
    have hy : ey - sy = 0 := by nlinarith [sq_nonneg (ex - sx), sq_nonneg (ey - sy)]
    apply hdistinct
    have e1 : sx - ex = 0 := by linarith
    have e2 : sy - ey = 0 := by linarith
    rw [e1, e2]
    norm_num
  constructor
  · unfold findArcCenter_px
    simp only [if_neg hdistinct]
    by_cases hflags : (clockwise = true ∧ minor = true) ∨ (clockwise = false ∧ minor = false)
    · simp only [if_pos hflags]
      obtain ⟨hd2, hc⟩ := centerAlong_half_separation sx sy ex ey (-(ey - sy)) (ex - sx)
        (Or.inl ⟨rfl, rfl⟩) hq
      rw [if_neg (by rw [hd2]; exact lt_irrefl 0)]
      exact hc
    · simp only [if_neg hflags]
      obtain ⟨hd2, hc⟩ := centerAlong_half_separation sx sy ex ey (ey - sy) (-(ex - sx))
        (Or.inr ⟨rfl, rfl⟩) hq
      rw [if_neg (by rw [hd2]; exact lt_irrefl 0)]
      exact hc
  · intro p_x p_y hp
    rw [(centerAlong_half_separation sx sy ex ey p_x p_y hp hq).1]
    exact Real.sqrt_zero

/-- C11 at a concrete input: the points `(0, 0)` and `(6, 8)`, whose separation is 10. -/
theorem findArcCenter_px_half_separation_witness :
    findArcCenter_px Real.sqrt ((0 : ℝ), (0 : ℝ)) ((6 : ℝ), (8 : ℝ))
        (Real.sqrt (((6 : ℝ) - 0) ^ 2 + ((8 : ℝ) - 0) ^ 2) / 2) true true
      = (.ARC_CENTER_FOUND, some (((0 : ℝ) + 6) / 2, ((0 : ℝ) + 8) / 2)) ∧
    ∀ p_x p_y : ℝ,
      (p_x = -((8 : ℝ) - 0) ∧ p_y = (6 : ℝ) - 0) ∨ (p_x = (8 : ℝ) - 0 ∧ p_y = -((6 : ℝ) - 0)) →
      Real.sqrt
        (Real.sqrt (((6 : ℝ) - 0) ^ 2 + ((8 : ℝ) - 0) ^ 2) / 2 *
          (Real.sqrt (((6 : ℝ) - 0) ^ 2 + ((8 : ℝ) - 0) ^ 2) / 2)
          / (p_x * p_x + p_y * p_y) - 1 / 4) = 0 :=
  findArcCenter_px_half_separation (0, 0) (6, 8) true true (by norm_num)

end MapArc

namespace ModelUavoProxy

/-- The retry loop of `robustUpdate(Waypoint::DataFields, int)` against the outcomes of
its attempts: attempt `a` (counted from 1) is positively acknowledged in its window when
the channel says so for the log extended by `a` copies of the submission. The loop makes
`j ≤ n` submissions; on success `j` is the first acknowledged attempt, on failure `j = n`
and no attempt was acknowledged. -/
theorem robustUpdateWaypointLoop_outcomes (chan : Channel) (data : Waypoint.DataFields)
    (inst : Nat) (n : Nat) (p : ModelUavoProxy) :
    ∃ j, j ≤ n ∧
      (robustUpdateWaypointLoop chan data inst n p).2.objManager.updates =
        p.objManager.updates ++ List.replicate j
          (Submission.waypoint inst data p.objManager.waypointMetadata.flightTelemetryAcked) ∧
      (∀ a, 0 < a → a < j → (chan (p.objManager.updates ++ List.replicate a
          (Submission.waypoint inst data
            p.objManager.waypointMetadata.flightTelemetryAcked))).inWindow ≠ some true) ∧
      ((robustUpdateWaypointLoop chan data inst n p).1 = true →
        0 < j ∧ (chan (p.objManager.updates ++ List.replicate j
          (Submission.waypoint inst data
            p.objManager.waypointMetadata.flightTelemetryAcked))).inWindow = some true) ∧
      ((robustUpdateWaypointLoop chan data inst n p).1 = false →
        j = n ∧ (0 < n → (chan (p.objManager.updates ++ List.replicate n
          (Submission.waypoint inst data
            p.objManager.waypointMetadata.flightTelemetryAcked))).inWindow ≠ some true)) := by
  induction n generalizing p with
  | zero =>
    exact ⟨0, le_refl _, by simp [robustUpdateWaypointLoop], by intro a h1 h2; omega,
      by simp [robustUpdateWaypointLoop], by simp [robustUpdateWaypointLoop]⟩
  | succ n ih =>
    unfold robustUpdateWaypointLoop
    simp only []
    split
    · rename_i h
      rw [waypoint_result_after_window _ inst p.waypointTransactionResult rfl] at h
      refine ⟨1, by omega, ?_, by intro a h1 h2; omega, ?_, by simp⟩
      · simp [deliver_waypoint_objManager, submitWaypoint]
      · intro _
        exact ⟨by omega, by simpa [submitWaypoint] using h⟩
    · rename_i h
      rw [waypoint_result_after_window _ inst p.waypointTransactionResult rfl] at h
      obtain ⟨j, hj, hupd, hbefore, htrue, hfalse⟩ := ih
        (deliver waypointTransactionCompleted
          (deliver waypointTransactionCompleted
            (submitWaypoint { p with waypointTransactionResult :=
                                QMap.insert p.waypointTransactionResult inst false } data inst) inst
            (chan (submitWaypoint { p with waypointTransactionResult :=
                                QMap.insert p.waypointTransactionResult inst false } data inst).objManager.updates).inWindow)
          inst
          (chan (submitWaypoint { p with waypointTransactionResult :=
                                QMap.insert p.waypointTransactionResult inst false } data inst).objManager.updates).late)
      simp only [deliver_waypoint_objManager, submitWaypoint, List.append_assoc,
        List.singleton_append] at hupd hbefore htrue hfalse h
      have hcons : ∀ a, Submission.waypoint inst data
            p.objManager.waypointMetadata.flightTelemetryAcked ::
          List.replicate a (Submission.waypoint inst data
            p.objManager.waypointMetadata.flightTelemetryAcked)
          = List.replicate (a + 1) (Submission.waypoint inst data
            p.objManager.waypointMetadata.flightTelemetryAcked) := fun a => rfl
      simp only [hcons] at hupd hbefore htrue hfalse
      refine ⟨j + 1, by omega, hupd, ?_, ?_, ?_⟩
      · intro a ha1 ha2
        cases a with
        | zero => omega
        | succ a =>
          cases a with
          | zero => simpa using h
          | succ a => exact hbefore (a + 1) (by omega) (by omega)
      · intro ht
        exact ⟨by omega, (htrue ht).2⟩
      · intro hf
        obtain ⟨hjn, hlast⟩ := hfalse hf
        refine ⟨by omega, fun _ => ?_⟩
        cases n with
        | zero => simpa using h
        | succ n => exact hlast (by omega)

end ModelUavoProxy

namespace ModelUavoProxy

/-- C12: for every behaviour of the channel, `robustUpdate(Waypoint::DataFields, int)` on
an existing instance makes `j ≤ 10` submissions and returns true exactly when one of the
attempts it made is positively acknowledged in its own wait window; when it returns true,
`j` is the index (from 1) of the first acknowledged attempt, and when it returns false all
ten attempts were made. -/
theorem robustUpdate_attempts (chan : Channel) (p : ModelUavoProxy)
    (data : Waypoint.DataFields) (inst : Nat) (hinst : p.objManager.waypoints[inst]? ≠ none) :
    ∃ r j, robustUpdateWaypoint chan p data inst = some r ∧ j ≤ 10 ∧
      r.2.objManager.updates = p.objManager.updates ++ List.replicate j
        (Submission.waypoint inst data p.objManager.waypointMetadata.flightTelemetryAcked) ∧
      (r.1 = true ↔ ∃ a, 0 < a ∧ a ≤ j ∧
        (chan (p.objManager.updates ++ List.replicate a (Submission.waypoint inst data
          p.objManager.waypointMetadata.flightTelemetryAcked))).inWindow = some true) ∧
      (r.1 = true → 0 < j ∧
        (chan (p.objManager.updates ++ List.replicate j (Submission.waypoint inst data
          p.objManager.waypointMetadata.flightTelemetryAcked))).inWindow = some true ∧
        ∀ a, 0 < a → a < j →
          (chan (p.objManager.updates ++ List.replicate a (Submission.waypoint inst data
            p.objManager.waypointMetadata.flightTelemetryAcked))).inWindow ≠ some true) ∧
      (r.1 = false → j = 10) := by
  obtain ⟨j, hj, hupd, hbefore, htrue, hfalse⟩ :=
    robustUpdateWaypointLoop_outcomes chan data inst 10 p
  refine ⟨robustUpdateWaypointLoop chan data inst 10 p, j, ?_, hj, hupd, ?_, ?_, ?_⟩
  · cases hget : p.objManager.waypoints[inst]? with
    | none => exact absurd hget hinst
    | some w => simp only [robustUpdateWaypoint, hget]
  · constructor
    · intro ht
      exact ⟨j, (htrue ht).1, le_refl _, (htrue ht).2⟩
    · rintro ⟨a, ha0, haj, hack⟩
      cases hres : (robustUpdateWaypointLoop chan data inst 10 p).1 with
      | true => rfl
      | false =>
        obtain ⟨hj10, hlast⟩ := hfalse hres
        rcases Nat.lt_or_ge a j with hlt | hge
        · exact absurd hack (hbefore a ha0 hlt)
        · have haeq : a = 10 := by omega
          subst haeq
          exact absurd hack (hlast (by omega))
  · intro ht
    exact ⟨(htrue ht).1, (htrue ht).2, hbefore⟩
  · intro hf
    exact (hfalse hf).1

/-- C12 at a concrete input: instance 0 of `oneEach`, the channel `refusesOne`. -/
theorem robustUpdate_attempts_witness :
    ∃ r j, robustUpdateWaypoint refusesOne oneEach ⟨(1, 2, 3), 4, 0, 5, []⟩ 0 = some r ∧ j ≤ 10 ∧
      r.2.objManager.updates = oneEach.objManager.updates ++ List.replicate j
        (Submission.waypoint 0 ⟨(1, 2, 3), 4, 0, 5, []⟩
          oneEach.objManager.waypointMetadata.flightTelemetryAcked) ∧
      (r.1 = true ↔ ∃ a, 0 < a ∧ a ≤ j ∧
        (refusesOne (oneEach.objManager.updates ++ List.replicate a
          (Submission.waypoint 0 ⟨(1, 2, 3), 4, 0, 5, []⟩
            oneEach.objManager.waypointMetadata.flightTelemetryAcked))).inWindow = some true) ∧
      (r.1 = true → 0 < j ∧
        (refusesOne (oneEach.objManager.updates ++ List.replicate j
          (Submission.waypoint 0 ⟨(1, 2, 3), 4, 0, 5, []⟩
            oneEach.objManager.waypointMetadata.flightTelemetryAcked))).inWindow = some true ∧
        ∀ a, 0 < a → a < j →
          (refusesOne (oneEach.objManager.updates ++ List.replicate a
            (Submission.waypoint 0 ⟨(1, 2, 3), 4, 0, 5, []⟩
              oneEach.objManager.waypointMetadata.flightTelemetryAcked))).inWindow ≠ some true) ∧
      (r.1 = false → j = 10) :=
  robustUpdate_attempts refusesOne oneEach ⟨(1, 2, 3), 4, 0, 5, []⟩ 0 (by decide)

/-- The waypoint loop of `modelToObjects` for every channel: it ends normally, appends
waypoint submissions only, all made under the telemetry-acknowledged flag the Waypoint
object has during the loop, and leaves the metadata and the path-segment side alone. -/
theorem waypointLoop_spec (env : Env) (chan : Channel) (waypointModel : WaypointDataModel)
    (n x : Nat) (p : ModelUavoProxy) :
    ∃ p' new, waypointLoop env chan waypointModel n x p = some p' ∧
      p'.objManager.updates = p.objManager.updates ++ new ∧
      (∀ s ∈ new, Submission.acked s = p.objManager.waypointMetadata.flightTelemetryAcked ∧
        Submission.isPathSegmentDescriptor s = false) ∧
      p'.objManager.waypointMetadata = p.objManager.waypointMetadata ∧
      p'.objManager.pathSegmentDescriptors = p.objManager.pathSegmentDescriptors ∧
      p'.objManager.pathSegmentDescriptorMetadata = p.objManager.pathSegmentDescriptorMetadata := by
  induction n generalizing x p with
  | zero => exact ⟨p, [], rfl, by simp, by simp, rfl, rfl, rfl⟩
  | succ n ih =>
    unfold waypointLoop
    simp only []
    generalize hp1 : (if (x : Int) > (p.objManager.waypoints.length : Int) - 1 then
        ({ p with objManager := { p.objManager with
            waypoints := registerObject p.objManager.waypoints x env.waypointDefault } } :
              ModelUavoProxy)
      else p) = p1
    have hsame : p1.objManager.updates = p.objManager.updates ∧
        p1.objManager.waypointMetadata = p.objManager.waypointMetadata ∧
        p1.objManager.pathSegmentDescriptors = p.objManager.pathSegmentDescriptors ∧
        p1.objManager.pathSegmentDescriptorMetadata =
          p.objManager.pathSegmentDescriptorMetadata := by
      rw [← hp1]; split <;> simp
    obtain ⟨hu1, hm1, hs1, hsm1⟩ := hsame
    have hwp : ∃ wp, p1.objManager.waypoints[x]? = some wp := by
      obtain ⟨w, hw⟩ := registered_getElem p.objManager.waypoints x env.waypointDefault
      refine ⟨w, ?_⟩
      rw [← hp1, ← hw]
      split <;> rfl
    obtain ⟨wp, hwp⟩ := hwp
    simp only [hwp, robustUpdateWaypoint]
    obtain ⟨j, _, _, _, hupd, _, hmeta, hpsd, hpmeta⟩ :=
      robustUpdateWaypointLoop_spec chan (waypointFields env waypointModel x wp) x 10 p1
    generalize robustUpdateWaypointLoop chan (waypointFields env waypointModel x wp) x 10 p1 = r
      at hupd hmeta hpsd hpmeta
    obtain ⟨b, p2⟩ := r
    simp only at hupd hmeta hpsd hpmeta
    have hmine : ∀ s ∈ List.replicate j (Submission.waypoint x
        (waypointFields env waypointModel x wp) p1.objManager.waypointMetadata.flightTelemetryAcked),
        Submission.acked s = p.objManager.waypointMetadata.flightTelemetryAcked ∧
          Submission.isPathSegmentDescriptor s = false := by
      intro s hs
      rw [List.eq_of_mem_replicate hs, hm1]
      exact ⟨rfl, rfl⟩
    cases b with
    | true =>
      simp only []
      obtain ⟨p', new, hrun, hlog, hnew, h1, h2, h3⟩ := ih (x + 1) p2
      refine ⟨p', List.replicate j (Submission.waypoint x (waypointFields env waypointModel x wp)
        p1.objManager.waypointMetadata.flightTelemetryAcked) ++ new, hrun, ?_, ?_, ?_, ?_, ?_⟩
      · rw [hlog, hupd, hu1]; simp
      · intro s hs
        rcases List.mem_append.mp hs with h | h
        · exact hmine s h
        · rw [← hm1, ← hmeta]; exact hnew s h
      · rw [h1, hmeta, hm1]
      · rw [h2, hpsd, hs1]
      · rw [h3, hpmeta, hsm1]
    | false =>
      simp only []
      refine ⟨p2, _, rfl, ?_, hmine, ?_, ?_, ?_⟩
      · rw [hupd, hu1]
      · rw [hmeta, hm1]
      · rw [hpsd, hs1]
      · rw [hpmeta, hsm1]

end ModelUavoProxy

namespace ModelUavoProxy

/-- The retry loop of `robustUpdate(PathSegmentDescriptor::DataFields, int)` keeps the
number of descriptor instances. -/
theorem robustUpdatePathSegmentDescriptorLoop_length (chan : Channel)
    (data : PathSegmentDescriptor.DataFields) (inst : Nat) (n : Nat) (p : ModelUavoProxy) :
    (robustUpdatePathSegmentDescriptorLoop chan data inst n p).2.objManager.pathSegmentDescriptors.length
      = p.objManager.pathSegmentDescriptors.length := by
  induction n generalizing p with
  | zero => rfl
  | succ n ih =>
    unfold robustUpdatePathSegmentDescriptorLoop
    simp only []
    split
    · simp [deliver_pathSegmentDescriptor_objManager, submitPathSegmentDescriptor]
    · rw [ih]
      simp [deliver_pathSegmentDescriptor_objManager, submitPathSegmentDescriptor]

/-- The path-segment loop of `modelToObjects` for every channel: it ends normally,
appends path-segment descriptor submissions only, all made under the
telemetry-acknowledged flag the PathSegmentDescriptor object has during the loop, and
leaves the metadata and the waypoint side alone. -/
theorem pathSegmentDescriptorLoop_acked (env : Env) (chan : Channel)
    (pathSegmentModel : PathSegmentDataModel) (n x : Nat) (p : ModelUavoProxy) :
    ∃ p' new, pathSegmentDescriptorLoop env chan pathSegmentModel n x p = some p' ∧
      p'.objManager.updates = p.objManager.updates ++ new ∧
      (∀ s ∈ new,
        Submission.acked s = p.objManager.pathSegmentDescriptorMetadata.flightTelemetryAcked ∧
        Submission.isPathSegmentDescriptor s = true) ∧
      p'.objManager.pathSegmentDescriptorMetadata = p.objManager.pathSegmentDescriptorMetadata ∧
      p'.objManager.waypoints = p.objManager.waypoints ∧
      p'.objManager.waypointMetadata = p.objManager.waypointMetadata := by
  induction n generalizing x p with
  | zero => exact ⟨p, [], rfl, by simp, by simp, rfl, rfl, rfl⟩
  | succ n ih =>
    unfold pathSegmentDescriptorLoop
    simp only []
    generalize hp1 : (if (x : Int) > (p.objManager.pathSegmentDescriptors.length : Int) - 1 then
        ({ p with objManager := { p.objManager with
            pathSegmentDescriptors := registerObject p.objManager.pathSegmentDescriptors x
              env.pathSegmentDescriptorDefault } } : ModelUavoProxy)
      else p) = p1
    have hsame : p1.objManager.updates = p.objManager.updates ∧
        p1.objManager.waypointMetadata = p.objManager.waypointMetadata ∧
        p1.objManager.waypoints = p.objManager.waypoints ∧
        p1.objManager.pathSegmentDescriptorMetadata =
          p.objManager.pathSegmentDescriptorMetadata := by
      rw [← hp1]; split <;> simp
    obtain ⟨hu1, hm1, hs1, hsm1⟩ := hsame
    have hpsd : ∃ psd, p1.objManager.pathSegmentDescriptors[x]? = some psd := by
      obtain ⟨w, hw⟩ := registered_getElem p.objManager.pathSegmentDescriptors x
        env.pathSegmentDescriptorDefault
      refine ⟨w, ?_⟩
      rw [← hp1, ← hw]
      split <;> rfl
    obtain ⟨psd, hpsd⟩ := hpsd
    simp only [hpsd, robustUpdatePathSegmentDescriptor]
    obtain ⟨j, _, _, hupd, hmeta, hwp, hwmeta⟩ :=
      robustUpdatePathSegmentDescriptorLoop_spec chan
        (pathSegmentDescriptorFields env pathSegmentModel x psd) x 10 p1
    generalize robustUpdatePathSegmentDescriptorLoop chan
      (pathSegmentDescriptorFields env pathSegmentModel x psd) x 10 p1 = r
      at hupd hmeta hwp hwmeta
    obtain ⟨b, p2⟩ := r
    simp only at hupd hmeta hwp hwmeta
    have hmine : ∀ s ∈ List.replicate j (Submission.pathSegmentDescriptor x
        (pathSegmentDescriptorFields env pathSegmentModel x psd)
        p1.objManager.pathSegmentDescriptorMetadata.flightTelemetryAcked),
        Submission.acked s = p.objManager.pathSegmentDescriptorMetadata.flightTelemetryAcked ∧
          Submission.isPathSegmentDescriptor s = true := by
      intro s hs
      rw [List.eq_of_mem_replicate hs, hsm1]
      exact ⟨rfl, rfl⟩
    cases b with
    | true =>
      simp only []
      obtain ⟨p', new, hrun, hlog, hnew, h1, h2, h3⟩ := ih (x + 1) p2
      refine ⟨p', List.replicate j (Submission.pathSegmentDescriptor x
        (pathSegmentDescriptorFields env pathSegmentModel x psd)
        p1.objManager.pathSegmentDescriptorMetadata.flightTelemetryAcked) ++ new, hrun,
        ?_, ?_, ?_, ?_, ?_⟩
      · rw [hlog, hupd, hu1]; simp
      · intro s hs
        rcases List.mem_append.mp hs with h | h
        · exact hmine s h
        · rw [← hsm1, ← hmeta]; exact hnew s h
      · rw [h1, hmeta, hsm1]
      · rw [h2, hwp, hs1]
      · rw [h3, hwmeta, hm1]
    | false =>
      simp only []
      refine ⟨p2, _, rfl, ?_, hmine, ?_, ?_, ?_⟩
      · rw [hupd, hu1]
      · rw [hmeta, hsm1]
      · rw [hwp, hs1]
      · rw [hwmeta, hm1]

/-- Every run of `modelToObjects`, whatever the channel does: it ends normally, the
metadata of both objects is on return what it was on entry, and every submission of the
run was made with the telemetry-acknowledged flag set. -/
theorem modelToObjects_frame (env : Env) (chan : Channel) (waypointModel : WaypointDataModel)
    (pathSegmentModel : PathSegmentDataModel) (p : ModelUavoProxy) :
    ∃ p' new, modelToObjects env chan waypointModel pathSegmentModel p = some p' ∧
      p'.objManager.waypointMetadata = p.objManager.waypointMetadata ∧
      p'.objManager.pathSegmentDescriptorMetadata = p.objManager.pathSegmentDescriptorMetadata ∧
      p'.objManager.updates = p.objManager.updates ++ new ∧
      ∀ s ∈ new, Submission.acked s = true := by
  unfold modelToObjects
  by_cases hw : p.objManager.waypoints = []
  · exact ⟨p, [], by simp [hw], rfl, rfl, by simp, by simp⟩
  by_cases hs : p.objManager.pathSegmentDescriptors = []
  · exact ⟨p, [], by simp [hw, hs], rfl, rfl, by simp, by simp⟩
  obtain ⟨p2, new1, hrun1, hlog1, hnew1, hm1, hpsd1, hpm1⟩ :=
    waypointLoop_spec env chan waypointModel waypointModel.rowCount.toNat 0
      (setWaypointMetadata p (SetFlightTelemetryAcked p.objManager.waypointMetadata true))
  obtain ⟨p3, new2, hrun2, hlog2, hnew2, hm2, hwp2, hwm2⟩ :=
    pathSegmentDescriptorLoop_acked env chan pathSegmentModel pathSegmentModel.rowCount.toNat 0
      (setPathSegmentDescriptorMetadata (setWaypointMetadata p2 p.objManager.waypointMetadata)
        (SetFlightTelemetryAcked
          (setWaypointMetadata p2 p.objManager.waypointMetadata).objManager.pathSegmentDescriptorMetadata
          true))
  refine ⟨setPathSegmentDescriptorMetadata p3
    (setWaypointMetadata p2 p.objManager.waypointMetadata).objManager.pathSegmentDescriptorMetadata,
    new1 ++ new2, ?_, ?_, ?_, ?_, ?_⟩
  · simp only [hw, hs, if_false, waypointPhase, hrun1, pathSegmentDescriptorPhase, hrun2]
  · simp only [setPathSegmentDescriptorMetadata, hwm2, setWaypointMetadata]
  · simp only [setPathSegmentDescriptorMetadata, setWaypointMetadata, hpm1]
  · simp only [setPathSegmentDescriptorMetadata, hlog2, setWaypointMetadata, hlog1,
      List.append_assoc]
  · intro s hs'
    rcases List.mem_append.mp hs' with h | h
    · exact (hnew1 s h).1
    · exact (hnew2 s h).1

/-- C13: for every run of `modelToObjects`, whatever the channel does, the metadata of
the Waypoint object and of the PathSegmentDescriptor object are on return what they were
on entry, and every submission made during the run was made with the
telemetry-acknowledged flag forced to true. -/
theorem modelToObjects_restores_metadata (env : Env) (chan : Channel)
    (waypointModel : WaypointDataModel) (pathSegmentModel : PathSegmentDataModel)
    (p : ModelUavoProxy) :
    ∃ p' new, modelToObjects env chan waypointModel pathSegmentModel p = some p' ∧
      p'.objManager.waypointMetadata = p.objManager.waypointMetadata ∧
      p'.objManager.pathSegmentDescriptorMetadata = p.objManager.pathSegmentDescriptorMetadata ∧
      p'.objManager.updates = p.objManager.updates ++ new ∧
      ∀ s ∈ new, Submission.acked s = true :=
  modelToObjects_frame env chan waypointModel pathSegmentModel p

end ModelUavoProxy

namespace ModelUavoProxy

theorem registerObject_length {α : Type} (l : List α) (x : Nat) (dflt : α) (h : l.length ≤ x) :
    (registerObject l x dflt).length = x + 1 := by
  simp [registerObject]; omega

theorem registerObject_getElem {α : Type} (l : List α) (x : Nat) (dflt : α) (h : l.length ≤ x) :
    (registerObject l x dflt)[x]? = some dflt := by
  unfold registerObject
  rw [List.getElem?_append_right h, List.getElem?_replicate]
  rw [if_pos (by omega)]

/-- One pass of the waypoint loop of `modelToObjects`, for row `x`: when the manager has
at most `x` instances a new instance `x` is created, otherwise instance `x` is reused; the
data submitted (at least once) is `waypointFields` of the data `prev` that the instance
held (the defaults for a new one), which keeps `others`. -/
theorem waypointLoop_pass (env : Env) (chan : Channel) (waypointModel : WaypointDataModel)
    (x : Nat) (p : ModelUavoProxy) :
    ∃ p' prev j, waypointLoop env chan waypointModel 1 x p = some p' ∧
      (if p.objManager.waypoints.length ≤ x then
        p'.objManager.waypoints.length = x + 1 ∧ prev = env.waypointDefault
       else
        p'.objManager.waypoints.length = p.objManager.waypoints.length ∧
          p.objManager.waypoints[x]? = some prev) ∧
      0 < j ∧
      p'.objManager.updates = p.objManager.updates ++ List.replicate j
        (Submission.waypoint x (waypointFields env waypointModel x prev)
          p.objManager.waypointMetadata.flightTelemetryAcked) ∧
      (waypointFields env waypointModel x prev).others = prev.others := by
  unfold waypointLoop
  simp only []
  generalize hp1 : (if (x : Int) > (p.objManager.waypoints.length : Int) - 1 then
      ({ p with objManager := { p.objManager with
          waypoints := registerObject p.objManager.waypoints x env.waypointDefault } } :
            ModelUavoProxy)
    else p) = p1
  have hsame : p1.objManager.updates = p.objManager.updates ∧
      p1.objManager.waypointMetadata = p.objManager.waypointMetadata := by
    rw [← hp1]; split <;> simp
  obtain ⟨hu1, hm1⟩ := hsame
  have hstep : ∃ prev, p1.objManager.waypoints[x]? = some prev ∧
      (if p.objManager.waypoints.length ≤ x then
        p1.objManager.waypoints.length = x + 1 ∧ prev = env.waypointDefault
       else
        p1.objManager.waypoints.length = p.objManager.waypoints.length ∧
          p.objManager.waypoints[x]? = some prev) := by
    by_cases hc : p.objManager.waypoints.length ≤ x
    · have hc' : (x : Int) > (p.objManager.waypoints.length : Int) - 1 := by omega
      rw [if_pos hc'] at hp1
      subst hp1
      refine ⟨env.waypointDefault, registerObject_getElem _ _ _ hc, ?_⟩
      rw [if_pos hc]
      exact ⟨registerObject_length _ _ _ hc, rfl⟩
    · have hc' : ¬ (x : Int) > (p.objManager.waypoints.length : Int) - 1 := by omega
      rw [if_neg hc'] at hp1
      subst hp1
      have hlt : x < p.objManager.waypoints.length := by omega
      refine ⟨_, List.getElem?_eq_getElem hlt, ?_⟩
      rw [if_neg hc]
      exact ⟨rfl, List.getElem?_eq_getElem hlt⟩
  obtain ⟨prev, hget, hcase⟩ := hstep
  simp only [hget, robustUpdateWaypoint]
  obtain ⟨j, _, hjpos, _, hupd, hlen, _, _, _⟩ :=
    robustUpdateWaypointLoop_spec chan (waypointFields env waypointModel x prev) x 10 p1
  generalize robustUpdateWaypointLoop chan (waypointFields env waypointModel x prev) x 10 p1 = r
    at hupd hlen
  obtain ⟨b, p2⟩ := r
  simp only at hupd hlen
  have hres : (match (some (b, p2) : Option (Bool × ModelUavoProxy)) with
      | Option.none => Option.none
      | some (true, p2) => waypointLoop env chan waypointModel 0 (x + 1) p2
      | some (false, p2) => some p2) = some p2 := by
    cases b <;> rfl
  refine ⟨p2, prev, j, hres, ?_, hjpos (by omega), ?_, rfl⟩
  · rw [hlen]; exact hcase
  · rw [hupd, hu1, hm1]

/-- One pass of the path-segment loop of `modelToObjects`, for row `x`: when the manager
has at most `x` instances a new instance `x` is created, otherwise instance `x` is reused;
the data submitted (at least once) is `pathSegmentDescriptorFields` of the data `prev`
that the instance held (the defaults for a new one), which keeps `others`. -/
theorem pathSegmentDescriptorLoop_pass (env : Env) (chan : Channel)
    (pathSegmentModel : PathSegmentDataModel) (x : Nat) (p : ModelUavoProxy) :
    ∃ p' prev j, pathSegmentDescriptorLoop env chan pathSegmentModel 1 x p = some p' ∧
      (if p.objManager.pathSegmentDescriptors.length ≤ x then
        p'.objManager.pathSegmentDescriptors.length = x + 1 ∧
          prev = env.pathSegmentDescriptorDefault
       else
        p'.objManager.pathSegmentDescriptors.length = p.objManager.pathSegmentDescriptors.length ∧
          p.objManager.pathSegmentDescriptors[x]? = some prev) ∧
      0 < j ∧
      p'.objManager.updates = p.objManager.updates ++ List.replicate j
        (Submission.pathSegmentDescriptor x (pathSegmentDescriptorFields env pathSegmentModel x prev)
          p.objManager.pathSegmentDescriptorMetadata.flightTelemetryAcked) ∧
      (pathSegmentDescriptorFields env pathSegmentModel x prev).others = prev.others := by
  unfold pathSegmentDescriptorLoop
  simp only []
  generalize hp1 : (if (x : Int) > (p.objManager.pathSegmentDescriptors.length : Int) - 1 then
      ({ p with objManager := { p.objManager with
          pathSegmentDescriptors := registerObject p.objManager.pathSegmentDescriptors x
            env.pathSegmentDescriptorDefault } } : ModelUavoProxy)
    else p) = p1
  have hsame : p1.objManager.updates = p.objManager.updates ∧
      p1.objManager.pathSegmentDescriptorMetadata
        = p.objManager.pathSegmentDescriptorMetadata := by
    rw [← hp1]; split <;> simp
  obtain ⟨hu1, hm1⟩ := hsame
  have hstep : ∃ prev, p1.objManager.pathSegmentDescriptors[x]? = some prev ∧
      (if p.objManager.pathSegmentDescriptors.length ≤ x then
        p1.objManager.pathSegmentDescriptors.length = x + 1 ∧
          prev = env.pathSegmentDescriptorDefault
       else
        p1.objManager.pathSegmentDescriptors.length = p.objManager.pathSegmentDescriptors.length ∧
          p.objManager.pathSegmentDescriptors[x]? = some prev) := by
    by_cases hc : p.objManager.pathSegmentDescriptors.length ≤ x
    · have hc' : (x : Int) > (p.objManager.pathSegmentDescriptors.length : Int) - 1 := by omega
      rw [if_pos hc'] at hp1
      subst hp1
      refine ⟨env.pathSegmentDescriptorDefault, registerObject_getElem _ _ _ hc, ?_⟩
      rw [if_pos hc]
      exact ⟨registerObject_length _ _ _ hc, rfl⟩
    · have hc' : ¬ (x : Int) > (p.objManager.pathSegmentDescriptors.length : Int) - 1 := by omega
      rw [if_neg hc'] at hp1
      subst hp1
      have hlt : x < p.objManager.pathSegmentDescriptors.length := by omega
      refine ⟨_, List.getElem?_eq_getElem hlt, ?_⟩
      rw [if_neg hc]
      exact ⟨rfl, List.getElem?_eq_getElem hlt⟩
  obtain ⟨prev, hget, hcase⟩ := hstep
  simp only [hget, robustUpdatePathSegmentDescriptor]
  obtain ⟨j, _, hjpos, hupd, _, _, _⟩ :=
    robustUpdatePathSegmentDescriptorLoop_spec chan
      (pathSegmentDescriptorFields env pathSegmentModel x prev) x 10 p1
  have hlen := robustUpdatePathSegmentDescriptorLoop_length chan
      (pathSegmentDescriptorFields env pathSegmentModel x prev) x 10 p1
  generalize robustUpdatePathSegmentDescriptorLoop chan
    (pathSegmentDescriptorFields env pathSegmentModel x prev) x 10 p1 = r at hupd hlen
  obtain ⟨b, p2⟩ := r
  simp only at hupd hlen
  have hres : (match (some (b, p2) : Option (Bool × ModelUavoProxy)) with
      | Option.none => Option.none
      | some (true, p2) => pathSegmentDescriptorLoop env chan pathSegmentModel 0 (x + 1) p2
      | some (false, p2) => some p2) = some p2 := by
    cases b <;> rfl
  refine ⟨p2, prev, j, hres, ?_, hjpos (by omega), ?_, rfl⟩
  · rw [hlen]; exact hcase
  · rw [hupd, hu1, hm1]

/-- C14: in the pass of `modelToObjects` for local row `x`, for waypoints and for path
segments alike, a new remote instance `x` is created exactly when the remote has at most
`x` instances, and otherwise the existing instance `x` is reused (the instance count does
not change); in both cases the data submitted for instance `x` keeps every field of the
instance's previous data `prev` other than Position, Velocity, Mode and ModeParameters
(waypoints) or SwitchingLocus, PathCurvature, NumberOfOrbits and ArcRank (path
segments): the remaining fields, `others`, are those of `prev`. -/
theorem modelToObjects_pass_creates_or_reuses (env : Env) (chan : Channel)
    (waypointModel : WaypointDataModel) (pathSegmentModel : PathSegmentDataModel) (x : Nat)
    (p : ModelUavoProxy) :
    (∃ p' prev j, waypointLoop env chan waypointModel 1 x p = some p' ∧
      (if p.objManager.waypoints.length ≤ x then
        p'.objManager.waypoints.length = x + 1 ∧ prev = env.waypointDefault
       else
        p'.objManager.waypoints.length = p.objManager.waypoints.length ∧
          p.objManager.waypoints[x]? = some prev) ∧
      0 < j ∧
      p'.objManager.updates = p.objManager.updates ++ List.replicate j
        (Submission.waypoint x (waypointFields env waypointModel x prev)
          p.objManager.waypointMetadata.flightTelemetryAcked) ∧
      (waypointFields env waypointModel x prev).others = prev.others) ∧
    (∃ p' prev j, pathSegmentDescriptorLoop env chan pathSegmentModel 1 x p = some p' ∧
      (if p.objManager.pathSegmentDescriptors.length ≤ x then
        p'.objManager.pathSegmentDescriptors.length = x + 1 ∧
          prev = env.pathSegmentDescriptorDefault
       else
        p'.objManager.pathSegmentDescriptors.length = p.objManager.pathSegmentDescriptors.length ∧
          p.objManager.pathSegmentDescriptors[x]? = some prev) ∧
      0 < j ∧
      p'.objManager.updates = p.objManager.updates ++ List.replicate j
        (Submission.pathSegmentDescriptor x (pathSegmentDescriptorFields env pathSegmentModel x prev)
          p.objManager.pathSegmentDescriptorMetadata.flightTelemetryAcked) ∧
      (pathSegmentDescriptorFields env pathSegmentModel x prev).others = prev.others) :=
  ⟨waypointLoop_pass env chan waypointModel x p,
   pathSegmentDescriptorLoop_pass env chan pathSegmentModel x p⟩

end ModelUavoProxy

theorem QList.at_set_self {α : Type} (l : List α) (i : Int) (a b : α)
    (h : QList.at l i = some a) : QList.at (l.set i.toNat b) i = some b := by
  obtain ⟨h0, hlt, _⟩ := QList.at_eq_some _ _ _ h
  unfold QList.at
  rw [if_pos h0]
  simp [List.getElem?_set, hlt]

namespace WaypointDataModel

/-- What `data` returns on a valid row: for every supported role the raw form `shown`,
except that the MODE column under `Qt::DisplayRole` gives the label of the mode. -/
theorem data_valid (env : Env) (m : WaypointDataModel) (row : Int) (c : Column)
    (r : waypointData) (role : Int) (hrow : QList.at m.dataStorage row = some r)
    (hrole : role = Qt.DisplayRole ∨ role = Qt.EditRole ∨ role = Qt.UserRole) :
    data env m (m.index row c.toInt) role =
      if c = Column.MODE ∧ role = Qt.DisplayRole then
        QVariant.str (QMap.value (modeNames env) r.mode "")
      else shown env r c := by
  obtain ⟨h0, hlt, _⟩ := QList.at_eq_some _ _ _ hrow
  obtain ⟨hc0, hc1⟩ := Column.toInt_range c
  rw [index_eq m row c r hrow]
  have hvalid : QModelIndex.isValid ⟨row, c.toInt⟩ = true := by
    simp [QModelIndex.isValid, h0, hc0]
  have hin : ¬ (¬ QModelIndex.isValid ⟨row, c.toInt⟩ = true ∨ row > m.rowCount - 1) := by
    rw [hvalid]
    unfold rowCount
    simp
    omega
  unfold data
  simp only [if_pos hrole, hin, if_false, hrow]
  by_cases hmode : c = Column.MODE ∧ role = Qt.DisplayRole
  · rw [if_pos hmode, if_pos ⟨by rw [hmode.1], hmode.2⟩]
  · have hmode' : ¬ (c.toInt = Column.MODE.toInt ∧ role = Qt.DisplayRole) := by
      rintro ⟨h1, h2⟩
      apply hmode
      refine ⟨?_, h2⟩
      have := Column.ofInt_toInt c
      rw [h1, Column.ofInt_toInt] at this
      exact (Option.some.inj this).symm
    rw [if_neg hmode, if_neg hmode']
    cases c <;> simp [Column.ofInt_toInt, getNED, hrow, shown]

end WaypointDataModel

namespace WaypointDataModel

/-- C17: `insertRows(0, 1)` on an empty store returns true and leaves a store of exactly
one record, with mode MODE_FLYVECTOR, unlocked, and latitude, longitude, altitude,
velocity and mode parameter all 0 (and an empty description). -/
theorem insertRows_into_empty (env : Env) (e : List ModelSignal) :
    (insertRows env ⟨[], e⟩ 0 1).1 = true ∧
    (insertRows env ⟨[], e⟩ 0 1).2.dataStorage
      = [⟨"", 0, 0, 0, 0, env.modes.MODE_FLYVECTOR, 0, false⟩] := by
  constructor
  · rfl
  · simp [insertRows, insertLoop, QList.insert, newRecord, rowCount, emit]

/-- C18: on a valid row whose record is unlocked, `setData` on the LATPOSITION column
returns true, stores the value (converted by `toDouble`, so a `double` payload itself) as
the latitude of the record, and the model it returns has emitted, after what had been
emitted before, `dataChanged` for the NED_NORTH column, for the NED_EAST column and for
the LATPOSITION column of the row. -/
theorem setData_latitude (env : Env) (m : WaypointDataModel) (row : Int) (value : QVariant)
    (r : waypointData) (hrow : QList.at m.dataStorage row = some r)
    (hunlocked : r.locked = false) :
    ∃ m' r', setData env m (m.index row Column.LATPOSITION.toInt) value Qt.EditRole
        = some (true, m') ∧
      QList.at m'.dataStorage row = some r' ∧
      r'.latPosition = value.toDouble env ∧
      (∀ v, value = QVariant.double v → r'.latPosition = v) ∧
      m'.emitted = m.emitted ++
        [ModelSignal.dataChanged ⟨row, Column.NED_NORTH.toInt⟩ ⟨row, Column.NED_NORTH.toInt⟩,
         ModelSignal.dataChanged ⟨row, Column.NED_EAST.toInt⟩ ⟨row, Column.NED_EAST.toInt⟩,
         ModelSignal.dataChanged ⟨row, Column.LATPOSITION.toInt⟩
           ⟨row, Column.LATPOSITION.toInt⟩] := by
  refine ⟨_, _, setData_accepted env m row .LATPOSITION value r hrow (Or.inl hunlocked),
    QList.at_set_self _ _ _ _ hrow, rfl, ?_, rfl⟩
  intro v hv
  rw [hv]
  rfl

/-- C18 at a concrete input: row 0 of a store holding `unlockedC`, latitude 48. -/
theorem setData_latitude_witness :
    ∃ m' r', setData sampleEnv ⟨[unlockedC], []⟩
        ((⟨[unlockedC], []⟩ : WaypointDataModel).index 0 Column.LATPOSITION.toInt)
        (QVariant.double 48) Qt.EditRole = some (true, m') ∧
      QList.at m'.dataStorage 0 = some r' ∧
      r'.latPosition = (QVariant.double 48).toDouble sampleEnv ∧
      (∀ v, QVariant.double 48 = QVariant.double v → r'.latPosition = v) ∧
      m'.emitted = (⟨[unlockedC], []⟩ : WaypointDataModel).emitted ++
        [ModelSignal.dataChanged ⟨0, Column.NED_NORTH.toInt⟩ ⟨0, Column.NED_NORTH.toInt⟩,
         ModelSignal.dataChanged ⟨0, Column.NED_EAST.toInt⟩ ⟨0, Column.NED_EAST.toInt⟩,
         ModelSignal.dataChanged ⟨0, Column.LATPOSITION.toInt⟩
           ⟨0, Column.LATPOSITION.toInt⟩] :=
  setData_latitude sampleEnv ⟨[unlockedC], []⟩ 0 (QVariant.double 48) unlockedC
    (by decide) (by decide)

end WaypointDataModel

namespace WaypointDataModel

/-- C20: with `LLA2NED_HomeLLA` a left inverse of `NED2LLA_HomeLLA` for the home
location, on a valid unlocked row and for a NED column `c`: `setData` on `c` returns
true; afterwards `data` for `c` returns the value written, `data` for the other two NED
columns returns what it returned before, and the stored latitude, longitude and altitude
are `NED2LLA_HomeLLA` of the NED triple that `data` now returns. And for every model and
every valid row, `data` for each NED column is the component of `LLA2NED_HomeLLA` of the
stored latitude, longitude and altitude. -/
theorem setData_NED_consistent (env : Env) (m : WaypointDataModel) (row : Int)
    (value : QVariant) (r : waypointData) (c : Column) (role : Int)
    (hinv : ∀ ned, env.LLA2NED_HomeLLA (env.NED2LLA_HomeLLA env.homeLLA ned) env.homeLLA = ned)
    (hrow : QList.at m.dataStorage row = some r) (hunlocked : r.locked = false)
    (hc : c = Column.NED_NORTH ∨ c = Column.NED_EAST ∨ c = Column.NED_DOWN)
    (hrole : role = Qt.DisplayRole ∨ role = Qt.EditRole ∨ role = Qt.UserRole) :
    (∃ m' r', setData env m (m.index row c.toInt) value Qt.EditRole = some (true, m') ∧
      QList.at m'.dataStorage row = some r' ∧
      data env m' (m'.index row c.toInt) role = QVariant.double (value.toDouble env) ∧
      (∀ c', (c' = Column.NED_NORTH ∨ c' = Column.NED_EAST ∨ c' = Column.NED_DOWN) → c' ≠ c →
        data env m' (m'.index row c'.toInt) role = data env m (m.index row c'.toInt) role) ∧
      (r'.latPosition, r'.lngPosition, r'.altitude) = env.NED2LLA_HomeLLA env.homeLLA
        ((data env m' (m'.index row Column.NED_NORTH.toInt) role).toDouble env,
         (data env m' (m'.index row Column.NED_EAST.toInt) role).toDouble env,
         (data env m' (m'.index row Column.NED_DOWN.toInt) role).toDouble env)) ∧
    (∀ (m0 : WaypointDataModel) (row0 : Int) (r0 : waypointData),
      QList.at m0.dataStorage row0 = some r0 →
      data env m0 (m0.index row0 Column.NED_NORTH.toInt) role = QVariant.double
        (env.LLA2NED_HomeLLA (r0.latPosition, r0.lngPosition, r0.altitude) env.homeLLA).1 ∧
      data env m0 (m0.index row0 Column.NED_EAST.toInt) role = QVariant.double
        (env.LLA2NED_HomeLLA (r0.latPosition, r0.lngPosition, r0.altitude) env.homeLLA).2.1 ∧
      data env m0 (m0.index row0 Column.NED_DOWN.toInt) role = QVariant.double
        (env.LLA2NED_HomeLLA (r0.latPosition, r0.lngPosition, r0.altitude) env.homeLLA).2.2) := by
  have hned : ∀ (m0 : WaypointDataModel) (row0 : Int) (r0 : waypointData) (c0 : Column),
      QList.at m0.dataStorage row0 = some r0 →
      (c0 = Column.NED_NORTH ∨ c0 = Column.NED_EAST ∨ c0 = Column.NED_DOWN) →
      data env m0 (m0.index row0 c0.toInt) role = shown env r0 c0 := by
    intro m0 row0 r0 c0 h0 hc0
    rw [data_valid env m0 row0 c0 r0 role h0 hrole, if_neg]
    rintro ⟨h1, _⟩
    rcases hc0 with h | h | h <;> rw [h] at h1 <;> cases h1
  refine ⟨?_, fun m0 row0 r0 h0 =>
    ⟨hned m0 row0 r0 .NED_NORTH h0 (Or.inl rfl), hned m0 row0 r0 .NED_EAST h0 (Or.inr (Or.inl rfl)),
      hned m0 row0 r0 .NED_DOWN h0 (Or.inr (Or.inr rfl))⟩⟩
  have hset := setData_accepted env m row c value r hrow (Or.inl hunlocked)
  have hrow' := QList.at_set_self m.dataStorage row r (written env c value r) hrow
  refine ⟨_, _, hset, hrow', ?_, ?_, ?_⟩
  · rw [hned _ row _ c hrow' hc]
    rcases hc with h | h | h <;> subst h <;> simp [shown, written, hinv]
  · intro c' hc' hne
    rw [hned _ row _ c' hrow' hc', hned m row r c' hrow hc']
    rcases hc with h | h | h <;> subst h <;> rcases hc' with h' | h' | h' <;> subst h' <;>
      first
        | exact absurd rfl hne
        | simp [shown, written, hinv]
  · rw [hned _ row _ .NED_NORTH hrow' (Or.inl rfl), hned _ row _ .NED_EAST hrow' (Or.inr (Or.inl rfl)),
      hned _ row _ .NED_DOWN hrow' (Or.inr (Or.inr rfl))]
    rcases hc with h | h | h <;> subst h <;> simp [shown, written, hinv, QVariant.toDouble]

/-- C20 at a concrete input: the environment `sampleEnv`, whose conversions are mutually
inverse, row 0 of a store holding `unlockedC`, the NED_NORTH column. -/
theorem setData_NED_consistent_witness :
    (∃ m' r', setData sampleEnv ⟨[unlockedC], []⟩
        ((⟨[unlockedC], []⟩ : WaypointDataModel).index 0 Column.NED_NORTH.toInt)
        (QVariant.double 9) Qt.EditRole = some (true, m') ∧
      QList.at m'.dataStorage 0 = some r' ∧
      data sampleEnv m' (m'.index 0 Column.NED_NORTH.toInt) Qt.DisplayRole
        = QVariant.double ((QVariant.double 9).toDouble sampleEnv) ∧
      (∀ c', (c' = Column.NED_NORTH ∨ c' = Column.NED_EAST ∨ c' = Column.NED_DOWN) →
        c' ≠ Column.NED_NORTH →
        data sampleEnv m' (m'.index 0 c'.toInt) Qt.DisplayRole
          = data sampleEnv ⟨[unlockedC], []⟩
              ((⟨[unlockedC], []⟩ : WaypointDataModel).index 0 c'.toInt) Qt.DisplayRole) ∧
      (r'.latPosition, r'.lngPosition, r'.altitude) = sampleEnv.NED2LLA_HomeLLA sampleEnv.homeLLA
        ((data sampleEnv m' (m'.index 0 Column.NED_NORTH.toInt) Qt.DisplayRole).toDouble sampleEnv,
         (data sampleEnv m' (m'.index 0 Column.NED_EAST.toInt) Qt.DisplayRole).toDouble sampleEnv,
         (data sampleEnv m' (m'.index 0 Column.NED_DOWN.toInt) Qt.DisplayRole).toDouble sampleEnv)) ∧
    (∀ (m0 : WaypointDataModel) (row0 : Int) (r0 : waypointData),
      QList.at m0.dataStorage row0 = some r0 →
      data sampleEnv m0 (m0.index row0 Column.NED_NORTH.toInt) Qt.DisplayRole = QVariant.double
        (sampleEnv.LLA2NED_HomeLLA (r0.latPosition, r0.lngPosition, r0.altitude)
          sampleEnv.homeLLA).1 ∧
      data sampleEnv m0 (m0.index row0 Column.NED_EAST.toInt) Qt.DisplayRole = QVariant.double
        (sampleEnv.LLA2NED_HomeLLA (r0.latPosition, r0.lngPosition, r0.altitude)
          sampleEnv.homeLLA).2.1 ∧
      data sampleEnv m0 (m0.index row0 Column.NED_DOWN.toInt) Qt.DisplayRole = QVariant.double
        (sampleEnv.LLA2NED_HomeLLA (r0.latPosition, r0.lngPosition, r0.altitude)
          sampleEnv.homeLLA).2.2) :=
  setData_NED_consistent sampleEnv ⟨[unlockedC], []⟩ 0 (QVariant.double 9) unlockedC
    Column.NED_NORTH Qt.DisplayRole (fun _ => rfl) (by decide) (by decide) (Or.inl rfl)
    (Or.inl rfl)

end WaypointDataModel


namespace MapArc

/-- The code that `centerAlong` returns is always `ARC_CENTER_FOUND`. -/
theorem centerAlong_code (m_x m_y p_x p_y d2 : ℝ) :
    (centerAlong Real.sqrt m_x m_y p_x p_y d2).1 = .ARC_CENTER_FOUND := by
  unfold centerAlong
  split <;> rfl

/-- The tail of `findArcCenter_px` for the two opposite normals: the two centres add up
to twice the chord midpoint. -/
theorem centerAlong_opposite (m_x m_y p_x p_y d2 : ℝ) :
    ∃ c c', centerAlong Real.sqrt m_x m_y p_x p_y d2 = (.ARC_CENTER_FOUND, some c) ∧
      centerAlong Real.sqrt m_x m_y (-p_x) (-p_y) d2 = (.ARC_CENTER_FOUND, some c') ∧
      c.1 + c'.1 = 2 * m_x ∧ c.2 + c'.2 = 2 * m_y := by
  unfold centerAlong
  simp only [abs_neg]
  by_cases h : |p_x| < 1 / 1000 ∧ |p_y| < 1 / 1000
  · simp only [if_pos h]
    exact ⟨_, _, rfl, rfl, by ring, by ring⟩
  · simp only [if_neg h]
    exact ⟨_, _, rfl, rfl, by ring, by ring⟩

/-- The function `findArcCenter_px` with the normal `p` of its second branch negated is
the function for the other value of `clockwise`. -/
theorem findArcCenter_px_not_clockwise (start_point end_point : ℝ × ℝ) (radius : ℝ)
    (clockwise minor : Bool) :
    ∃ p : ℝ × ℝ,
      findArcCenter_px Real.sqrt start_point end_point radius clockwise minor =
        (if |start_point.1 - end_point.1| < 1 / 1000000 ∧ |start_point.2 - end_point.2| < 1 / 1000000
          then (.ARC_COINCIDENT_POINTS, none)
         else if radius * radius / (p.1 * p.1 + p.2 * p.2) - 1 / 4 < 0 then
           if radius * radius / (p.1 * p.1 + p.2 * p.2) - 1 / 4 > -((radius * (1 / 100)) ^ 2) then
             centerAlong Real.sqrt ((start_point.1 + end_point.1) / 2)
               ((start_point.2 + end_point.2) / 2) p.1 p.2 0
           else (.ARC_INSUFFICIENT_RADIUS, none)
         else centerAlong Real.sqrt ((start_point.1 + end_point.1) / 2)
               ((start_point.2 + end_point.2) / 2) p.1 p.2
               (radius * radius / (p.1 * p.1 + p.2 * p.2) - 1 / 4)) ∧
      findArcCenter_px Real.sqrt start_point end_point radius (!clockwise) minor =
        (if |start_point.1 - end_point.1| < 1 / 1000000 ∧ |start_point.2 - end_point.2| < 1 / 1000000
          then (.ARC_COINCIDENT_POINTS, none)
         else if radius * radius / (p.1 * p.1 + p.2 * p.2) - 1 / 4 < 0 then
           if radius * radius / (p.1 * p.1 + p.2 * p.2) - 1 / 4 > -((radius * (1 / 100)) ^ 2) then
             centerAlong Real.sqrt ((start_point.1 + end_point.1) / 2)
               ((start_point.2 + end_point.2) / 2) (-p.1) (-p.2) 0
           else (.ARC_INSUFFICIENT_RADIUS, none)
         else centerAlong Real.sqrt ((start_point.1 + end_point.1) / 2)
               ((start_point.2 + end_point.2) / 2) (-p.1) (-p.2)
               (radius * radius / (p.1 * p.1 + p.2 * p.2) - 1 / 4)) := by
  by_cases hflags : (clockwise = true ∧ minor = true) ∨ (clockwise = false ∧ minor = false)
  · have hflags' : ¬ (((!clockwise) = true ∧ minor = true) ∨ ((!clockwise) = false ∧ minor = false)) := by
      revert hflags; cases clockwise <;> cases minor <;> decide
    refine ⟨(-(end_point.2 - start_point.2), end_point.1 - start_point.1), ?_, ?_⟩
    · unfold findArcCenter_px
      simp only [if_pos hflags]
    · unfold findArcCenter_px
      simp only [if_neg hflags', neg_neg, neg_mul_neg]
  · have hflags' : ((!clockwise) = true ∧ minor = true) ∨ ((!clockwise) = false ∧ minor = false) := by
      revert hflags; cases clockwise <;> cases minor <;> decide
    refine ⟨(end_point.2 - start_point.2, -(end_point.1 - start_point.1)), ?_, ?_⟩
    · unfold findArcCenter_px
      simp only [if_neg hflags]
    · unfold findArcCenter_px
      simp only [if_pos hflags', neg_neg, neg_mul_neg]

/-- C30: the code that `findArcCenter_px` returns is the same for all four values of the
flags `clockwise` and `minor`; and whenever it returns `ARC_CENTER_FOUND` with centre `c`
for `(clockwise, minor)`, it returns the same centre for `(!clockwise, !minor)`, and for
`(!clockwise, minor)` it returns a centre `c'` with `c + c' = start + end`, the reflection
of `c` through the chord midpoint. -/
theorem findArcCenter_px_flags (start_point end_point : ℝ × ℝ) (radius : ℝ)
    (clockwise minor : Bool) :
    (∀ clockwise' minor' : Bool,
      (findArcCenter_px Real.sqrt start_point end_point radius clockwise' minor').1
        = (findArcCenter_px Real.sqrt start_point end_point radius clockwise minor).1) ∧
    ∀ c : ℝ × ℝ,
      findArcCenter_px Real.sqrt start_point end_point radius clockwise minor
        = (.ARC_CENTER_FOUND, some c) →
      findArcCenter_px Real.sqrt start_point end_point radius (!clockwise) (!minor)
        = (.ARC_CENTER_FOUND, some c) ∧
      ∃ c', findArcCenter_px Real.sqrt start_point end_point radius (!clockwise) minor
          = (.ARC_CENTER_FOUND, some c') ∧
        c.1 + c'.1 = start_point.1 + end_point.1 ∧ c.2 + c'.2 = start_point.2 + end_point.2 := by
  have hsame : ∀ cw mn : Bool,
      findArcCenter_px Real.sqrt start_point end_point radius (!cw) (!mn)
        = findArcCenter_px Real.sqrt start_point end_point radius cw mn := by
    intro cw mn
    unfold findArcCenter_px
    cases cw <;> cases mn <;> simp
  have hcode : ∀ cw mn : Bool,
      (findArcCenter_px Real.sqrt start_point end_point radius (!cw) mn).1
        = (findArcCenter_px Real.sqrt start_point end_point radius cw mn).1 := by
    intro cw mn
    obtain ⟨p, h1, h2⟩ := findArcCenter_px_not_clockwise start_point end_point radius cw mn
    rw [h1, h2]
    split
    · rfl
    · split
      · split
        · rw [centerAlong_code, centerAlong_code]
        · rfl
      · rw [centerAlong_code, centerAlong_code]
  refine ⟨?_, ?_⟩
  · have h00 := hcode true true
    have h2 := hsame true true
    have h3 := hsame true false
    simp only [Bool.not_true] at h00 h2 h3
    have hall : ∀ cw mn : Bool,
        (findArcCenter_px Real.sqrt start_point end_point radius cw mn).1
          = (findArcCenter_px Real.sqrt start_point end_point radius true true).1 := by
      intro cw mn
      cases cw <;> cases mn
      · rw [h2]
      · exact h00
      · rw [← h3]; exact h00
      · rfl
    intro cw' mn'
    rw [hall cw' mn', hall clockwise minor]
  · intro c hc
    refine ⟨by rw [hsame]; exact hc, ?_⟩
    obtain ⟨p, h1, h2⟩ := findArcCenter_px_not_clockwise start_point end_point radius clockwise minor
    rw [h2]
    rw [h1] at hc
    by_cases hco : |start_point.1 - end_point.1| < 1 / 1000000 ∧
        |start_point.2 - end_point.2| < 1 / 1000000
    · rw [if_pos hco] at hc
      cases hc
    · rw [if_neg hco] at hc ⊢
      by_cases hd : radius * radius / (p.1 * p.1 + p.2 * p.2) - 1 / 4 < 0
      · rw [if_pos hd] at hc ⊢
        by_cases ht : radius * radius / (p.1 * p.1 + p.2 * p.2) - 1 / 4 > -((radius * (1 / 100)) ^ 2)
        · rw [if_pos ht] at hc ⊢
          obtain ⟨a, a', ha, ha', hx, hy⟩ := centerAlong_opposite ((start_point.1 + end_point.1) / 2)
            ((start_point.2 + end_point.2) / 2) p.1 p.2 0
          rw [ha] at hc
          cases hc
          exact ⟨a', ha', by rw [hx]; ring, by rw [hy]; ring⟩
        · rw [if_neg ht] at hc
          cases hc
      · rw [if_neg hd] at hc ⊢
        obtain ⟨a, a', ha, ha', hx, hy⟩ := centerAlong_opposite ((start_point.1 + end_point.1) / 2)
          ((start_point.2 + end_point.2) / 2) p.1 p.2
          (radius * radius / (p.1 * p.1 + p.2 * p.2) - 1 / 4)
        rw [ha] at hc
        cases hc
        exact ⟨a', ha', by rw [hx]; ring, by rw [hy]; ring⟩

/-- C30 at a concrete input: the points `(0, 0)` and `(8, 0)` with radius 5, where the
centre for `(true, true)` is `(4, 3)`; the centre for `(false, false)` is `(4, 3)` as
well, and the one for `(false, true)` is its reflection `(4, -3)`. -/
theorem findArcCenter_px_flags_witness :
    findArcCenter_px Real.sqrt ((0 : ℝ), (0 : ℝ)) ((8 : ℝ), (0 : ℝ)) 5 true true
        = (.ARC_CENTER_FOUND, some (4, 3)) ∧
    findArcCenter_px Real.sqrt ((0 : ℝ), (0 : ℝ)) ((8 : ℝ), (0 : ℝ)) 5 (!true) (!true)
        = (.ARC_CENTER_FOUND, some (4, 3)) ∧
    findArcCenter_px Real.sqrt ((0 : ℝ), (0 : ℝ)) ((8 : ℝ), (0 : ℝ)) 5 (!true) true
        = (.ARC_CENTER_FOUND, some (4, -3)) := by
  have hs : Real.sqrt (9 / 64) = 3 / 8 := by
    rw [show (9 / 64 : ℝ) = (3 / 8) ^ 2 by norm_num]
    exact Real.sqrt_sq (by norm_num)
  have hc : findArcCenter_px Real.sqrt ((0 : ℝ), (0 : ℝ)) ((8 : ℝ), (0 : ℝ)) 5 true true
      = (.ARC_CENTER_FOUND, some (4, 3)) := by
    unfold findArcCenter_px centerAlong
    norm_num [hs]
  obtain ⟨h1, c', h2, hx, hy⟩ := (findArcCenter_px_flags (0, 0) (8, 0) 5 true true).2 (4, 3) hc
  refine ⟨hc, h1, ?_⟩
  rw [h2]
  have hc' : c' = (4, -3) := by
    apply Prod.ext
    · show c'.1 = 4
      simp only at hx
      linarith
    · show c'.2 = -3
      simp only at hy
      linarith
  rw [hc']

end MapArc


namespace PIOS_Board_Init

/-- C27: in a build with `PIOS_INCLUDE_DSM` and `PIOS_INCLUDE_HSUM`, for each of the
UART3 settings DSM2, DSMX10BIT and DSMX11BIT the `switch` of UART3 configures the DSM
receiver and then, for want of a `break`, runs into the HoTT SUM block, whose inner
`switch` ends in `default: PIOS_Assert(0)`; the `switch` of UART2 configures the DSM
receiver and nothing else. -/
theorem uart3_dsm_falls_into_hsum (cfg : BuildConfig) :
    uart3 { cfg with PIOS_INCLUDE_DSM := true, PIOS_INCLUDE_HSUM := true } .DSM2
      = [.PIOS_Board_configure_dsm 3 .PIOS_DSM_PROTO_DSM2, .PIOS_Assert_0] ∧
    uart3 { cfg with PIOS_INCLUDE_DSM := true, PIOS_INCLUDE_HSUM := true } .DSMX10BIT
      = [.PIOS_Board_configure_dsm 3 .PIOS_DSM_PROTO_DSMX10BIT, .PIOS_Assert_0] ∧
    uart3 { cfg with PIOS_INCLUDE_DSM := true, PIOS_INCLUDE_HSUM := true } .DSMX11BIT
      = [.PIOS_Board_configure_dsm 3 .PIOS_DSM_PROTO_DSMX11BIT, .PIOS_Assert_0] ∧
    uart2 { cfg with PIOS_INCLUDE_DSM := true, PIOS_INCLUDE_HSUM := true } .DSM2
      = [.PIOS_Board_configure_dsm 2 .PIOS_DSM_PROTO_DSM2] ∧
    uart2 { cfg with PIOS_INCLUDE_DSM := true, PIOS_INCLUDE_HSUM := true } .DSMX10BIT
      = [.PIOS_Board_configure_dsm 2 .PIOS_DSM_PROTO_DSMX10BIT] ∧
    uart2 { cfg with PIOS_INCLUDE_DSM := true, PIOS_INCLUDE_HSUM := true } .DSMX11BIT
      = [.PIOS_Board_configure_dsm 2 .PIOS_DSM_PROTO_DSMX11BIT] := by
  refine ⟨?_, ?_, ?_, ?_, ?_, ?_⟩ <;> rfl

end PIOS_Board_Init

namespace PathSegmentEndpointItem

/-- C26: two evaluations of a move towards a higher number, and one of a move towards a
lower number. With the numbers 0, 1 and the item numbered 0 renumbered to 1, the other
item ends with the number 2: the numbers are 1, 2. With the numbers 0, 1, 2, 3 and the
item numbered 0 renumbered to 2, the numbers end as 2, 0, 3, 3: the number 3 is used
twice and 1 not at all. With the item numbered 3 renumbered to 1 they end as 0, 2, 3, 1,
a renumbering without gap or duplicate. -/
theorem WPRenumbered_towards_higher_number :
    (renumber [⟨0⟩, ⟨1⟩] 0 1).map (fun item => item.number) = [1, 2] ∧
    (renumber [⟨0⟩, ⟨1⟩, ⟨2⟩, ⟨3⟩] 0 2).map (fun item => item.number) = [2, 0, 3, 3] ∧
    (renumber [⟨0⟩, ⟨1⟩, ⟨2⟩, ⟨3⟩] 3 1).map (fun item => item.number) = [0, 2, 3, 1] := by
  decide

end PathSegmentEndpointItem


namespace PathSegmentModelMapProxy

end PathSegmentModelMapProxy


namespace WaypointDataModel

/-- C21, as stated, fails: on the unlocked record `unlockedC`, `setData` with the
latitude 91 and `setData` with the longitude 181 both return true and store the value as
it is. -/
theorem setData_out_of_range_stored :
    (90 : ℚ) < |91| ∧ (180 : ℚ) < |181| ∧ unlockedC.locked = false ∧
    (setData sampleEnv ⟨[unlockedC], []⟩
        ((⟨[unlockedC], []⟩ : WaypointDataModel).index 0 Column.LATPOSITION.toInt)
        (QVariant.double 91) Qt.EditRole).map (fun r => (r.1, r.2.dataStorage))
      = some (true, [{ unlockedC with latPosition := 91 }]) ∧
    (setData sampleEnv ⟨[unlockedC], []⟩
        ((⟨[unlockedC], []⟩ : WaypointDataModel).index 0 Column.LNGPOSITION.toInt)
        (QVariant.double 181) Qt.EditRole).map (fun r => (r.1, r.2.dataStorage))
      = some (true, [{ unlockedC with lngPosition := 181 }]) := by
  refine ⟨by norm_num [abs_of_pos], by norm_num [abs_of_pos], rfl, by decide, by decide⟩

/-- C21 (amended): on an unlocked valid row, `setData` on LATPOSITION and on LNGPOSITION
accepts every number `v`, whatever its magnitude: it returns true and the record holds
`v` itself in that field afterwards, every other field and every other record being as
before. -/
theorem setData_coordinates_unchecked (env : Env) (m : WaypointDataModel) (row : Int)
    (r : waypointData) (v : ℚ)
    (hrow : QList.at m.dataStorage row = some r) (hfree : r.locked = false) :
    (∃ e, setData env m (m.index row Column.LATPOSITION.toInt) (QVariant.double v) Qt.EditRole
      = some (true, ⟨m.dataStorage.set row.toNat { r with latPosition := v }, e⟩)) ∧
    (∃ e, setData env m (m.index row Column.LNGPOSITION.toInt) (QVariant.double v) Qt.EditRole
      = some (true, ⟨m.dataStorage.set row.toNat { r with lngPosition := v }, e⟩)) := by
  constructor
  · rw [setData_accepted env m row .LATPOSITION (QVariant.double v) r hrow (Or.inl hfree)]
    exact ⟨_, rfl⟩
  · rw [setData_accepted env m row .LNGPOSITION (QVariant.double v) r hrow (Or.inl hfree)]
    exact ⟨_, rfl⟩

/-- C21 (amended) at a concrete input: the record `unlockedC` and the number 91. -/
theorem setData_coordinates_unchecked_witness :
    (∃ e, setData sampleEnv ⟨[unlockedC], []⟩
        ((⟨[unlockedC], []⟩ : WaypointDataModel).index 0 Column.LATPOSITION.toInt)
        (QVariant.double 91) Qt.EditRole
      = some (true, ⟨([unlockedC] : List waypointData).set (0 : Int).toNat
          { unlockedC with latPosition := 91 }, e⟩)) ∧
    (∃ e, setData sampleEnv ⟨[unlockedC], []⟩
        ((⟨[unlockedC], []⟩ : WaypointDataModel).index 0 Column.LNGPOSITION.toInt)
        (QVariant.double 91) Qt.EditRole
      = some (true, ⟨([unlockedC] : List waypointData).set (0 : Int).toNat
          { unlockedC with lngPosition := 91 }, e⟩)) :=
  setData_coordinates_unchecked sampleEnv ⟨[unlockedC], []⟩ 0 unlockedC 91 (by decide) (by decide)

/-- The call `removeRows(0, rowCount())` at the head of `readFromFile` leaves the store
empty, so `readFromFile` starts from the empty store. -/
theorem readFromFile_rejected (env : Env) (fresh : waypointData) (m : WaypointDataModel)
    (content : FileContent)
    (hbad : content = .notXml ∨ content = .document none ∨
      ∃ root, content = .document (some root) ∧ root.tagName ≠ "waypoints") :
    ∃ e, readFromFile env fresh m content = some ⟨[], e⟩ := by
  obtain ⟨e, he⟩ := removeRows_all m
  refine ⟨e, ?_⟩
  unfold readFromFile
  rw [he]
  rcases hbad with h | h | ⟨root, h, hroot⟩
  · subst h; rfl
  · subst h; rfl
  · subst h
    simp only [hroot, ne_eq, not_false_eq_true, if_true]

/-- C22, as stated, fails: `readFromFile` on a store that holds the record `unlockedC`,
with a file that is not XML or with one whose document element is `plan`, leaves the
store empty. -/
theorem readFromFile_empties_store_first :
    (readFromFile sampleEnv unlockedC ⟨[unlockedC], []⟩ .notXml).map (fun m => m.dataStorage)
      = some [] ∧
    (readFromFile sampleEnv unlockedC ⟨[unlockedC], []⟩
        (.document (some ⟨"plan", []⟩))).map (fun m => m.dataStorage) = some [] := by
  decide

/-- C22 (amended): for every content of the store, when the file does not parse as XML,
or its document element is null or not `waypoints`, `readFromFile` ends normally and
leaves the store empty: the rows are removed before the file is looked at, and none is
imported. -/
theorem readFromFile_failure_leaves_empty (env : Env) (fresh : waypointData)
    (m : WaypointDataModel) (content : FileContent)
    (hbad : content = .notXml ∨ content = .document none ∨
      ∃ root, content = .document (some root) ∧ root.tagName ≠ "waypoints") :
    ∃ m', readFromFile env fresh m content = some m' ∧ m'.dataStorage = [] ∧ m'.rowCount = 0 := by
  obtain ⟨e, he⟩ := readFromFile_rejected env fresh m content hbad
  exact ⟨_, he, rfl, rfl⟩

/-- C22 (amended) at a concrete input: the store holding `unlockedC` and a file whose
document element is `plan`. -/
theorem readFromFile_failure_leaves_empty_witness :
    ∃ m', readFromFile sampleEnv unlockedC ⟨[unlockedC], []⟩ (.document (some ⟨"plan", []⟩))
        = some m' ∧ m'.dataStorage = [] ∧ m'.rowCount = 0 :=
  readFromFile_failure_leaves_empty sampleEnv unlockedC ⟨[unlockedC], []⟩
    (.document (some ⟨"plan", []⟩)) (Or.inr (Or.inr ⟨⟨"plan", []⟩, rfl, by decide⟩))

end WaypointDataModel


namespace WaypointDataModel

/-- The index that `index(row, column)` hands out for a row outside the store is the
invalid index. -/
theorem index_out_of_range (m : WaypointDataModel) (row column : Int)
    (hrow : row < 0 ∨ m.rowCount ≤ row) : m.index row column = QModelIndex.none := by
  unfold index
  rw [if_neg]
  rintro ⟨h0, _, h1, _⟩
  rcases hrow with h | h <;> omega

/-- For a row `r` outside the store (`r < 0` or `r ≥ rowCount()`), every column and
every role, `data` returns `QVariant::Invalid`, both for the index that `index(r, c)`
hands out and for the index `(r, c)` itself, and `setData` on the index that
`index(r, c)` hands out returns false and leaves the model as it was, with every value;
so does `setData` on the index `(r, c)` itself when `r < 0`. No record is read or
written. -/
theorem out_of_range_row_rejected (env : Env) (m : WaypointDataModel) (r c role : Int)
    (value : QVariant) (hrow : r < 0 ∨ m.rowCount ≤ r) :
    data env m (m.index r c) role = QVariant.invalid ∧
    data env m ⟨r, c⟩ role = QVariant.invalid ∧
    setData env m (m.index r c) value role = some (false, m) ∧
    (r < 0 → setData env m ⟨r, c⟩ value role = some (false, m)) := by
  rw [index_out_of_range m r c hrow]
  refine ⟨?_, ?_, ?_, ?_⟩
  · unfold data
    split
    · rw [if_pos (Or.inl (by decide))]
    · rfl
  · unfold data
    split
    · rw [if_pos]
      rcases hrow with h | h
      · left
        simp [QModelIndex.isValid]
        intro h0
        omega
      · right
        show r > m.rowCount - 1
        omega
    · rfl
  · unfold setData
    rw [if_neg]
    rintro ⟨h, _⟩
    revert h
    decide
  · intro h
    unfold setData
    rw [if_neg]
    rintro ⟨hv, _⟩
    simp [QModelIndex.isValid] at hv
    omega

/-- The same at a concrete input: the store holding `unlockedC`, row 1, column 1. -/
theorem out_of_range_row_rejected_witness :
    data sampleEnv ⟨[unlockedC], []⟩ ((⟨[unlockedC], []⟩ : WaypointDataModel).index 1 1)
        Qt.EditRole = QVariant.invalid ∧
    data sampleEnv ⟨[unlockedC], []⟩ ⟨1, 1⟩ Qt.EditRole = QVariant.invalid ∧
    setData sampleEnv ⟨[unlockedC], []⟩ ((⟨[unlockedC], []⟩ : WaypointDataModel).index 1 1)
        (QVariant.double 9) Qt.EditRole = some (false, ⟨[unlockedC], []⟩) ∧
    ((1 : Int) < 0 → setData sampleEnv ⟨[unlockedC], []⟩ ⟨1, 1⟩ (QVariant.double 9) Qt.EditRole
      = some (false, ⟨[unlockedC], []⟩)) :=
  out_of_range_row_rejected sampleEnv ⟨[unlockedC], []⟩ 1 1 Qt.EditRole (QVariant.double 9)
    (Or.inr (by decide))

/-- C23: evaluations on a stale index. While the store holds two records, `index(1, 1)`
hands out the valid index `(1, 1)`; `removeRows(1, 1)` then leaves one record, so row 1
is outside the store (`r ≥ rowCount()`). For that index `data` returns
`QVariant::Invalid`, as does `data` on an empty store, but `setData` with `Qt::EditRole`
does not return false: it reads `dataStorage.at(1)`, outside the list. -/
theorem setData_stale_row_unguarded :
    (⟨[unlockedC, unlockedC], []⟩ : WaypointDataModel).index 1 1 = ⟨1, 1⟩ ∧
    removeRows ⟨[unlockedC, unlockedC], []⟩ 1 1
      = some (true, ⟨[unlockedC],
          [ModelSignal.rowsAboutToBeRemoved 1 1, ModelSignal.rowsRemoved 1 1]⟩) ∧
    rowCount ⟨[unlockedC], [ModelSignal.rowsAboutToBeRemoved 1 1, ModelSignal.rowsRemoved 1 1]⟩
      = 1 ∧
    data sampleEnv
        ⟨[unlockedC], [ModelSignal.rowsAboutToBeRemoved 1 1, ModelSignal.rowsRemoved 1 1]⟩
        ⟨1, 1⟩ Qt.EditRole = QVariant.invalid ∧
    setData sampleEnv
        ⟨[unlockedC], [ModelSignal.rowsAboutToBeRemoved 1 1, ModelSignal.rowsRemoved 1 1]⟩
        ⟨1, 1⟩ (QVariant.double 9) Qt.EditRole = none ∧
    setData sampleEnv ⟨[], []⟩ ⟨0, 0⟩ (QVariant.double 9) Qt.EditRole = none := by
  decide

/-- A refused `setData`: on a valid row that is locked, for a column other than LOCKED,
the call returns false and changes nothing. -/
theorem setData_refused (env : Env) (m : WaypointDataModel) (row : Int) (c : Column)
    (value : QVariant) (r : waypointData)
    (hrow : QList.at m.dataStorage row = some r) (hlocked : r.locked = true)
    (hc : c ≠ Column.LOCKED) :
    setData env m (m.index row c.toInt) value Qt.EditRole = some (false, m) := by
  obtain ⟨h0, _, _⟩ := QList.at_eq_some _ _ _ hrow
  obtain ⟨hc0, _⟩ := Column.toInt_range c
  rw [index_eq m row c r hrow]
  have hvalid : QModelIndex.isValid ⟨row, c.toInt⟩ = true := by
    simp [QModelIndex.isValid, h0, hc0]
  have hcol : c.toInt ≠ Column.LOCKED.toInt := by
    revert hc; cases c <;> decide
  unfold setData
  simp only [hvalid, and_self, if_true, hrow, hlocked, ne_eq, hcol, not_false_eq_true]

/-- C28: on a valid row, for each of the eleven columns, `flags` reports the cell as
editable exactly when `setData` with `Qt::EditRole` on it returns true, whatever the
value; the LOCKED cell is editable and `setData` on it returns true in every state, and
then the record differs from the one before only in `locked`, which is `value.toBool()`,
every other record being as before. -/
theorem flags_editable_iff_setData (env : Env) (m : WaypointDataModel) (row : Int) (c : Column)
    (value : QVariant) (r : waypointData) (hrow : QList.at m.dataStorage row = some r) :
    ∃ f b m', flags m (m.index row c.toInt) = some f ∧
      setData env m (m.index row c.toInt) value Qt.EditRole = some (b, m') ∧
      (Qt.editable f = true ↔ b = true) ∧
      (c = Column.LOCKED → Qt.editable f = true ∧ b = true ∧
        m'.dataStorage = m.dataStorage.set row.toNat { r with locked := value.toBool env }) := by
  have hidx := index_eq m row c r hrow
  by_cases hc : c = Column.LOCKED
  · subst hc
    refine ⟨Qt.ItemIsSelectable ||| Qt.ItemIsEditable ||| Qt.ItemIsEnabled, true, _, ?_,
      setData_accepted env m row .LOCKED value r hrow (Or.inr rfl), ?_, ?_⟩
    · rw [hidx]
      unfold flags
      rw [if_pos rfl]
    · exact ⟨fun _ => rfl, fun _ => by decide⟩
    · intro _
      exact ⟨by decide, rfl, rfl⟩
  · have hcol : c.toInt ≠ Column.LOCKED.toInt := by
      revert hc; cases c <;> decide
    cases hl : r.locked with
    | true =>
      refine ⟨Qt.ItemIsSelectable ||| Qt.ItemIsEnabled, false, m, ?_,
        setData_refused env m row c value r hrow hl hc, ?_,
        fun h => absurd h hc⟩
      · rw [hidx]
        unfold flags
        simp only [if_neg hcol, hrow, hl, if_true]
      · decide
    | false =>
      refine ⟨Qt.ItemIsSelectable ||| Qt.ItemIsEditable ||| Qt.ItemIsEnabled, true, _, ?_,
        setData_accepted env m row c value r hrow (Or.inl hl), ?_,
        fun h => absurd h hc⟩
      · rw [hidx]
        unfold flags
        simp only [if_neg hcol, hrow, hl, Bool.false_eq_true, if_false]
      · exact ⟨fun _ => rfl, fun _ => by decide⟩

/-- C28 at a concrete input: the locked record `lockedA`, column LOCKED, value false. -/
theorem flags_editable_iff_setData_witness :
    ∃ f b m', flags ⟨[lockedA], []⟩
        ((⟨[lockedA], []⟩ : WaypointDataModel).index 0 Column.LOCKED.toInt) = some f ∧
      setData sampleEnv ⟨[lockedA], []⟩
        ((⟨[lockedA], []⟩ : WaypointDataModel).index 0 Column.LOCKED.toInt)
        (QVariant.bool false) Qt.EditRole = some (b, m') ∧
      (Qt.editable f = true ↔ b = true) ∧
      (Column.LOCKED = Column.LOCKED → Qt.editable f = true ∧ b = true ∧
        m'.dataStorage = ([lockedA] : List waypointData).set (0 : Int).toNat
          { lockedA with locked := (QVariant.bool false).toBool sampleEnv }) :=
  flags_editable_iff_setData sampleEnv ⟨[lockedA], []⟩ 0 .LOCKED (QVariant.bool false) lockedA
    (by decide)

end WaypointDataModel


theorem QList.insert_between {α : Type} (A B : List α) (v : α) :
    QList.insert (A ++ B) (A.length : Int) v = A ++ v :: B := by
  unfold QList.insert
  split
  · rename_i h
    have : A.length = 0 := by omega
    rw [List.length_eq_zero] at this
    subst this
    rfl
  · split
    · rename_i h
      have hB : B.length = 0 := by
        rw [List.length_append] at h
        omega
      rw [List.length_eq_zero] at hB
      subst hB
      simp
    · simp

theorem QList.at_between {α : Type} (A B : List α) (b : α) :
    QList.at (A ++ b :: B) (A.length : Int) = some b := by
  unfold QList.at
  rw [if_pos (by omega)]
  simp only [Int.toNat_ofNat]
  rw [List.getElem?_append_right (le_refl _)]
  simp

theorem QList.removeAt_between {α : Type} (A B : List α) (b : α) :
    QList.removeAt (A ++ b :: B) (A.length : Int) = A ++ B := by
  unfold QList.removeAt
  rw [if_pos (by simp)]
  simp [List.eraseIdx_append_of_length_le]

namespace WaypointDataModel

/-- The loop of `insertRows` at a row inside the store or at its end: the new records
end up, in one block, between the records before `row` and those from `row` on. -/
theorem insertLoop_between (env : Env) (n : Nat) (A B : List waypointData)
    (e : List ModelSignal) :
    ∃ fresh, fresh.length = n ∧
      insertLoop env (A.length : Int) n ⟨A ++ B, e⟩ = ⟨A ++ fresh ++ B, e⟩ := by
  induction n generalizing B with
  | zero => exact ⟨[], rfl, by simp [insertLoop]⟩
  | succ n ih =>
    simp only [insertLoop, QList.insert_between]
    obtain ⟨fresh, hlen, hrun⟩ := ih (newRecord env ⟨A ++ B, e⟩ :: B)
    refine ⟨fresh ++ [newRecord env ⟨A ++ B, e⟩], by simp [hlen], ?_⟩
    rw [hrun]
    simp

/-- The loop of `removeRows` over `n` records that exist: they are taken out, and the
records before and after them stay, in their order. -/
theorem removeLoop_between (n : Nat) (A B : List waypointData) (h : n ≤ B.length) :
    removeLoop (A.length : Int) n (A ++ B) = some (A ++ B.drop n) := by
  induction n generalizing B with
  | zero => rfl
  | succ n ih =>
    cases B with
    | nil => simp at h
    | cons b B =>
      simp only [removeLoop, QList.at_between, QList.removeAt_between]
      rw [ih B (by simpa using h)]
      rfl

/-- C24: in a store of `n` rows, `insertRows(row, count)` with `0 ≤ row ≤ n` and
`count ≥ 0` returns true and gives a store of `n + count` rows: the records formerly
before `row`, then `count` new records, then the records formerly from `row` on, each
group in its former order; so a record formerly at an index `i < row` is at `i` and one
formerly at `i ≥ row` is at `i + count`. And `removeRows(row, count)` with `0 ≤ row`,
`count ≥ 0` and `row + count ≤ n` returns true and gives the store of `n - count` rows
made of the records formerly before `row` followed by those formerly from `row + count`
on, in their former order. -/
theorem insertRows_removeRows_shift (env : Env) (m : WaypointDataModel) (row count : Nat) :
    (row ≤ m.dataStorage.length →
      (insertRows env m row count).1 = true ∧
      ∃ fresh, fresh.length = count ∧
        (insertRows env m row count).2.dataStorage
          = m.dataStorage.take row ++ fresh ++ m.dataStorage.drop row ∧
        (insertRows env m row count).2.dataStorage.length = m.dataStorage.length + count ∧
        (∀ i, i < row → (insertRows env m row count).2.dataStorage[i]? = m.dataStorage[i]?) ∧
        (∀ i, row ≤ i →
          (insertRows env m row count).2.dataStorage[i + count]? = m.dataStorage[i]?)) ∧
    (row + count ≤ m.dataStorage.length →
      ∃ m', removeRows m row count = some (true, m') ∧
        m'.dataStorage = m.dataStorage.take row ++ m.dataStorage.drop (row + count) ∧
        m'.dataStorage.length = m.dataStorage.length - count) := by
  constructor
  · intro hrow
    refine ⟨rfl, ?_⟩
    have hA : (m.dataStorage.take row).length = row := by
      rw [List.length_take]; omega
    obtain ⟨fresh, hlen, hrun⟩ := insertLoop_between env count (m.dataStorage.take row)
      (m.dataStorage.drop row) (m.emitted ++ [ModelSignal.rowsAboutToBeInserted row (row + count - 1)])
    rw [hA, List.take_append_drop] at hrun
    have hds : (insertRows env m row count).2.dataStorage
        = m.dataStorage.take row ++ fresh ++ m.dataStorage.drop row := by
      simp only [insertRows, emit, Int.toNat_ofNat]
      rw [show ({ dataStorage := m.dataStorage, emitted := m.emitted ++
          [ModelSignal.rowsAboutToBeInserted row (row + count - 1)] } : WaypointDataModel)
        = ⟨m.dataStorage, m.emitted ++ [ModelSignal.rowsAboutToBeInserted row (row + count - 1)]⟩
        from rfl, hrun]
    refine ⟨fresh, hlen, hds, ?_, ?_, ?_⟩
    · rw [hds]
      simp only [List.length_append, List.length_take, List.length_drop]
      omega
    · intro i hi
      rw [hds, List.append_assoc, List.getElem?_append_left (by rw [hA]; exact hi)]
      exact List.getElem?_take_of_lt hi
    · intro i hi
      rw [hds, List.getElem?_append_right (by
        simp only [List.length_append, hA, hlen]; omega)]
      simp only [List.length_append, hA, hlen, List.getElem?_drop]
      congr 1
      omega
  · intro hcount
    have hA : (m.dataStorage.take row).length = row := by
      rw [List.length_take]; omega
    have hloop := removeLoop_between count (m.dataStorage.take row) (m.dataStorage.drop row)
      (by rw [List.length_drop]; omega)
    rw [hA, List.take_append_drop, List.drop_drop] at hloop
    have hneg : ¬ ((row : Int) < 0) := by omega
    refine ⟨⟨m.dataStorage.take row ++ m.dataStorage.drop (row + count),
      m.emitted ++ [ModelSignal.rowsAboutToBeRemoved row (row + count - 1)]
        ++ [ModelSignal.rowsRemoved row (row + count - 1)]⟩, ?_, rfl, ?_⟩
    · simp only [removeRows, if_neg hneg, emit, Int.toNat_ofNat, hloop]
    · simp only [List.length_append, List.length_take, List.length_drop]
      omega

/-- C24 at a concrete input: the store `[unlockedC, lockedB]`, row 1, count 1. -/
theorem insertRows_removeRows_shift_witness :
    ((insertRows sampleEnv ⟨[unlockedC, lockedB], []⟩ (1 : Nat) (1 : Nat)).1 = true ∧
      ∃ fresh, fresh.length = 1 ∧
        (insertRows sampleEnv ⟨[unlockedC, lockedB], []⟩ (1 : Nat) (1 : Nat)).2.dataStorage
          = [unlockedC, lockedB].take 1 ++ fresh ++ [unlockedC, lockedB].drop 1 ∧
        (insertRows sampleEnv ⟨[unlockedC, lockedB], []⟩ (1 : Nat) (1 : Nat)).2.dataStorage.length
          = [unlockedC, lockedB].length + 1 ∧
        (∀ i, i < 1 →
          (insertRows sampleEnv ⟨[unlockedC, lockedB], []⟩ (1 : Nat) (1 : Nat)).2.dataStorage[i]?
            = [unlockedC, lockedB][i]?) ∧
        (∀ i, 1 ≤ i →
          (insertRows sampleEnv ⟨[unlockedC, lockedB], []⟩ (1 : Nat)
              (1 : Nat)).2.dataStorage[i + 1]?
            = [unlockedC, lockedB][i]?)) ∧
    ∃ m', removeRows ⟨[unlockedC, lockedB], []⟩ (1 : Nat) (1 : Nat) = some (true, m') ∧
      m'.dataStorage = [unlockedC, lockedB].take 1 ++ [unlockedC, lockedB].drop (1 + 1) ∧
      m'.dataStorage.length = [unlockedC, lockedB].length - 1 :=
  ⟨(insertRows_removeRows_shift sampleEnv ⟨[unlockedC, lockedB], []⟩ 1 1).1 (by decide),
   (insertRows_removeRows_shift sampleEnv ⟨[unlockedC, lockedB], []⟩ 1 1).2 (by decide)⟩

end WaypointDataModel


namespace ModelUavoProxy

/-- The retry loop of `robustUpdate(Waypoint::DataFields, int)` leaves the instances
above `inst` alone. -/
theorem robustUpdateWaypointLoop_drop (chan : Channel) (data : Waypoint.DataFields)
    (inst : Nat) (n : Nat) (p : ModelUavoProxy) (k : Nat) (hk : inst < k) :
    (robustUpdateWaypointLoop chan data inst n p).2.objManager.waypoints.drop k
      = p.objManager.waypoints.drop k := by
  induction n generalizing p with
  | zero => rfl
  | succ n ih =>
    unfold robustUpdateWaypointLoop
    simp only []
    split
    · simp [deliver_waypoint_objManager, submitWaypoint, List.drop_set, hk]
    · rw [ih]
      simp [deliver_waypoint_objManager, submitWaypoint, List.drop_set, hk]

/-- The retry loop of `robustUpdate(PathSegmentDescriptor::DataFields, int)` leaves the
instances above `inst` alone. -/
theorem robustUpdatePathSegmentDescriptorLoop_drop (chan : Channel)
    (data : PathSegmentDescriptor.DataFields) (inst : Nat) (n : Nat) (p : ModelUavoProxy)
    (k : Nat) (hk : inst < k) :
    (robustUpdatePathSegmentDescriptorLoop chan data inst n p).2.objManager.pathSegmentDescriptors.drop k
      = p.objManager.pathSegmentDescriptors.drop k := by
  induction n generalizing p with
  | zero => rfl
  | succ n ih =>
    unfold robustUpdatePathSegmentDescriptorLoop
    simp only []
    split
    · simp [deliver_pathSegmentDescriptor_objManager, submitPathSegmentDescriptor, List.drop_set, hk]
    · rw [ih]
      simp [deliver_pathSegmentDescriptor_objManager, submitPathSegmentDescriptor, List.drop_set, hk]

/-- Against a channel that acknowledges everything in its window, the retry loop for a
path-segment descriptor succeeds. -/
theorem robustUpdatePathSegmentDescriptorLoop_acknowledged (chan : Channel)
    (hack : ∀ log, (chan log).inWindow = some true)
    (data : PathSegmentDescriptor.DataFields) (inst : Nat) (n : Nat) (p : ModelUavoProxy) :
    (robustUpdatePathSegmentDescriptorLoop chan data inst (n + 1) p).1 = true := by
  unfold robustUpdatePathSegmentDescriptorLoop
  simp [hack, deliver, pathSegmentDescriptorTransactionCompleted, QMap.value, QMap.insert]

/-- The create-or-reuse step of a pass of `modelToObjects` for row `x`, on a list of
instances: instance `x` exists afterwards, no instance is lost, and the instances from
`N > x` on are as before. -/
theorem registered_frame {α : Type} (l : List α) (x N : Nat) (dflt : α) (hN : x < N) :
    (if (x : Int) > (l.length : Int) - 1 then registerObject l x dflt else l).drop N = l.drop N ∧
    (if (x : Int) > (l.length : Int) - 1 then registerObject l x dflt else l).length
      = max l.length (x + 1) := by
  by_cases hc : (x : Int) > (l.length : Int) - 1
  · rw [if_pos hc]
    have hle : l.length ≤ x := by omega
    constructor
    · rw [List.drop_eq_nil_of_le (by rw [registerObject_length l x dflt hle]; omega),
        List.drop_eq_nil_of_le (by omega)]
    · rw [registerObject_length l x dflt hle]
      omega
  · rw [if_neg hc]
    exact ⟨rfl, by omega⟩

/-- The waypoint loop of `modelToObjects` over the rows `x, ..., x + n - 1`, all below
`N`: it ends normally, the instances from `N` on are as before, no instance is lost, and
against a channel that acknowledges everything the instance count ends as the larger of
the former count and `x + n`. -/
theorem waypointLoop_higher_instances (env : Env) (chan : Channel)
    (waypointModel : WaypointDataModel) (n x : Nat) (p : ModelUavoProxy) (N : Nat)
    (hN : x + n ≤ N) :
    ∃ p', waypointLoop env chan waypointModel n x p = some p' ∧
      p'.objManager.waypoints.drop N = p.objManager.waypoints.drop N ∧
      p.objManager.waypoints.length ≤ p'.objManager.waypoints.length ∧
      ((∀ log, (chan log).inWindow = some true) → x ≤ p.objManager.waypoints.length →
        p'.objManager.waypoints.length = max p.objManager.waypoints.length (x + n)) := by
  induction n generalizing x p with
  | zero => exact ⟨p, rfl, rfl, le_refl _, fun _ hx => by omega⟩
  | succ n ih =>
    unfold waypointLoop
    simp only []
    generalize hp1 : (if (x : Int) > (p.objManager.waypoints.length : Int) - 1 then
        ({ p with objManager := { p.objManager with
            waypoints := registerObject p.objManager.waypoints x env.waypointDefault } } :
              ModelUavoProxy)
      else p) = p1
    have hw1 : p1.objManager.waypoints
        = (if (x : Int) > (p.objManager.waypoints.length : Int) - 1 then
            registerObject p.objManager.waypoints x env.waypointDefault
          else p.objManager.waypoints) := by
      rw [← hp1]; split <;> rfl
    obtain ⟨hdrop1, hlen1⟩ := registered_frame p.objManager.waypoints x N env.waypointDefault
      (by omega)
    rw [← hw1] at hdrop1 hlen1
    obtain ⟨wp, hwp⟩ : ∃ wp, p1.objManager.waypoints[x]? = some wp := by
      obtain ⟨w, hw⟩ := registered_getElem p.objManager.waypoints x env.waypointDefault
      exact ⟨w, by rw [hw1]; exact hw⟩
    simp only [hwp, robustUpdateWaypoint]
    have hdrop2 := robustUpdateWaypointLoop_drop chan (waypointFields env waypointModel x wp) x 10
      p1 N (by omega)
    obtain ⟨_, _, _, _, _, hlen2, _, _, _⟩ :=
      robustUpdateWaypointLoop_spec chan (waypointFields env waypointModel x wp) x 10 p1
    have htrue : (∀ log, (chan log).inWindow = some true) →
        (robustUpdateWaypointLoop chan (waypointFields env waypointModel x wp) x 10 p1).1 = true :=
      fun hack => robustUpdateWaypointLoop_true chan _ x 10 p1 ⟨0, by omega, hack _⟩
    generalize robustUpdateWaypointLoop chan (waypointFields env waypointModel x wp) x 10 p1 = r
      at hdrop2 hlen2 htrue
    obtain ⟨b, p2⟩ := r
    simp only at hdrop2 hlen2 htrue
    cases b with
    | true =>
      simp only []
      obtain ⟨p', hrun, hdrop, hlen, hall⟩ := ih (x + 1) p2 (by omega)
      refine ⟨p', hrun, by rw [hdrop, hdrop2, hdrop1], by omega, ?_⟩
      intro hack hx
      rw [hall hack (by omega)]
      omega
    | false =>
      simp only []
      refine ⟨p2, rfl, by rw [hdrop2, hdrop1], by omega, ?_⟩
      intro hack _
      exact absurd (htrue hack) (by decide)

/-- The path-segment loop of `modelToObjects` over the rows `x, ..., x + n - 1`, all below
`N`: it ends normally, the instances from `N` on are as before, no instance is lost, and
against a channel that acknowledges everything the instance count ends as the larger of
the former count and `x + n`. -/
theorem pathSegmentDescriptorLoop_higher_instances (env : Env) (chan : Channel)
    (pathSegmentModel : PathSegmentDataModel) (n x : Nat) (p : ModelUavoProxy) (N : Nat)
    (hN : x + n ≤ N) :
    ∃ p', pathSegmentDescriptorLoop env chan pathSegmentModel n x p = some p' ∧
      p'.objManager.pathSegmentDescriptors.drop N = p.objManager.pathSegmentDescriptors.drop N ∧
      p.objManager.pathSegmentDescriptors.length ≤ p'.objManager.pathSegmentDescriptors.length ∧
      ((∀ log, (chan log).inWindow = some true) →
        x ≤ p.objManager.pathSegmentDescriptors.length →
        p'.objManager.pathSegmentDescriptors.length
          = max p.objManager.pathSegmentDescriptors.length (x + n)) := by
  induction n generalizing x p with
  | zero => exact ⟨p, rfl, rfl, le_refl _, fun _ hx => by omega⟩
  | succ n ih =>
    unfold pathSegmentDescriptorLoop
    simp only []
    generalize hp1 : (if (x : Int) > (p.objManager.pathSegmentDescriptors.length : Int) - 1 then
        ({ p with objManager := { p.objManager with
            pathSegmentDescriptors := registerObject p.objManager.pathSegmentDescriptors x
              env.pathSegmentDescriptorDefault } } : ModelUavoProxy)
      else p) = p1
    have hw1 : p1.objManager.pathSegmentDescriptors
        = (if (x : Int) > (p.objManager.pathSegmentDescriptors.length : Int) - 1 then
            registerObject p.objManager.pathSegmentDescriptors x env.pathSegmentDescriptorDefault
          else p.objManager.pathSegmentDescriptors) := by
      rw [← hp1]; split <;> rfl
    obtain ⟨hdrop1, hlen1⟩ := registered_frame p.objManager.pathSegmentDescriptors x N
      env.pathSegmentDescriptorDefault (by omega)
    rw [← hw1] at hdrop1 hlen1
    obtain ⟨psd, hpsd⟩ : ∃ psd, p1.objManager.pathSegmentDescriptors[x]? = some psd := by
      obtain ⟨w, hw⟩ := registered_getElem p.objManager.pathSegmentDescriptors x
        env.pathSegmentDescriptorDefault
      exact ⟨w, by rw [hw1]; exact hw⟩
    simp only [hpsd, robustUpdatePathSegmentDescriptor]
    have hdrop2 := robustUpdatePathSegmentDescriptorLoop_drop chan
      (pathSegmentDescriptorFields env pathSegmentModel x psd) x 10 p1 N (by omega)
    have hlen2 := robustUpdatePathSegmentDescriptorLoop_length chan
      (pathSegmentDescriptorFields env pathSegmentModel x psd) x 10 p1
    have htrue : (∀ log, (chan log).inWindow = some true) →
        (robustUpdatePathSegmentDescriptorLoop chan
          (pathSegmentDescriptorFields env pathSegmentModel x psd) x 10 p1).1 = true :=
      fun hack => robustUpdatePathSegmentDescriptorLoop_acknowledged chan hack _ x 9 p1
    generalize robustUpdatePathSegmentDescriptorLoop chan
      (pathSegmentDescriptorFields env pathSegmentModel x psd) x 10 p1 = r
      at hdrop2 hlen2 htrue
    obtain ⟨b, p2⟩ := r
    simp only at hdrop2 hlen2 htrue
    cases b with
    | true =>
      simp only []
      obtain ⟨p', hrun, hdrop, hlen, hall⟩ := ih (x + 1) p2 (by omega)
      refine ⟨p', hrun, by rw [hdrop, hdrop2, hdrop1], by omega, ?_⟩
      intro hack hx
      rw [hall hack (by omega)]
      omega
    | false =>
      simp only []
      refine ⟨p2, rfl, by rw [hdrop2, hdrop1], by omega, ?_⟩
      intro hack _
      exact absurd (htrue hack) (by decide)

theorem getElem_of_drop_eq {α : Type} (l l' : List α) (N i : Nat) (h : l'.drop N = l.drop N)
    (hi : N ≤ i) : l'[i]? = l[i]? := by
  have h1 : (l'.drop N)[i - N]? = (l.drop N)[i - N]? := by rw [h]
  rw [List.getElem?_drop, List.getElem?_drop] at h1
  rw [show N + (i - N) = i by omega] at h1
  exact h1

/-- C29: for every channel, `modelToObjects` ends normally and neither removes nor
modifies an instance whose index is at least the row count of the local store: every
waypoint instance with index `i ≥ n` (`n` the rows of the waypoint store) and every
path-segment descriptor instance with index `i ≥ n'` (`n'` the rows of the path-segment
store) holds its former data, and neither instance count goes down. When the channel
acknowledges every submission, and instance 0 of both objects exists, the instance
counts end as `max(m, n)` and `max(m', n')`. -/
theorem modelToObjects_keeps_higher_instances (env : Env) (chan : Channel)
    (waypointModel : WaypointDataModel) (pathSegmentModel : PathSegmentDataModel)
    (p : ModelUavoProxy) :
    ∃ p', modelToObjects env chan waypointModel pathSegmentModel p = some p' ∧
      (∀ i, waypointModel.dataStorage.length ≤ i →
        p'.objManager.waypoints[i]? = p.objManager.waypoints[i]?) ∧
      p.objManager.waypoints.length ≤ p'.objManager.waypoints.length ∧
      (∀ i, pathSegmentModel.dataStorage.length ≤ i →
        p'.objManager.pathSegmentDescriptors[i]? = p.objManager.pathSegmentDescriptors[i]?) ∧
      p.objManager.pathSegmentDescriptors.length ≤ p'.objManager.pathSegmentDescriptors.length ∧
      ((∀ log, (chan log).inWindow = some true) →
        p.objManager.waypoints ≠ [] → p.objManager.pathSegmentDescriptors ≠ [] →
        p'.objManager.waypoints.length
          = max p.objManager.waypoints.length waypointModel.dataStorage.length ∧
        p'.objManager.pathSegmentDescriptors.length
          = max p.objManager.pathSegmentDescriptors.length pathSegmentModel.dataStorage.length) := by
  unfold modelToObjects
  by_cases hw : p.objManager.waypoints = []
  · exact ⟨p, by simp [hw], fun _ _ => rfl, le_refl _, fun _ _ => rfl, le_refl _,
      fun _ h _ => absurd hw h⟩
  by_cases hs : p.objManager.pathSegmentDescriptors = []
  · exact ⟨p, by simp [hw, hs], fun _ _ => rfl, le_refl _, fun _ _ => rfl, le_refl _,
      fun _ _ h => absurd hs h⟩
  obtain ⟨p2, hrun1, hdrop1, hlen1, hall1⟩ :=
    waypointLoop_higher_instances env chan waypointModel waypointModel.dataStorage.length 0
      (setWaypointMetadata p (SetFlightTelemetryAcked p.objManager.waypointMetadata true))
      waypointModel.dataStorage.length (by omega)
  obtain ⟨_, _, hrun1', _, _, _, hpsd1, _⟩ :=
    waypointLoop_spec env chan waypointModel waypointModel.dataStorage.length 0
      (setWaypointMetadata p (SetFlightTelemetryAcked p.objManager.waypointMetadata true))
  rw [hrun1] at hrun1'
  cases hrun1'
  obtain ⟨p3, hrun2, hdrop2, hlen2, hall2⟩ :=
    pathSegmentDescriptorLoop_higher_instances env chan pathSegmentModel
      pathSegmentModel.dataStorage.length 0
      (setPathSegmentDescriptorMetadata (setWaypointMetadata p2 p.objManager.waypointMetadata)
        (SetFlightTelemetryAcked
          (setWaypointMetadata p2 p.objManager.waypointMetadata).objManager.pathSegmentDescriptorMetadata
          true))
      pathSegmentModel.dataStorage.length (by omega)
  obtain ⟨_, _, hrun2', _, _, _, hwp2, _⟩ :=
    pathSegmentDescriptorLoop_acked env chan pathSegmentModel
      pathSegmentModel.dataStorage.length 0
      (setPathSegmentDescriptorMetadata (setWaypointMetadata p2 p.objManager.waypointMetadata)
        (SetFlightTelemetryAcked
          (setWaypointMetadata p2 p.objManager.waypointMetadata).objManager.pathSegmentDescriptorMetadata
          true))
  rw [hrun2] at hrun2'
  cases hrun2'
  simp only [setWaypointMetadata, setPathSegmentDescriptorMetadata] at hdrop1 hlen1 hall1 hpsd1
  simp only [setWaypointMetadata, setPathSegmentDescriptorMetadata] at hdrop2 hlen2 hall2 hwp2
  refine ⟨setPathSegmentDescriptorMetadata p3
    (setWaypointMetadata p2 p.objManager.waypointMetadata).objManager.pathSegmentDescriptorMetadata,
    ?_, ?_, ?_, ?_, ?_, ?_⟩
  · simp only [hw, hs, if_false, waypointPhase, WaypointDataModel.rowCount, Int.toNat_ofNat, hrun1,
      pathSegmentDescriptorPhase, PathSegmentDataModel.rowCount, hrun2]
  · intro i hi
    simp only [setPathSegmentDescriptorMetadata, hwp2]
    exact getElem_of_drop_eq _ _ _ i hdrop1 hi
  · simp only [setPathSegmentDescriptorMetadata, hwp2]
    exact hlen1
  · intro i hi
    simp only [setPathSegmentDescriptorMetadata]
    rw [← hpsd1]
    exact getElem_of_drop_eq _ _ _ i hdrop2 hi
  · simp only [setPathSegmentDescriptorMetadata]
    rw [← hpsd1]
    exact hlen2
  · intro hack _ _
    simp only [setPathSegmentDescriptorMetadata, hwp2]
    refine ⟨?_, ?_⟩
    · rw [hall1 hack (by omega)]
      simp
    · rw [hall2 hack (by omega), hpsd1]
      simp

/-- C29 at a concrete input: the proxy `oneEach`, whose object manager holds one instance
of each object, two local waypoints and no local path segment, and the channel that
acknowledges everything. -/
theorem modelToObjects_keeps_higher_instances_witness :
    ∃ p', modelToObjects sampleEnv acknowledgesAll ⟨[unlockedC, lockedB], []⟩ ⟨[], []⟩ oneEach
        = some p' ∧
      p'.objManager.waypoints.length = max oneEach.objManager.waypoints.length
        ([unlockedC, lockedB] : List waypointData).length ∧
      p'.objManager.pathSegmentDescriptors.length
        = max oneEach.objManager.pathSegmentDescriptors.length
          ([] : List pathSegmentData).length := by
  obtain ⟨p', hrun, _, _, _, _, hall⟩ :=
    modelToObjects_keeps_higher_instances sampleEnv acknowledgesAll ⟨[unlockedC, lockedB], []⟩
      ⟨[], []⟩ oneEach
  exact ⟨p', hrun, hall (fun _ => rfl) (by decide) (by decide)⟩

end ModelUavoProxy


namespace MapArc.OnDoubles

/-- C10, as stated, fails on doubles: for the point `P = (inf, 0)`, radius 1 and both
flags true, `start == end == P` holds, `inf - inf` is NaN, so the test
`fabs(..) < 1e-6` is false and the function returns `ARC_CENTER_FOUND` with the centre
`(NaN, NaN)`. The square root of the finite numbers, here `Rat.sqrt`, plays no part. -/
theorem findArcCenter_px_infinite_point :
    findArcCenter_px Rat.sqrt (.inf false, .finite 0) (.inf false, .finite 0) (.finite 1)
      true true = (.ARC_CENTER_FOUND, (.nan, .nan)) := by
  simp [findArcCenter_px, centerAlong, Double.sub, Double.add, Double.neg, Double.fabs,
    Double.lt, Double.mul, Double.div, Double.sqrt]

/-- C10 (amended): for every point `P` with finite coordinates, every radius (a number,
an infinity or NaN) and both flags, `findArcCenter_px` called with `start == end == P`
returns `ARC_COINCIDENT_POINTS`, with the centre set to NaN, and never
`ARC_CENTER_FOUND`. -/
theorem findArcCenter_px_coincident_finite (sqrtQ : ℚ → ℚ) (x y : ℚ) (radius : Double)
    (clockwise minor : Bool) :
    findArcCenter_px sqrtQ (.finite x, .finite y) (.finite x, .finite y) radius clockwise minor
      = (.ARC_COINCIDENT_POINTS, (.nan, .nan)) ∧
    (findArcCenter_px sqrtQ (.finite x, .finite y) (.finite x, .finite y) radius clockwise
      minor).1 ≠ .ARC_CENTER_FOUND := by
  have h : findArcCenter_px sqrtQ (.finite x, .finite y) (.finite x, .finite y) radius
      clockwise minor = (.ARC_COINCIDENT_POINTS, (.nan, .nan)) := by
    unfold findArcCenter_px
    rw [if_pos]
    simp [Double.sub, Double.add, Double.neg, Double.fabs, Double.lt]
  rw [h]
  exact ⟨rfl, fun hne => by cases hne⟩

end MapArc.OnDoubles


namespace ProxyWorld

/-- The six calls of a pass leave the objects as they were and fetch the record that
`ModelUavoProxy.waypointFields` describes. -/
theorem waypointFields_eq (env : Env) (w : ProxyWorld) (x : Nat) (wp : Waypoint.DataFields) :
    waypointFields env w x wp = (ModelUavoProxy.waypointFields env w.waypointModel x wp, w) :=
  rfl

/-- The six calls of a pass leave the objects as they were and fetch the record that
`ModelUavoProxy.pathSegmentDescriptorFields` describes. -/
theorem pathSegmentDescriptorFields_eq (env : Env) (w : ProxyWorld) (x : Nat)
    (psd : PathSegmentDescriptor.DataFields) :
    pathSegmentDescriptorFields env w x psd
      = (ModelUavoProxy.pathSegmentDescriptorFields env w.pathSegmentModel x psd, w) :=
  rfl

/-- The first loop on the objects, with `n` rows left and more than `n` evaluations of
its condition allowed: the proxy ends as in the loop of `n` passes over the waypoint
model, and the two models are handed on as they were. -/
theorem waypointLoop_eq (env : Env) (chan : Channel) (n : Nat) :
    ∀ (x : Nat) (w : ProxyWorld) (fuel : Nat),
      x + n = w.waypointModel.dataStorage.length → n < fuel →
      waypointLoop env chan fuel x w
        = (ModelUavoProxy.waypointLoop env chan w.waypointModel n x w.proxy).map
            (fun p => { w with proxy := p }) := by
  induction n with
  | zero =>
    intro x w fuel hx hfuel
    obtain ⟨f, rfl⟩ : ∃ f, fuel = f + 1 := ⟨fuel - 1, by omega⟩
    have hc : ¬ ((x : Int) < w.waypointModel.rowCount) := by
      unfold WaypointDataModel.rowCount; omega
    simp only [waypointLoop, waypointRowCount, if_neg hc, ModelUavoProxy.waypointLoop,
      Option.map_some']
  | succ n ih =>
    intro x w fuel hx hfuel
    obtain ⟨f, rfl⟩ : ∃ f, fuel = f + 1 := ⟨fuel - 1, by omega⟩
    have hc : (x : Int) < w.waypointModel.rowCount := by
      unfold WaypointDataModel.rowCount; omega
    rw [waypointLoop, ModelUavoProxy.waypointLoop]
    simp only [waypointRowCount, if_pos hc, waypointFields_eq]
    by_cases hreg : (x : Int) > (w.proxy.objManager.waypoints.length : Int) - 1
    · simp only [if_pos hreg]
      cases hget : (ModelUavoProxy.registerObject w.proxy.objManager.waypoints x
          env.waypointDefault)[x]? with
      | none => rfl
      | some wp =>
        simp only []
        cases hrun : ModelUavoProxy.robustUpdateWaypoint chan
            { w.proxy with objManager := { w.proxy.objManager with
                waypoints := ModelUavoProxy.registerObject w.proxy.objManager.waypoints x
                  env.waypointDefault } }
            (ModelUavoProxy.waypointFields env w.waypointModel x wp) x with
        | none => rfl
        | some r =>
          obtain ⟨b, p2⟩ := r
          cases b with
          | true =>
            simp only []
            rw [ih (x + 1) _ f (by simpa using (by omega : x + 1 + n = w.waypointModel.dataStorage.length))
              (by omega)]
          | false => rfl
    · simp only [if_neg hreg]
      cases hget : w.proxy.objManager.waypoints[x]? with
      | none => rfl
      | some wp =>
        simp only []
        cases hrun : ModelUavoProxy.robustUpdateWaypoint chan w.proxy
            (ModelUavoProxy.waypointFields env w.waypointModel x wp) x with
        | none => rfl
        | some r =>
          obtain ⟨b, p2⟩ := r
          cases b with
          | true =>
            simp only []
            rw [ih (x + 1) _ f (by simpa using (by omega : x + 1 + n = w.waypointModel.dataStorage.length))
              (by omega)]
          | false => rfl

/-- The second loop on the objects, with `n` rows left and more than `n` evaluations of
its condition allowed: the proxy ends as in the loop of `n` passes over the path-segment
model, and the two models are handed on as they were. -/
theorem pathSegmentDescriptorLoop_eq (env : Env) (chan : Channel) (n : Nat) :
    ∀ (x : Nat) (w : ProxyWorld) (fuel : Nat),
      x + n = w.pathSegmentModel.dataStorage.length → n < fuel →
      pathSegmentDescriptorLoop env chan fuel x w
        = (ModelUavoProxy.pathSegmentDescriptorLoop env chan w.pathSegmentModel n x w.proxy).map
            (fun p => { w with proxy := p }) := by
  induction n with
  | zero =>
    intro x w fuel hx hfuel
    obtain ⟨f, rfl⟩ : ∃ f, fuel = f + 1 := ⟨fuel - 1, by omega⟩
    have hc : ¬ ((x : Int) < w.pathSegmentModel.rowCount) := by
      unfold PathSegmentDataModel.rowCount; omega
    simp only [pathSegmentDescriptorLoop, pathSegmentRowCount, if_neg hc,
      ModelUavoProxy.pathSegmentDescriptorLoop, Option.map_some']
  | succ n ih =>
    intro x w fuel hx hfuel
    obtain ⟨f, rfl⟩ : ∃ f, fuel = f + 1 := ⟨fuel - 1, by omega⟩
    have hc : (x : Int) < w.pathSegmentModel.rowCount := by
      unfold PathSegmentDataModel.rowCount; omega
    rw [pathSegmentDescriptorLoop, ModelUavoProxy.pathSegmentDescriptorLoop]
    simp only [pathSegmentRowCount, if_pos hc, pathSegmentDescriptorFields_eq]
    by_cases hreg : (x : Int) > (w.proxy.objManager.pathSegmentDescriptors.length : Int) - 1
    · simp only [if_pos hreg]
      cases hget : (ModelUavoProxy.registerObject w.proxy.objManager.pathSegmentDescriptors x
          env.pathSegmentDescriptorDefault)[x]? with
      | none => rfl
      | some psd =>
        simp only []
        cases hrun : ModelUavoProxy.robustUpdatePathSegmentDescriptor chan
            { w.proxy with objManager := { w.proxy.objManager with
                pathSegmentDescriptors :=
                  ModelUavoProxy.registerObject w.proxy.objManager.pathSegmentDescriptors x
                    env.pathSegmentDescriptorDefault } }
            (ModelUavoProxy.pathSegmentDescriptorFields env w.pathSegmentModel x psd) x with
        | none => rfl
        | some r =>
          obtain ⟨b, p2⟩ := r
          cases b with
          | true =>
            simp only []
            rw [ih (x + 1) _ f
              (by simpa using (by omega : x + 1 + n = w.pathSegmentModel.dataStorage.length))
              (by omega)]
          | false => rfl
    · simp only [if_neg hreg]
      cases hget : w.proxy.objManager.pathSegmentDescriptors[x]? with
      | none => rfl
      | some psd =>
        simp only []
        cases hrun : ModelUavoProxy.robustUpdatePathSegmentDescriptor chan w.proxy
            (ModelUavoProxy.pathSegmentDescriptorFields env w.pathSegmentModel x psd) x with
        | none => rfl
        | some r =>
          obtain ⟨b, p2⟩ := r
          cases b with
          | true =>
            simp only []
            rw [ih (x + 1) _ f
              (by simpa using (by omega : x + 1 + n = w.pathSegmentModel.dataStorage.length))
              (by omega)]
          | false => rfl

/-- C15: for every content of the two local stores and every behaviour of the channel,
`modelToObjects`, run on the proxy and its two models with every call it makes on a model
in its place, ends normally (each loop within one more evaluation of its condition than
the store has rows) and hands back both stores as they were (same rows, same order, same
field values, same emitted signals), whether the push succeeds or fails; what it does to
the proxy and the object manager is what `ModelUavoProxy.modelToObjects` describes. -/
theorem modelToObjects_keeps_stores (env : Env) (chan : Channel) (fuel : Nat) (w : ProxyWorld)
    (hw : w.waypointModel.dataStorage.length < fuel)
    (hs : w.pathSegmentModel.dataStorage.length < fuel) :
    ∃ w', modelToObjects env chan fuel w = some w' ∧
      w'.waypointModel = w.waypointModel ∧ w'.pathSegmentModel = w.pathSegmentModel ∧
      ModelUavoProxy.modelToObjects env chan w.waypointModel w.pathSegmentModel w.proxy
        = some w'.proxy := by
  unfold modelToObjects ModelUavoProxy.modelToObjects
  by_cases hwp : w.proxy.objManager.waypoints = []
  · exact ⟨w, by simp [hwp], rfl, rfl, by simp [hwp]⟩
  by_cases hpsd : w.proxy.objManager.pathSegmentDescriptors = []
  · exact ⟨w, by simp [hwp, hpsd], rfl, rfl, by simp [hwp, hpsd]⟩
  simp only [if_neg hwp, if_neg hpsd, ModelUavoProxy.waypointPhase,
    ModelUavoProxy.pathSegmentDescriptorPhase, WaypointDataModel.rowCount,
    PathSegmentDataModel.rowCount, Int.toNat_ofNat]
  rw [waypointLoop_eq env chan w.waypointModel.dataStorage.length 0 _ fuel (by simp) hw]
  obtain ⟨p2, _, hrun1, _⟩ :=
    ModelUavoProxy.waypointLoop_spec env chan w.waypointModel w.waypointModel.dataStorage.length 0
      (ModelUavoProxy.setWaypointMetadata w.proxy
        (SetFlightTelemetryAcked w.proxy.objManager.waypointMetadata true))
  simp only [hrun1, Option.map_some']
  rw [pathSegmentDescriptorLoop_eq env chan w.pathSegmentModel.dataStorage.length 0 _ fuel
    (by simp) hs]
  obtain ⟨p3, _, hrun2, _⟩ :=
    ModelUavoProxy.pathSegmentDescriptorLoop_acked env chan w.pathSegmentModel
      w.pathSegmentModel.dataStorage.length 0
      (ModelUavoProxy.setPathSegmentDescriptorMetadata
        (ModelUavoProxy.setWaypointMetadata p2 w.proxy.objManager.waypointMetadata)
        (SetFlightTelemetryAcked
          (ModelUavoProxy.setWaypointMetadata p2
            w.proxy.objManager.waypointMetadata).objManager.pathSegmentDescriptorMetadata true))
  simp only [hrun2, Option.map_some']
  exact ⟨_, rfl, rfl, rfl, rfl⟩

/-- C15 at a concrete input: a waypoint store with a locked and an unlocked record, a
path-segment store with one record, the proxy `oneEach`, and the channel that lets every
waypoint submission time out, so that the push fails. -/
theorem modelToObjects_keeps_stores_witness :
    ∃ w', modelToObjects sampleEnv waypointsTimeOut 3
        ⟨⟨[lockedA, unlockedC], []⟩, ⟨[segmentS], []⟩, oneEach⟩ = some w' ∧
      w'.waypointModel = ⟨[lockedA, unlockedC], []⟩ ∧ w'.pathSegmentModel = ⟨[segmentS], []⟩ ∧
      ModelUavoProxy.modelToObjects sampleEnv waypointsTimeOut ⟨[lockedA, unlockedC], []⟩
        ⟨[segmentS], []⟩ oneEach = some w'.proxy :=
  modelToObjects_keeps_stores sampleEnv waypointsTimeOut 3
    ⟨⟨[lockedA, unlockedC], []⟩, ⟨[segmentS], []⟩, oneEach⟩ (by decide) (by decide)

end ProxyWorld

end TauLabs
